import Mathlib

/-!
Smart-Solve: the messaging core.

A shallow embedding of the message model (`backend/models/message.model.js`), the message
controller (`backend/controllers/message.controller.js`), the `join_chat` and `send_message`
socket handlers (`backend/sockets/index.js`), the `authenticate` middleware
(`backend/middlewares/auth.middleware.js`), the Socket.IO middleware of `backend/app.js`,
the handlers `createQuestion`, `getQuestions` (its filter), `voteQuestion` and `voteAnswer`
(`backend/controllers/question.controller.js`), `requestPasswordReset` and `refreshToken`
(`backend/controllers/auth.controller.js`) and `updateProfile`
(`backend/controllers/user.controller.js`).

Modelling conventions.

* A JavaScript string is the list of its UTF-16 code units; the order used by the default
  `Array.prototype.sort` comparator is the lexicographic order on code units.
* An `ObjectId` is represented by its `toString()` rendering. The handlers `sendMessage`,
  `getMessages`, `markAsRead` and `deleteMessage` act on ids that are `ObjectId`s; the cast of
  a request string to an `ObjectId`, which fails with a `CastError` on a malformed string, is
  in `markAsReadRequest`, `deleteMessageRequest` and `GetMessagesResponse`, which take the
  cast as a parameter.
* The collection is the list of its documents in insertion order. The results of
  `find(...).sort({createdAt: 1})` are the sequences `IsConversationResult` admits: the
  matching documents in non-decreasing `createdAt` order, the order of documents with the same
  `createdAt` being left open, as the database leaves it. The function `conversationOf`
  computes one of them. The database itself is taken to be reliable: the only way `save()`
  rejects is a failed schema validation or an exception thrown by a hook.
* `Document.prototype.save` follows the Mongoose order of operations: the built-in validation
  hook runs first, then the hooks registered with `schema.pre('save', ...)`, then the write.
  The `enum` validator of a string path rejects `null`.
* Each handler that saves a document has a body that takes the `save()` call as a parameter
  (`sendMessageWith`, `onSendMessageWith`, `createQuestionWith`); the handler is that body
  with the save of the model (`save`, `saveQuestion`). Statements about what a handler does
  once the save has succeeded are made for every behaviour of `save()`.
* A handler receives the current time `now` and, where it constructs a document, the fresh
  `_id` generated for it.
* Calls into code outside the controllers (`jwt.verify`, `jwt.sign`, the upload, cache and
  mail services, the text search of the database and the application of a client-supplied
  `$set` document) are parameters: each call resolves with a value or rejects with an error.
  The notification service, whose file is not among the sources, is modelled from the spec:
  it resolves with a delivery outcome. Random values (`crypto.randomBytes`) are arguments of
  the handler.
-/

namespace SmartSolve

/-! ## JavaScript strings -/

/-- A JavaScript string: the list of its UTF-16 code units. -/
abbrev JsString := List Nat

/-- Code units of a literal made of Basic Multilingual Plane characters. -/
def str (s : String) : JsString := s.toList.map Char.toNat

/-- Strict string comparison `x < y` of JavaScript: lexicographic on code units, a proper
prefix being smaller. -/
def strLt : JsString → JsString → Bool
  | [], [] => false
  | [], _ :: _ => true
  | _ :: _, [] => false
  | a :: as, b :: bs => if a < b then true else if b < a then false else strLt as bs

/-- The default sort comparator never places `y` before `x` when this holds: `!(y < x)`. -/
def strLe (x y : JsString) : Bool := !strLt y x

/-- Insertion of `x` into a sorted list, before the first element not below it. -/
def insertSorted {α : Type} (le : α → α → Bool) (x : α) : List α → List α
  | [] => [x]
  | y :: ys => if le x y then x :: y :: ys else y :: insertSorted le x ys

/-- A stable sort for the comparison `le`. -/
def stableSort {α : Type} (le : α → α → Bool) : List α → List α
  | [] => []
  | x :: xs => insertSorted le x (stableSort le xs)

/-- The method `Array.prototype.sort()` without comparator, on an array of strings. -/
def jsSort (xs : List JsString) : List JsString := stableSort strLe xs

/-- The method `Array.prototype.join(sep)` on an array of strings. -/
def join (sep : JsString) : List JsString → JsString
  | [] => []
  | [x] => x
  | x :: y :: ys => x ++ sep ++ join sep (y :: ys)

/-- The code units removed by `String.prototype.trim`: WhiteSpace and LineTerminator. -/
def isWhiteSpace (c : Nat) : Bool :=
  c == 9 || c == 10 || c == 11 || c == 12 || c == 13 || c == 32 || c == 160 || c == 5760 ||
  (8192 ≤ c && c ≤ 8202) || c == 8232 || c == 8233 || c == 8239 || c == 8287 || c == 12288 ||
  c == 65279

/-- The method `String.prototype.trim`. -/
def trim (s : JsString) : JsString :=
  ((s.dropWhile isWhiteSpace).reverse.dropWhile isWhiteSpace).reverse

/-- A value of type string-or-undefined is truthy when it is a non-empty string. -/
def truthy : Option JsString → Bool
  | none => false
  | some s => !s.isEmpty

/-! ## The Message model -/

/-- An `ObjectId`, represented by its `toString()` rendering. -/
abbrev ObjectId := JsString

/-- An element of `attachments`. -/
structure Attachment where
  url : Option JsString
  filename : Option JsString
  mimetype : Option JsString
  size : Option Nat
deriving DecidableEq, Repr

/-- A document of `messageSchema`; `none` is `undefined` or `null`. Dates are numbers. -/
structure Message where
  _id : ObjectId
  sender : Option ObjectId
  receiver : Option ObjectId
  conversation : Option JsString
  content : Option JsString
  attachments : List Attachment
  isRead : Bool
  readAt : Option Nat
  isDeleted : Bool
  deletedAt : Option Nat
  deletedBy : Option ObjectId
  createdAt : Option Nat
  updatedAt : Option Nat
deriving DecidableEq, Repr

/-- The errors a handler can catch. -/
inductive Err where
  | validation (paths : List String)
  | typeError
  | rejected (reason : String)
  | castError (value : JsString)
deriving DecidableEq, Repr

deriving instance DecidableEq for Except

/-- The separator `'_'`. -/
def underscore : JsString := [95]

/-- The key computed in the pre-save hook:
`[sender.toString(), receiver.toString()].sort().join('_')`. -/
def conversationKey (sender receiver : ObjectId) : JsString :=
  join underscore (jsSort [sender, receiver])

/-- The hook `messageSchema.pre('save', ...)`: when `this.conversation` is falsy it is set to
the key of sender and receiver; calling `toString()` on a missing id throws. -/
def preSave (doc : Message) : Except Err Message :=
  if truthy doc.conversation then .ok doc
  else
    match doc.sender, doc.receiver with
    | some s, some r => .ok { doc with conversation := some (conversationKey s r) }
    | _, _ => .error .typeError

/-- The call `new Message({ sender, receiver, content })`: the given paths are set (`content`
through its `trim` setter), the others take their schema defaults. -/
def newMessage (id : ObjectId) (sender receiver : Option ObjectId)
    (content : Option JsString) : Message :=
  { _id := id, sender := sender, receiver := receiver, conversation := none,
    content := content.map trim, attachments := [], isRead := false, readAt := none,
    isDeleted := false, deletedAt := none, deletedBy := none, createdAt := none,
    updatedAt := none }

/-- The paths failing their `required: true` validator, in schema order: an id must be
present, a string must be present and non-empty. -/
def missingPaths (doc : Message) : List String :=
  (if doc.sender.isSome then [] else ["sender"]) ++
  (if doc.receiver.isSome then [] else ["receiver"]) ++
  (if truthy doc.conversation then [] else ["conversation"]) ++
  (if truthy doc.content then [] else ["content"])

/-- Schema validation: a `ValidationError` naming every failing path. -/
def validate (doc : Message) : Except Err Unit :=
  if missingPaths doc = [] then .ok () else .error (.validation (missingPaths doc))

/-- The timestamps of `timestamps: true`, set when a document is saved. -/
def stamp (now : Nat) (isNew : Bool) (doc : Message) : Message :=
  if isNew then { doc with createdAt := some now, updatedAt := some now }
  else { doc with updatedAt := some now }

/-- The query `Message.findById(id)` once the id is cast to an `ObjectId`: the comparison
is between `ObjectId`s. The cast of the request string is in `markAsReadRequest` and
`deleteMessageRequest`. -/
def findById (store : List Message) (id : ObjectId) : Option Message :=
  store.find? (fun m => m._id == id)

/-- Application of `f` to the first document with the given `_id`. -/
def updateById (id : ObjectId) (f : Message → Message) : List Message → List Message
  | [] => []
  | m :: ms => if m._id == id then f m :: ms else m :: updateById id f ms

/-- The method `doc.save()`: validation, then the pre-save hook, then the write (an insert
for a new document, an update of the stored document otherwise). Returns the new collection
and the saved document. -/
def save (store : List Message) (now : Nat) (isNew : Bool) (doc : Message) :
    Except Err (List Message × Message) :=
  match validate doc with
  | .error e => .error e
  | .ok () =>
    match preSave doc with
    | .error e => .error e
    | .ok hooked =>
      let saved := stamp now isNew hooked
      if isNew then .ok (store ++ [saved], saved)
      else .ok (updateById saved._id (fun _ => saved) store, saved)

/-- The type of `doc.save()`: from the collection, the current time, whether the document is
new and the document, to an error or the new collection with the saved document. -/
abbrev SaveFn := List Message → Nat → Bool → Message → Except Err (List Message × Message)

/-- A save in which the hook runs before validation, as it would if the hook were registered
for `validate`: the order that the comment on the hook, `Create conversation ID before
saving`, takes for granted. It is not the save of the program, which is `save`. -/
def saveHookFirst (store : List Message) (now : Nat) (isNew : Bool) (doc : Message) :
    Except Err (List Message × Message) :=
  match preSave doc with
  | .error e => .error e
  | .ok hooked =>
    match validate hooked with
    | .error e => .error e
    | .ok () =>
      let saved := stamp now isNew hooked
      if isNew then .ok (store ++ [saved], saved)
      else .ok (updateById saved._id (fun _ => saved) store, saved)

/-- A save writes the document it is given: a successful save of a new document appends the
saved document to the collection, and the saved document has the `_id`, sender, receiver and
content of the document passed in. -/
def WritesDocument (saveDoc : SaveFn) : Prop :=
  ∀ store now doc store' m, saveDoc store now true doc = .ok (store', m) →
    store' = store ++ [m] ∧ m._id = doc._id ∧ m.sender = doc.sender ∧
    m.receiver = doc.receiver ∧ m.content = doc.content

/-! ## The server state and the handlers -/

/-- One call `io.to(room).emit(event, payload)`. -/
structure Emit where
  room : JsString
  event : String
  payload : Message
deriving DecidableEq, Repr

/-- The state the handlers act on: the Message collection, in insertion order, and the
events emitted so far. -/
structure World where
  store : List Message
  emitted : List Emit
deriving DecidableEq, Repr

/-- A JSON response body of the message controller. -/
inductive Body where
  | msg (message : String)
  | msgData (message : String) (data : Message)
  | messages (messages : List Message)
deriving DecidableEq, Repr

/-- The way a handler ends: `res.status(s).json(body)` or `next(error)`. -/
inductive Response where
  | json (status : Nat) (body : Body)
  | next (error : Err)
deriving DecidableEq, Repr

/-- The body of the handler `exports.sendMessage`, with `userId = req.user.userId` and
`receiver`, `content` read from `req.body`; the call `message.save()` is `saveDoc`. -/
def sendMessageWith (saveDoc : SaveFn) (w : World) (now : Nat) (newId : ObjectId)
    (userId : ObjectId) (receiver content : Option JsString) : World × Response :=
  if !truthy receiver then (w, .json 400 (.msg "Receiver and content are required"))
  else
    match content with
    | none => (w, .next .typeError)
    | some c =>
      if !truthy (some (trim c)) then
        (w, .json 400 (.msg "Receiver and content are required"))
      else
        match saveDoc w.store now true (newMessage newId (some userId) receiver content) with
        | .error e => (w, .next e)
        | .ok (store, message) =>
          ({ store := store,
             emitted := w.emitted ++ [⟨receiver.getD [], "new_message", message⟩] },
           .json 201 (.msgData "Message sent successfully" message))

/-- The handler `exports.sendMessage`: its body with the `save` of the Message model. -/
def sendMessage (w : World) (now : Nat) (newId : ObjectId) (userId : ObjectId)
    (receiver content : Option JsString) : World × Response :=
  sendMessageWith save w now newId userId receiver content

/-- The body of the socket handler `socket.on('send_message', ...)`: an early return or a
caught error leaves the state as it is; the call `message.save()` is `saveDoc`. -/
def onSendMessageWith (saveDoc : SaveFn) (w : World) (now : Nat) (newId : ObjectId)
    (sender receiver content : Option JsString) : World :=
  if !truthy receiver then w
  else
    match content with
    | none => w
    | some c =>
      if !truthy (some (trim c)) then w
      else
        match saveDoc w.store now true (newMessage newId sender receiver content) with
        | .error _ => w
        | .ok (store, message) =>
          { store := store,
            emitted := w.emitted ++ [⟨receiver.getD [], "new_message", message⟩,
                                     ⟨sender.getD [], "message_sent", message⟩] }

/-- The socket handler `socket.on('send_message', ...)`: its body with the `save` of the
Message model. -/
def onSendMessage (w : World) (now : Nat) (newId : ObjectId)
    (sender receiver content : Option JsString) : World :=
  onSendMessageWith save w now newId sender receiver content

/-- Order of `sort({ createdAt: 1 })`: a missing date sorts before every date. -/
def dateLe : Option Nat → Option Nat → Bool
  | none, _ => true
  | some _, none => false
  | some a, some b => decide (a ≤ b)

/-- Comparison of two messages by `createdAt`, ascending. -/
def createdAtLe (a b : Message) : Bool := dateLe a.createdAt b.createdAt

/-- The filter `{ $or: [{ sender: userId, receiver: withUser },
{ sender: withUser, receiver: userId }] }`. -/
def betweenUsers (userId withUser : ObjectId) (m : Message) : Bool :=
  (m.sender == some userId && m.receiver == some withUser) ||
  (m.sender == some withUser && m.receiver == some userId)

/-- The results the query `Message.find({ $or: ... }).sort({ createdAt: 1 })` can yield: the
documents matching the filter, each as often as it is stored, in a sequence that is
non-decreasing in `createdAt`. The database does not fix the order of two documents with the
same `createdAt`, so there may be several such sequences. -/
def IsConversationResult (store : List Message) (userId withUser : ObjectId)
    (l : List Message) : Prop :=
  l.Perm (store.filter (betweenUsers userId withUser)) ∧
  l.Pairwise (fun m n => createdAtLe m n = true)

/-- One result of the query of `getMessages`,
`Message.find({ $or: ... }).sort({ createdAt: 1 })`: the matching documents, those with the
same `createdAt` in insertion order. It is one of the sequences `IsConversationResult`
admits; the database may return any of them. -/
def conversationOf (store : List Message) (userId withUser : ObjectId) : List Message :=
  stableSort createdAtLe (store.filter (betweenUsers userId withUser))

/-- The handler `exports.getMessages`, with `userId = req.user.userId` and
`withUser = req.params.withUser`. -/
def getMessages (w : World) (userId withUser : ObjectId) : World × Response :=
  (w, .json 200 (.messages (conversationOf w.store userId withUser)))

/-- The update `{ isRead: true, readAt: new Date() }`, with the `updatedAt` timestamp that
`timestamps: true` adds to an update. -/
def setRead (now : Nat) (m : Message) : Message :=
  { m with isRead := true, readAt := some now, updatedAt := some now }

/-- The handler `exports.markAsRead`: `findByIdAndUpdate` applies the update to the addressed
document and yields `null` when there is none. -/
def markAsRead (w : World) (now : Nat) (messageId : ObjectId) : World × Response :=
  match findById w.store messageId with
  | none => (w, .json 404 (.msg "Message not found"))
  | some _ =>
    ({ w with store := updateById messageId (setRead now) w.store },
     .json 200 (.msg "Message marked as read"))

/-- The test `message.sender.toString() !== userId && message.receiver.toString() !== userId`
of `deleteMessage`: `toString()` on a missing id throws, and the right operand is evaluated
only when the left one is true. -/
def notParticipant (message : Message) (userId : ObjectId) : Except Err Bool :=
  match message.sender with
  | none => .error .typeError
  | some s =>
    if s != userId then
      match message.receiver with
      | none => .error .typeError
      | some r => .ok (r != userId)
    else .ok false

/-- The assignments `isDeleted = true`, `deletedAt = new Date()`, `deletedBy = userId`. -/
def setDeleted (now : Nat) (userId : ObjectId) (m : Message) : Message :=
  { m with isDeleted := true, deletedAt := some now, deletedBy := some userId }

/-- The handler `exports.deleteMessage`, with `userId = req.user.userId`. -/
def deleteMessage (w : World) (now : Nat) (messageId : ObjectId) (userId : ObjectId) :
    World × Response :=
  match findById w.store messageId with
  | none => (w, .json 404 (.msg "Message not found"))
  | some message =>
    match notParticipant message userId with
    | .error e => (w, .next e)
    | .ok true => (w, .json 403 (.msg "Not authorized to delete this message"))
    | .ok false =>
      match save w.store now false (setDeleted now userId message) with
      | .error e => (w, .next e)
      | .ok (store, _) =>
        ({ w with store := store }, .json 200 (.msg "Message deleted successfully"))

/-- Whether a code unit is a hexadecimal digit, of either case. -/
def isHexDigit (c : Nat) : Bool :=
  (48 ≤ c && c ≤ 57) || (65 ≤ c && c ≤ 70) || (97 ≤ c && c ≤ 102)

/-- The lower-case form of a hexadecimal digit. -/
def lowerHex (c : Nat) : Nat := if 65 ≤ c && c ≤ 70 then c + 32 else c

/-- The two lower-case hexadecimal digits of a byte. -/
def byteHex (c : Nat) : List Nat :=
  let digit := fun n : Nat => if n < 10 then 48 + n else 87 + n
  [digit (c / 16 % 16), digit (c % 16)]

/-- The cast of a request string to an `ObjectId`, given by the rendering of the id: a
string of 24 hexadecimal digits is the id with these digits, in lower case; a string of 12
characters below U+0080 is the id with these 12 bytes (the drivers that accept
`mongoose.Types.ObjectId(...)` without `new`, as `getQuestions` calls it, take such a
string); every other string fails with a `CastError`, here `none`. The handlers take the
cast as a parameter; this function is the instance used in the examples. -/
def castObjectId (s : JsString) : Option ObjectId :=
  if s.length == 24 && s.all isHexDigit then some (s.map lowerHex)
  else if s.length == 12 && s.all (fun c => decide (c < 128)) then some (s.flatMap byteHex)
  else none

/-- The handler `exports.markAsRead` on a request, with `messageId = req.params.messageId`:
`findByIdAndUpdate` casts the id with `cast` and throws a `CastError` when the cast fails,
which the `catch` block passes to `next`. -/
def markAsReadRequest (cast : JsString → Option ObjectId) (w : World) (now : Nat)
    (messageId : JsString) : World × Response :=
  match cast messageId with
  | none => (w, .next (.castError messageId))
  | some id => markAsRead w now id

/-- The handler `exports.deleteMessage` on a request, with
`messageId = req.params.messageId`: `findById` casts the id with `cast` and throws a
`CastError` when the cast fails, which the `catch` block passes to `next`. -/
def deleteMessageRequest (cast : JsString → Option ObjectId) (w : World) (now : Nat)
    (messageId : JsString) (userId : ObjectId) : World × Response :=
  match cast messageId with
  | none => (w, .next (.castError messageId))
  | some id => deleteMessage w now id userId

/-- The responses `exports.getMessages` can end with on a request, with
`userId = req.user.userId` and `withUser = req.params.withUser`: the query casts both
strings with `cast`, in the order of the filter, and throws a `CastError` at the first that
fails; otherwise the answer is 200 with one of the results of the query. -/
def GetMessagesResponse (cast : JsString → Option ObjectId) (w : World)
    (userId withUser : JsString) (resp : Response) : Prop :=
  match cast userId, cast withUser with
  | some a, some b => ∃ l, IsConversationResult w.store a b l ∧ resp = .json 200 (.messages l)
  | none, _ => resp = .next (.castError userId)
  | some _, none => resp = .next (.castError withUser)

/-- A call of one of the state-changing handlers of the message controller. -/
inductive Call where
  | send (now : Nat) (newId userId : ObjectId) (receiver content : Option JsString)
  | read (now : Nat) (messageId : ObjectId)
  | delete (now : Nat) (messageId userId : ObjectId)
deriving DecidableEq, Repr

/-- The state after one call. -/
def step (w : World) : Call → World
  | .send now newId userId receiver content =>
    (sendMessage w now newId userId receiver content).1
  | .read now messageId => (markAsRead w now messageId).1
  | .delete now messageId userId => (deleteMessage w now messageId userId).1

/-- The state after a sequence of calls. -/
def run (w : World) (calls : List Call) : World := calls.foldl step w

/-- The message stored under `id` is soft-deleted and goes from `s` to `r`. -/
def DeletedBetween (id s r : ObjectId) (store : List Message) : Prop :=
  ∃ m, findById store id = some m ∧ m.isDeleted = true ∧ m.sender = some s ∧
    m.receiver = some r

/-! ## Example documents -/

/-- The id of a user, `alice`. -/
def aliceId : ObjectId := str "507f1f77bcf86cd799439011"

/-- The id of a user, `bob`. -/
def bobId : ObjectId := str "507f191e810c19729de860ea"

/-- The id of a user, `carol`. -/
def carolId : ObjectId := str "507f191e810c19729de860eb"

/-- A document that already carries a conversation value other than the key of its
participants. -/
def staleDoc : Message :=
  { newMessage (str "65a000000000000000000001") (some aliceId) (some bobId)
      (some (str "hello")) with
    conversation := some (str "stale") }

/-- A stored message with the given id, participants, content and creation time. -/
def storedMessage (id sender receiver : ObjectId) (content : JsString) (createdAt : Nat) :
    Message :=
  { newMessage id (some sender) (some receiver) (some content) with
    conversation := some (conversationKey sender receiver),
    createdAt := some createdAt, updatedAt := some createdAt }

/-- A collection of three messages: `alice` to `bob` at time 3, `bob` to `alice` at time 1,
`alice` to `carol` at time 2. -/
def exampleStore : List Message :=
  [storedMessage (str "65a000000000000000000001") aliceId bobId (str "hello") 3,
   storedMessage (str "65a000000000000000000002") bobId aliceId (str "hi") 1,
   storedMessage (str "65a000000000000000000003") aliceId carolId (str "hey") 2]

/-- A state holding `exampleStore`, nothing emitted yet. -/
def exampleWorld : World := { store := exampleStore, emitted := [] }

/-- A collection of two messages between `alice` and `bob` with the same creation time. -/
def tiedStore : List Message :=
  [storedMessage (str "65a000000000000000000005") aliceId bobId (str "ping") 5,
   storedMessage (str "65a000000000000000000006") bobId aliceId (str "pong") 5]

/-! ## Repeated reads -/

/-- Successive `markAsRead` calls on one message id, one at each of the given times: the
final state and the responses in order. -/
def markAsReadAt (w : World) (messageId : ObjectId) : List Nat → World × List Response
  | [] => (w, [])
  | now :: later =>
    let first := markAsRead w now messageId
    let others := markAsReadAt first.1 messageId later
    (others.1, first.2 :: others.2)

/-! ## Live connections -/

/-- A live connection: `socket.id` and the rooms the socket is in. -/
structure Connection where
  id : JsString
  rooms : List JsString
deriving DecidableEq, Repr

/-- A socket right after the handshake: Socket.IO puts it in the room named by its own id. -/
def connect (socketId : JsString) : Connection := { id := socketId, rooms := [socketId] }

/-- The handler `socket.on('join_chat', ...)`: `socket.join(conversationId)`; the rooms of a
socket form a set. -/
def onJoinChat (c : Connection) (conversationId : JsString) : Connection :=
  if c.rooms.contains conversationId then c
  else { c with rooms := c.rooms ++ [conversationId] }

/-- The connections reached by `io.to(room).emit(...)`: those that are in the room. -/
def recipients (conns : List Connection) (e : Emit) : List Connection :=
  conns.filter (fun c => c.rooms.contains e.room)

/-- Outcome of a Socket.IO middleware: `next()` or `next(new Error(message))`. -/
inductive Handshake where
  | admitted
  | rejected (message : String)
deriving DecidableEq, Repr

/-- The middleware registered with `io.use` in `app.js`, with
`token = socket.handshake.auth.token`: a falsy token is rejected, every other one goes on to
`next()`; the verification is commented out in the source. -/
def socketAuth (token : Option JsString) : Handshake :=
  if !truthy token then .rejected "Authentication error" else .admitted

/-! ## The User model and the authenticate middleware -/

/-- An element of `refreshTokens`. -/
structure RefreshToken where
  token : Option JsString
  expiresAt : Option Nat
deriving DecidableEq, Repr

/-- A document of `userSchema`, with the schema defaults. -/
structure User where
  _id : ObjectId
  username : JsString
  email : JsString
  password : JsString
  fullName : JsString
  profilePicture : JsString := []
  bio : JsString := []
  role : JsString := str "student"
  institution : JsString := []
  specialization : JsString := []
  reputation : Int := 0
  isVerified : Bool := false
  verificationToken : Option JsString := none
  resetPasswordToken : Option JsString := none
  resetPasswordExpires : Option Nat := none
  lastLogin : Option Nat := none
  questionsCount : Int := 0
  answersCount : Int := 0
  acceptedAnswersCount : Int := 0
  isBanned : Bool := false
  refreshTokens : List RefreshToken := []
  createdAt : Option Nat := none
  updatedAt : Option Nat := none
deriving DecidableEq, Repr

/-- The query `User.findById(id)`; an `undefined` id finds nothing. -/
def findUser (users : List User) : Option ObjectId → Option User
  | none => none
  | some id => users.find? (fun u => u._id == id)

/-- The payload `jwt.verify` returns, as far as the middlewares read it. -/
structure Decoded where
  userId : Option ObjectId
  role : Option JsString
deriving DecidableEq, Repr

/-- The way `authenticate` ends: `next()` with `req.user = decoded`, or
`res.status(s).json({ message })`. -/
inductive AuthResult where
  | next (user : Decoded)
  | json (status : Nat) (message : String)
deriving DecidableEq, Repr

/-- The method `String.prototype.startsWith`. -/
def startsWith (s p : JsString) : Bool := p.isPrefixOf s

/-- The method `String.prototype.split(sep)` for a separator of one code unit. -/
def split (sep : Nat) : JsString → List JsString
  | [] => [[]]
  | c :: cs =>
    if c == sep then [] :: split sep cs
    else
      match split sep cs with
      | [] => [[c]]
      | x :: xs => (c :: x) :: xs

/-- The token `authHeader.split(' ')[1]`. -/
def bearerToken (authHeader : JsString) : Option JsString := (split 32 authHeader)[1]?

/-- The middleware `exports.authenticate`, with `authHeader = req.headers.authorization`.
The function `jwt.verify(·, process.env.JWT_SECRET)` is the parameter `verify`: `none` when it
throws, which it does on a missing token. Everything after the header test runs inside the
inner `try`, whose `catch` answers 401. -/
def authenticate (verify : JsString → Option Decoded) (users : List User)
    (authHeader : Option JsString) : AuthResult :=
  match authHeader with
  | none => .json 401 "Authentication required"
  | some header =>
    if header.isEmpty || !startsWith header (str "Bearer ") then
      .json 401 "Authentication required"
    else
      match (bearerToken header).bind verify with
      | none => .json 401 "Invalid or expired token"
      | some decoded =>
        match findUser users decoded.userId with
        | none => .json 401 "User no longer exists"
        | some user =>
          if user.isBanned then .json 403 "Your account has been suspended"
          else .next decoded

/-! ## The Question model and `createQuestion` -/

/-- An element of `upvotes` or `downvotes`. -/
structure Vote where
  user : Option ObjectId
  timestamp : Option Nat
deriving DecidableEq, Repr

/-- An element of the `attachments` of a question. -/
structure QuestionAttachment where
  url : Option JsString
  filename : Option JsString
  mimetype : Option JsString
  size : Option Nat
  uploadedAt : Option Nat
deriving DecidableEq, Repr

/-- A document of `questionSchema`, with the schema defaults. -/
structure Question where
  _id : ObjectId
  title : Option JsString
  content : Option JsString
  author : Option ObjectId
  tags : List JsString := []
  attachments : List QuestionAttachment := []
  upvotes : List Vote := []
  downvotes : List Vote := []
  views : Int := 0
  answersCount : Int := 0
  acceptedAnswer : Option ObjectId := none
  isClosed : Bool := false
  closedReason : Option JsString := none
  closedAt : Option Nat := none
  bountyAmount : Int := 0
  bountyExpiresAt : Option Nat := none
  subject : Option JsString
  difficulty : Option JsString := some (str "intermediate")
  isPrivate : Bool := false
  isArchived : Bool := false
  createdAt : Option Nat := none
  updatedAt : Option Nat := none
deriving DecidableEq, Repr

/-- The fields `createQuestion` reads from `req.body`. -/
structure QuestionBody where
  title : Option JsString
  content : Option JsString
  tags : Option (List JsString)
  subject : Option JsString
  difficulty : Option JsString
  isPrivate : Option Bool
deriving DecidableEq, Repr

/-- An uploaded file of `req.files`. -/
structure File where
  originalname : JsString
  mimetype : JsString
  size : Nat
deriving DecidableEq, Repr

/-- The payload of the `new_question` notification. -/
structure NewQuestion where
  questionId : ObjectId
  title : Option JsString
  subject : Option JsString
  authorId : ObjectId
deriving DecidableEq, Repr

/-- Modelled from the spec: the outcome of a notification, `DeliveryOutcome`, which the
missing notification service hands back. The spec gives `notify(targetUser, eventType,
payload) -> DeliveryOutcome` and calls `Undelivered` "not an error, a status". -/
inductive DeliveryOutcome where
  | delivered
  | undelivered
deriving DecidableEq, Repr

/-- Modelled from the spec: the function `sendNotification` of
`services/notification.service`, a file that is not among the sources. By the spec a
notification yields a `DeliveryOutcome` and its delivery failures are "non-fatal: logged,
surfaced as `Undelivered` status": the call resolves with the outcome and never rejects. -/
abbrev SendNotification := String → NewQuestion → DeliveryOutcome

/-- The services `createQuestion` awaits and whose code is outside the controller. An upload
either resolves with a location or rejects with an error; `clearByPattern` of the cache
service catches its own errors and resolves with a boolean. -/
structure Services where
  uploadToS3 : File → Except Err JsString
  clearByPattern : Bool
  sendNotification : SendNotification

/-- The collections the question controller acts on. -/
structure QaState where
  questions : List Question
  users : List User
deriving DecidableEq, Repr

/-- The way `createQuestion` ends: `res.status(s).json({ message, question })` or
`next(error)`. -/
inductive QuestionResponse where
  | json (status : Nat) (message : String) (question : Question)
  | next (error : Err)
deriving DecidableEq, Repr

/-- The call `new Question({ title, content, author: userId, tags: tags || [], subject,
difficulty: difficulty || 'intermediate', isPrivate: isPrivate || false })`, `title`,
`subject` and the tags going through their `trim` setter. -/
def newQuestion (id userId : ObjectId) (body : QuestionBody) : Question :=
  { _id := id, title := body.title.map trim, content := body.content, author := some userId,
    tags := (body.tags.getD []).map trim, subject := body.subject.map trim,
    difficulty := if truthy body.difficulty then body.difficulty else some (str "intermediate"),
    isPrivate := body.isPrivate.getD false }

/-- The loop over `req.files`: each file is uploaded in turn, the first rejected upload
throws. -/
def uploadAll (upload : File → Except Err JsString) (now : Nat) :
    List File → Except Err (List QuestionAttachment)
  | [] => .ok []
  | file :: files =>
    match upload file with
    | .error e => .error e
    | .ok location =>
      match uploadAll upload now files with
      | .error e => .error e
      | .ok rest =>
        .ok ({ url := some location, filename := some file.originalname,
               mimetype := some file.mimetype, size := some file.size,
               uploadedAt := some now } :: rest)

/-- Whether a string path is present with a length within the given bounds. -/
def lengthWithin (lo : Nat) (hi : Option Nat) : Option JsString → Bool
  | none => false
  | some s => !s.isEmpty && decide (lo ≤ s.length) &&
      (match hi with
       | none => true
       | some h => decide (s.length ≤ h))

/-- The values of the `difficulty` enum. -/
def difficulties : List JsString := [str "beginner", str "intermediate", str "advanced"]

/-- The values of the `closedReason` enum. -/
def closedReasons : List JsString :=
  [str "duplicate", str "off-topic", str "resolved", str "other"]

/-- The `enum` validator of a string path, `undefined === v || values.indexOf(v) !== -1`, on
a path that holds `null` (`none`) or a string: `null` is not `undefined` and is not among the
values, so it fails. This is the validator of the Mongoose versions in which
`mongoose.Types.ObjectId(author)` can be called without `new`, as `getQuestions` calls it. -/
def enumValid (values : List JsString) : Option JsString → Bool
  | none => false
  | some v => values.contains v

/-- The paths of a question failing a validator of `questionSchema`, in schema order. The
path `closedReason` has the default `null`, which its `enum` validator rejects. -/
def questionInvalidPaths (q : Question) : List String :=
  (if lengthWithin 10 (some 200) q.title then [] else ["title"]) ++
  (if lengthWithin 20 none q.content then [] else ["content"]) ++
  (if q.author.isSome then [] else ["author"]) ++
  (if enumValid closedReasons q.closedReason then [] else ["closedReason"]) ++
  (if lengthWithin 0 none q.subject then [] else ["subject"]) ++
  (if enumValid difficulties q.difficulty then [] else ["difficulty"])

/-- The type of `newQuestion.save()`: from the collection, the current time and the
document, to an error or the new collection with the saved document. -/
abbrev QuestionSaveFn := List Question → Nat → Question → Except Err (List Question × Question)

/-- The method `newQuestion.save()`: validation, then the insert with its timestamps. -/
def saveQuestion (questions : List Question) (now : Nat) (q : Question) :
    Except Err (List Question × Question) :=
  if questionInvalidPaths q = [] then
    .ok (questions ++ [{ q with createdAt := some now, updatedAt := some now }],
         { q with createdAt := some now, updatedAt := some now })
  else .error (.validation (questionInvalidPaths q))

/-- A save that lets `null` pass the `enum` of `closedReason`, the value that the schema
gives the path by default and that `reopenQuestion` assigns to it: the paths other than
`closedReason` are validated as in `saveQuestion`. It is not the save of the program, which
is `saveQuestion`. -/
def saveQuestionNullReason (questions : List Question) (now : Nat) (q : Question) :
    Except Err (List Question × Question) :=
  if (questionInvalidPaths q).filter (fun path => path != "closedReason") = [] then
    .ok (questions ++ [{ q with createdAt := some now, updatedAt := some now }],
         { q with createdAt := some now, updatedAt := some now })
  else .error (.validation ((questionInvalidPaths q).filter (fun path => path != "closedReason")))

/-- The update `User.findByIdAndUpdate(userId, { $inc: { questionsCount: 1 } })`. -/
def incQuestionsCount (now : Nat) (userId : ObjectId) : List User → List User
  | [] => []
  | u :: us =>
    if u._id == userId then
      { u with questionsCount := u.questionsCount + 1, updatedAt := some now } :: us
    else u :: incQuestionsCount now userId us

/-- The step `if (req.files && req.files.length > 0) { ...; newQuestion.attachments =
attachments; }` once the files are uploaded. -/
def attachTo (files : Option (List File)) (attachments : List QuestionAttachment)
    (q : Question) : Question :=
  if (files.getD []).length > 0 then { q with attachments := attachments } else q

/-- The payload `{ questionId, title, subject, authorId }` of the notification. -/
def newQuestionPayload (q : Question) (userId : ObjectId) : NewQuestion :=
  { questionId := q._id, title := q.title, subject := q.subject, authorId := userId }

/-- The body of the handler `exports.createQuestion`, with `userId = req.user.userId`,
`body = req.body` and `files = req.files`: uploads, save, user counter, cache clearing (whose
boolean result is ignored), notification (whose outcome is ignored), then the 201 answer; a
rejected `await` leads to `next(error)`. The call `newQuestion.save()` is `saveDoc`. -/
def createQuestionWith (saveDoc : QuestionSaveFn) (svc : Services) (s : QaState) (now : Nat)
    (newId userId : ObjectId) (body : QuestionBody) (files : Option (List File)) :
    QaState × QuestionResponse :=
  match uploadAll svc.uploadToS3 now (files.getD []) with
  | .error e => (s, .next e)
  | .ok attachments =>
    match saveDoc s.questions now (attachTo files attachments (newQuestion newId userId body))
    with
    | .error e => (s, .next e)
    | .ok (questions, saved) =>
      match svc.sendNotification "new_question" (newQuestionPayload saved userId) with
      | .delivered | .undelivered =>
        ({ questions := questions, users := incQuestionsCount now userId s.users },
         .json 201 "Question created successfully" saved)

/-- The handler `exports.createQuestion`: its body with the `save` of the Question model. -/
def createQuestion (svc : Services) (s : QaState) (now : Nat) (newId userId : ObjectId)
    (body : QuestionBody) (files : Option (List File)) : QaState × QuestionResponse :=
  createQuestionWith saveQuestion svc s now newId userId body files

/-! ## Example requests -/

/-- A connection of `bob` that has joined the room named by the conversation key of `alice`
and `bob`. -/
def bobInConversationRoom : Connection :=
  onJoinChat (connect (str "sock-bob-1")) (conversationKey aliceId bobId)

/-- A connection of `bob` that has joined the room named by the id of `bob`. -/
def bobOnline : Connection := onJoinChat (connect (str "sock-bob-2")) bobId

/-- The message `hello` from `alice` to `bob`, as a save at time 9 that derives the key
stores it. -/
def helloMessage : Message :=
  storedMessage (str "65a000000000000000000004") aliceId bobId (str "hello") 9

/-- A user `bob`, not banned. -/
def bobUser : User :=
  { _id := bobId, username := str "bob", email := str "bob@example.com",
    password := str "$2a$10$hash", fullName := str "Bob B" }

/-- A user `carol`, banned. -/
def carolUser : User :=
  { _id := carolId, username := str "carol", email := str "carol@example.com",
    password := str "$2a$10$hash", fullName := str "Carol C", isBanned := true }

/-- A verifier accepting the tokens `tok-bob`, `tok-carol` and `tok-alice`. -/
def exampleVerify (token : JsString) : Option Decoded :=
  if token = str "tok-bob" then some { userId := some bobId, role := some (str "student") }
  else if token = str "tok-carol" then
    some { userId := some carolId, role := some (str "student") }
  else if token = str "tok-alice" then
    some { userId := some aliceId, role := some (str "student") }
  else none

/-- A request body of a valid question. -/
def exampleBody : QuestionBody :=
  { title := some (str "How do I bound this sum?"),
    content := some (str "I tried induction on n but the step fails."),
    tags := some [str "algebra"], subject := some (str "math"), difficulty := none,
    isPrivate := none }

/-- Services that all succeed. -/
def servicesUp : Services :=
  { uploadToS3 := fun f => .ok (str "https://bucket/" ++ f.originalname),
    clearByPattern := true, sendNotification := fun _ _ => .delivered }

/-- Services whose notification is not delivered. -/
def notifierDown : Services :=
  { servicesUp with sendNotification := fun _ _ => .undelivered }

/-- A state with no question and the users `bob` and `carol`. -/
def exampleQa : QaState := { questions := [], users := [bobUser, carolUser] }

/-! ## Requests of the message controller -/

/-- A JSON body a client may send to `sendMessage`; the handler reads `receiver` and
`content` from it and nothing else. -/
structure SendBody where
  sender : Option JsString
  receiver : Option JsString
  content : Option JsString
deriving DecidableEq, Repr

/-- The body of the handler `exports.sendMessage` on a request:
`const { receiver, content } = req.body` and `const sender = req.user.userId`; the call
`message.save()` is `saveDoc`. -/
def sendMessageRequestWith (saveDoc : SaveFn) (w : World) (now : Nat)
    (newId userId : ObjectId) (body : SendBody) : World × Response :=
  sendMessageWith saveDoc w now newId userId body.receiver body.content

/-- The handler `exports.sendMessage` on a request: `const { receiver, content } = req.body`
and `const sender = req.user.userId`. -/
def sendMessageRequest (w : World) (now : Nat) (newId userId : ObjectId) (body : SendBody) :
    World × Response :=
  sendMessage w now newId userId body.receiver body.content

/-- The two documents agree on every field outside `isRead`, `readAt` and `updatedAt`. -/
def KeptByRead (m m' : Message) : Prop :=
  m'._id = m._id ∧ m'.sender = m.sender ∧ m'.receiver = m.receiver ∧
  m'.conversation = m.conversation ∧ m'.content = m.content ∧
  m'.attachments = m.attachments ∧ m'.createdAt = m.createdAt ∧
  m'.isDeleted = m.isDeleted ∧ m'.deletedAt = m.deletedAt ∧ m'.deletedBy = m.deletedBy

/-- The two documents agree on every field outside `isDeleted`, `deletedAt`, `deletedBy` and
`updatedAt`. -/
def KeptByDelete (m m' : Message) : Prop :=
  m'._id = m._id ∧ m'.sender = m.sender ∧ m'.receiver = m.receiver ∧
  m'.conversation = m.conversation ∧ m'.content = m.content ∧
  m'.attachments = m.attachments ∧ m'.createdAt = m.createdAt ∧
  m'.isRead = m.isRead ∧ m'.readAt = m.readAt

/-! ## Listing questions -/

/-- The parameters of `req.query` that `getQuestions` turns into filter criteria. -/
structure QuestionQuery where
  subject : Option JsString
  difficulty : Option JsString
  tag : Option JsString
  search : Option JsString
  author : Option JsString
deriving DecidableEq, Repr

/-- The object `filter` of `getQuestions`; `none` is an absent key, `text` is
`$text.$search`. -/
structure QuestionFilter where
  author : Option ObjectId := none
  isPrivate : Option Bool := none
  subject : Option JsString := none
  difficulty : Option JsString := none
  tags : Option JsString := none
  text : Option JsString := none
deriving DecidableEq, Repr

/-- The call `mongoose.Types.ObjectId(author)`: the id with that rendering, a freshly
generated one when the argument is `undefined`. -/
def toObjectId (freshId : ObjectId) (author : Option JsString) : ObjectId :=
  author.getD freshId

/-- The test `req.user && req.user.userId === author`. -/
def isOwnListing (user : Option Decoded) (author : Option JsString) : Bool :=
  match user with
  | none => false
  | some decoded => decoded.userId == author

/-- The filter `getQuestions` builds from `req.user` and `req.query`. -/
def questionFilter (user : Option Decoded) (freshId : ObjectId) (query : QuestionQuery) :
    QuestionFilter :=
  let base : QuestionFilter :=
    if isOwnListing user query.author then { author := some (toObjectId freshId query.author) }
    else if truthy query.author then
      { isPrivate := some false, author := some (toObjectId freshId query.author) }
    else { isPrivate := some false }
  { base with
    subject := if truthy query.subject then query.subject else none,
    difficulty := if truthy query.difficulty then query.difficulty else none,
    tags := if truthy query.tag then query.tag else none,
    text := if truthy query.search then query.search else none }

/-- Whether a stored question satisfies a filter of `Question.find(filter)`; the text search
of the database is the parameter `textMatch`. -/
def matchesFilter (textMatch : JsString → Question → Bool) (f : QuestionFilter)
    (q : Question) : Bool :=
  (match f.author with
   | none => true
   | some a => q.author == some a) &&
  (match f.isPrivate with
   | none => true
   | some b => q.isPrivate == b) &&
  (match f.subject with
   | none => true
   | some x => q.subject == some x) &&
  (match f.difficulty with
   | none => true
   | some x => q.difficulty == some x) &&
  (match f.tags with
   | none => true
   | some t => q.tags.contains t) &&
  (match f.text with
   | none => true
   | some x => textMatch x q)

/-! ## Voting -/

/-- The test `votes.some(vote => vote.user.toString() === userId)`; `toString()` on a
missing user throws. -/
def hasVoted (userId : ObjectId) : List Vote → Except Err Bool
  | [] => .ok false
  | vote :: votes =>
    match vote.user with
    | none => .error .typeError
    | some u => if u == userId then .ok true else hasVoted userId votes

/-- The expression `votes.filter(vote => vote.user.toString() !== userId)`. -/
def withoutVotesOf (userId : ObjectId) : List Vote → Except Err (List Vote)
  | [] => .ok []
  | vote :: votes =>
    match vote.user with
    | none => .error .typeError
    | some u =>
      match withoutVotesOf userId votes with
      | .error e => .error e
      | .ok kept => .ok (if u != userId then vote :: kept else kept)

/-- The subdocument pushed by `votes.push({ user: userId })`, `timestamp` taking its default
`Date.now`. -/
def newVote (now : Nat) (userId : ObjectId) : Vote := { user := some userId, timestamp := some now }

/-- The branches on `voteType` shared by `voteQuestion` and `voteAnswer`, on the lists
`upvotes` and `downvotes`: a repeated vote is withdrawn, a new one is pushed and the opposite
one, if any, removed; another `voteType` changes nothing. -/
def castVote (now : Nat) (userId : ObjectId) (voteType : Option JsString)
    (hasUpvoted hasDownvoted : Bool) (upvotes downvotes : List Vote) :
    Except Err (List Vote × List Vote) :=
  if voteType == some (str "up") then
    if hasUpvoted then
      match withoutVotesOf userId upvotes with
      | .error e => .error e
      | .ok ups => .ok (ups, downvotes)
    else if hasDownvoted then
      match withoutVotesOf userId downvotes with
      | .error e => .error e
      | .ok downs => .ok (upvotes ++ [newVote now userId], downs)
    else .ok (upvotes ++ [newVote now userId], downvotes)
  else if voteType == some (str "down") then
    if hasDownvoted then
      match withoutVotesOf userId downvotes with
      | .error e => .error e
      | .ok downs => .ok (upvotes, downs)
    else if hasUpvoted then
      match withoutVotesOf userId upvotes with
      | .error e => .error e
      | .ok ups => .ok (ups, downvotes ++ [newVote now userId])
    else .ok (upvotes, downvotes ++ [newVote now userId])
  else .ok (upvotes, downvotes)

/-- The reputation change `voteQuestion` issues: 5 for a new upvote, -2 for a new downvote,
none when a vote is withdrawn. -/
def reputationChange (voteType : Option JsString) (hasUpvoted hasDownvoted : Bool) :
    Option Int :=
  if voteType == some (str "up") then (if hasUpvoted then none else some 5)
  else if voteType == some (str "down") then (if hasDownvoted then none else some (-2))
  else none

/-- The update `User.findByIdAndUpdate(author, { $inc: { reputation: amount } })`. -/
def incReputation (now : Nat) (amount : Int) (author : ObjectId) : List User → List User
  | [] => []
  | u :: us =>
    if u._id == author then
      { u with reputation := u.reputation + amount, updatedAt := some now } :: us
    else u :: incReputation now amount author us

/-- The step `if (question.author.toString() !== userId) await User.findByIdAndUpdate(...)`
of the branches that add a vote. -/
def rewardAuthor (now : Nat) (userId : ObjectId) (author : Option ObjectId)
    (change : Option Int) (users : List User) : Except Err (List User) :=
  match change with
  | none => .ok users
  | some amount =>
    match author with
    | none => .error .typeError
    | some a => .ok (if a != userId then incReputation now amount a users else users)

/-- The query `Question.findById(id)`. -/
def findQuestion (questions : List Question) (id : ObjectId) : Option Question :=
  questions.find? (fun q => q._id == id)

/-- Replacement of the first question with the `_id` of `q` by `q`. -/
def putQuestion (q : Question) : List Question → List Question
  | [] => []
  | x :: xs => if x._id == q._id then q :: xs else x :: putQuestion q xs

/-- The way `voteQuestion` and `voteAnswer` end. -/
inductive VoteResponse where
  | json (status : Nat) (message : String) (voteCount : Option Int)
  | next (error : Err)
deriving DecidableEq, Repr

/-- The handler `exports.voteQuestion`, with `id = req.params.id`,
`voteType = req.body.voteType` and `userId = req.user.userId`. The reputation update comes
before `question.save()`, which validates the document and writes it. -/
def voteQuestion (s : QaState) (now : Nat) (id userId : ObjectId)
    (voteType : Option JsString) : QaState × VoteResponse :=
  match findQuestion s.questions id with
  | none => (s, .json 404 "Question not found" none)
  | some question =>
    match hasVoted userId question.upvotes with
    | .error e => (s, .next e)
    | .ok hasUpvoted =>
      match hasVoted userId question.downvotes with
      | .error e => (s, .next e)
      | .ok hasDownvoted =>
        match castVote now userId voteType hasUpvoted hasDownvoted question.upvotes
            question.downvotes with
        | .error e => (s, .next e)
        | .ok (ups, downs) =>
          match rewardAuthor now userId question.author
              (reputationChange voteType hasUpvoted hasDownvoted) s.users with
          | .error e => (s, .next e)
          | .ok users =>
            if questionInvalidPaths { question with upvotes := ups, downvotes := downs } = []
            then
              ({ questions := putQuestion
                   { question with upvotes := ups, downvotes := downs,
                                   updatedAt := some now } s.questions,
                 users := users },
               .json 200 "Vote registered successfully"
                 (some ((ups.length : Int) - (downs.length : Int))))
            else
              ({ s with users := users },
               .next (.validation (questionInvalidPaths
                 { question with upvotes := ups, downvotes := downs })))

/-- An element of the `comments` of an answer. -/
structure Comment where
  content : Option JsString
  author : Option ObjectId
  createdAt : Option Nat
  updatedAt : Option Nat
deriving DecidableEq, Repr

/-- A document of `answerSchema`, with the schema defaults. -/
structure Answer where
  _id : ObjectId
  question : Option ObjectId
  content : Option JsString
  author : Option ObjectId
  attachments : List QuestionAttachment := []
  upvotes : List Vote := []
  downvotes : List Vote := []
  isAccepted : Bool := false
  acceptedAt : Option Nat := none
  comments : List Comment := []
  createdAt : Option Nat := none
  updatedAt : Option Nat := none
deriving DecidableEq, Repr

/-- The paths of an answer failing a validator of `answerSchema`. -/
def answerInvalidPaths (a : Answer) : List String :=
  (if a.question.isSome then [] else ["question"]) ++
  (if lengthWithin 20 none a.content then [] else ["content"]) ++
  (if a.author.isSome then [] else ["author"]) ++
  (if a.comments.all (fun c => lengthWithin 0 (some 500) c.content && c.author.isSome)
   then [] else ["comments"])

/-- The query `Answer.findById(id)`. -/
def findAnswer (answers : List Answer) (id : ObjectId) : Option Answer :=
  answers.find? (fun a => a._id == id)

/-- Replacement of the first answer with the `_id` of `a` by `a`. -/
def putAnswer (a : Answer) : List Answer → List Answer
  | [] => []
  | x :: xs => if x._id == a._id then a :: xs else x :: putAnswer a xs

/-- The handler `exports.voteAnswer`, acting on the Answer collection. -/
def voteAnswer (answers : List Answer) (now : Nat) (id userId : ObjectId)
    (voteType : Option JsString) : List Answer × VoteResponse :=
  match findAnswer answers id with
  | none => (answers, .json 404 "Answer not found" none)
  | some answer =>
    match hasVoted userId answer.upvotes with
    | .error e => (answers, .next e)
    | .ok hasUpvoted =>
      match hasVoted userId answer.downvotes with
      | .error e => (answers, .next e)
      | .ok hasDownvoted =>
        match castVote now userId voteType hasUpvoted hasDownvoted answer.upvotes
            answer.downvotes with
        | .error e => (answers, .next e)
        | .ok (ups, downs) =>
          if answerInvalidPaths { answer with upvotes := ups, downvotes := downs } = [] then
            (putAnswer { answer with upvotes := ups, downvotes := downs,
                                     updatedAt := some now } answers,
             .json 200 "Vote registered successfully"
               (some ((ups.length : Int) - (downs.length : Int))))
          else
            (answers, .next (.validation (answerInvalidPaths
              { answer with upvotes := ups, downvotes := downs })))

/-- The number of entries of `userId` in a list of votes. -/
def votesBy (userId : ObjectId) (votes : List Vote) : Nat :=
  (votes.filter (fun v => v.user == some userId)).length

/-- The entries of the other users in a list of votes, in order. -/
def votesOfOthers (userId : ObjectId) (votes : List Vote) : List Vote :=
  votes.filter (fun v => v.user != some userId)

/-- The state after two consecutive `voteQuestion` calls of one user on one question with the
same `voteType`, at the times `now₁` and `now₂`. -/
def voteTwice (s : QaState) (now₁ now₂ : Nat) (id userId : ObjectId)
    (voteType : Option JsString) : QaState :=
  (voteQuestion (voteQuestion s now₁ id userId voteType).1 now₂ id userId voteType).1

/-- A stored question of `carol` with one upvote, of `alice`; the question is open, its
`closedReason` is the default `null`. -/
def exampleQuestion : Question :=
  { _id := str "65b000000000000000000002", title := some (str "Why is this series convergent?"),
    content := some (str "The ratio test gives 1, so what else can I try here?"),
    author := some carolId, subject := some (str "math"),
    upvotes := [{ user := some aliceId, timestamp := some 2 }] }

/-- A valid stored answer of `carol` with one downvote, of `bob`. -/
def exampleAnswer : Answer :=
  { _id := str "65c000000000000000000001", question := some (str "65b000000000000000000002"),
    content := some (str "Compare it with the harmonic series instead."),
    author := some carolId, downvotes := [{ user := some bobId, timestamp := some 3 }] }

/-- A state holding `exampleQuestion` and the users `bob` and `carol`. -/
def votingQa : QaState := { questions := [exampleQuestion], users := [bobUser, carolUser] }

/-- The question `exampleQuestion` after `closeQuestion` with no reason given: closed at
time 4 as `resolved`. It satisfies the schema. -/
def closedQuestion : Question :=
  { exampleQuestion with isClosed := true, closedReason := some (str "resolved"),
                         closedAt := some 4 }

/-- A state holding `closedQuestion` and the users `bob` and `carol`. -/
def closedQa : QaState := { questions := [closedQuestion], users := [bobUser, carolUser] }

/-! ## The auth controller: password reset and refresh tokens -/

/-- The tokens `generateTokens` returns. -/
structure Tokens where
  accessToken : JsString
  refreshToken : JsString
  expiresIn : Nat
deriving DecidableEq, Repr

/-- The way a handler of the auth controller ends: `res.status(s).json({ message, ...tokens })`
or `next(error)`. -/
inductive AuthResponse where
  | json (status : Nat) (message : String) (tokens : Option Tokens)
  | next (error : Err)
deriving DecidableEq, Repr

/-- The query `User.findOne({ email })`; an `undefined` email finds no user. -/
def findByEmail (users : List User) : Option JsString → Option User
  | none => none
  | some email => users.find? (fun u => u.email == email)

/-- The write of `user.save()` for a stored user: the first document with the `_id` of `u` is
replaced by `u`. Stored users satisfy `userSchema`, and the handlers below change only paths
without validators, so the validation of `save()` passes. -/
def putUser (u : User) : List User → List User
  | [] => []
  | x :: xs => if x._id == u._id then u :: xs else x :: putUser u xs

/-- The handler `exports.requestPasswordReset`, with `email = req.body.email`; `resetToken` is
the value of `crypto.randomBytes(20).toString('hex')` and `sendMail` is
`sendPasswordResetEmail` of the email service. -/
def requestPasswordReset (sendMail : JsString → JsString → Except Err Unit)
    (users : List User) (now : Nat) (resetToken : JsString) (email : Option JsString) :
    List User × AuthResponse :=
  match findByEmail users email with
  | none =>
    (users,
     .json 200 "If your email is registered, you will receive a password reset link" none)
  | some user =>
    match sendMail user.email resetToken with
    | .error e =>
      (putUser { user with resetPasswordToken := some resetToken,
                           resetPasswordExpires := some (now + 3600000),
                           updatedAt := some now } users,
       .next e)
    | .ok _ =>
      (putUser { user with resetPasswordToken := some resetToken,
                           resetPasswordExpires := some (now + 3600000),
                           updatedAt := some now } users,
       .json 200 "If your email is registered, you will receive a password reset link" none)

/-- The comparison `expiresAt < new Date()`; it is false for a missing date. -/
def expiresBefore (expiresAt : Option Nat) (now : Nat) : Bool :=
  match expiresAt with
  | none => false
  | some e => decide (e < now)

/-- The comparison `expiresAt > new Date()`; it is false for a missing date. -/
def expiresAfter (expiresAt : Option Nat) (now : Nat) : Bool :=
  match expiresAt with
  | none => false
  | some e => decide (now < e)

/-- The lifetime of a refresh token, `30 * 24 * 60 * 60 * 1000` milliseconds. -/
def refreshLifetime : Nat := 30 * 24 * 60 * 60 * 1000

/-- The function `generateTokens(user)`: the new refresh token is pushed, the expired tokens
are filtered out, the user is saved. `sign` is `jwt.sign` on `{ userId, role }` and `fresh`
the value of `crypto.randomBytes(40).toString('hex')`. Returns the saved user and the
tokens. -/
def generateTokens (sign : ObjectId → JsString → JsString) (now : Nat) (fresh : JsString)
    (user : User) : User × Tokens :=
  ({ user with
       refreshTokens :=
         (user.refreshTokens ++
           [(⟨some fresh, some (now + refreshLifetime)⟩ : RefreshToken)]).filter
           (fun t => expiresAfter t.expiresAt now),
       updatedAt := some now },
   { accessToken := sign user._id user.role, refreshToken := fresh, expiresIn := 3600 })

/-- The query `User.findOne({ 'refreshTokens.token': refreshToken })`. -/
def findByRefreshToken (users : List User) (presented : Option JsString) : Option User :=
  users.find? (fun u => u.refreshTokens.any (fun t => t.token == presented))

/-- The expression `user.refreshTokens.filter(t => t.token !== refreshToken)`. -/
def withoutToken (presented : Option JsString) (tokens : List RefreshToken) :
    List RefreshToken :=
  tokens.filter (fun t => t.token != presented)

/-- The handler `exports.refreshToken`, with `presented = req.body.refreshToken`. -/
def refreshToken (sign : ObjectId → JsString → JsString) (users : List User) (now : Nat)
    (fresh : JsString) (presented : Option JsString) : List User × AuthResponse :=
  if !truthy presented then (users, .json 400 "Refresh token is required" none)
  else
    match findByRefreshToken users presented with
    | none => (users, .json 401 "Invalid refresh token" none)
    | some user =>
      if (match user.refreshTokens.find? (fun t => t.token == presented) with
          | none => true
          | some tokenDoc => expiresBefore tokenDoc.expiresAt now) then
        (putUser { user with refreshTokens := withoutToken presented user.refreshTokens,
                             updatedAt := some now } users,
         .json 401 "Refresh token expired" none)
      else
        (putUser (generateTokens sign now fresh
            { user with refreshTokens := withoutToken presented user.refreshTokens,
                        updatedAt := some now }).1 users,
         .json 200 "Token refreshed successfully"
           (some (generateTokens sign now fresh
             { user with refreshTokens := withoutToken presented user.refreshTokens,
                         updatedAt := some now }).2))

/-! ## The user controller: `updateProfile` -/

/-- A value of a parsed JSON body; arrays and objects are kept as their JSON text. -/
inductive Json where
  | null
  | bool (b : Bool)
  | num (n : Int)
  | str (s : JsString)
  | nested (text : JsString)
deriving DecidableEq, Repr

/-- A parsed JSON object: its keys with their values, in order. -/
abbrev JsonObject := List (JsString × Json)

/-- The array `forbiddenUpdates`. -/
def forbiddenUpdates : List JsString :=
  [str "password", str "role", str "email", str "isVerified", str "isBanned",
   str "refreshTokens"]

/-- The statement `delete updates[field]`. -/
def deleteField (updates : JsonObject) (field : JsString) : JsonObject :=
  updates.filter (fun kv => kv.1 != field)

/-- The loop `forbiddenUpdates.forEach(field => delete updates[field])`. -/
def removeForbidden (updates : JsonObject) : JsonObject :=
  forbiddenUpdates.foldl deleteField updates

/-- The object `user.getProfile()` returns: the user without `password`, `refreshTokens`,
`verificationToken`, `resetPasswordToken` and `resetPasswordExpires`. -/
structure Profile where
  _id : ObjectId
  username : JsString
  email : JsString
  fullName : JsString
  profilePicture : JsString
  bio : JsString
  role : JsString
  institution : JsString
  specialization : JsString
  reputation : Int
  isVerified : Bool
  lastLogin : Option Nat
  questionsCount : Int
  answersCount : Int
  acceptedAnswersCount : Int
  isBanned : Bool
  createdAt : Option Nat
  updatedAt : Option Nat
deriving DecidableEq, Repr

/-- The method `userSchema.methods.getProfile`. -/
def getProfile (u : User) : Profile :=
  { _id := u._id, username := u.username, email := u.email, fullName := u.fullName,
    profilePicture := u.profilePicture, bio := u.bio, role := u.role,
    institution := u.institution, specialization := u.specialization,
    reputation := u.reputation, isVerified := u.isVerified, lastLogin := u.lastLogin,
    questionsCount := u.questionsCount, answersCount := u.answersCount,
    acceptedAnswersCount := u.acceptedAnswersCount, isBanned := u.isBanned,
    createdAt := u.createdAt, updatedAt := u.updatedAt }

/-- The way `updateProfile` ends. -/
inductive ProfileResponse where
  | json (status : Nat) (message : String) (user : Option Profile)
  | next (error : Err)
deriving DecidableEq, Repr

/-- The handler `exports.updateProfile`, with `userId = req.user.userId` and
`body = req.body`. The call `User.findByIdAndUpdate(userId, { $set: updates },
{ new: true, runValidators: true })` is the parameter `findByIdAndUpdate`: it rejects, or
resolves with the new collection and the updated user, `none` when there is no such user. The
cache service catches its own errors. -/
def updateProfile
    (findByIdAndUpdate : List User → ObjectId → JsonObject →
      Except Err (List User × Option User))
    (users : List User) (userId : ObjectId) (body : JsonObject) :
    List User × ProfileResponse :=
  match findByIdAndUpdate users userId (removeForbidden body) with
  | .error e => (users, .next e)
  | .ok (users', none) => (users', .json 404 "User not found" none)
  | .ok (users', some user) =>
    (users', .json 200 "Profile updated successfully" (some (getProfile user)))

/-- A user `bob` holding one refresh token. -/
def bobWithToken : User :=
  { bobUser with refreshTokens := [{ token := some (str "a1b2c3"), expiresAt := some 5000 }] }

/-- The effect of one entry of a `$set` document on a user, by the dot notation of MongoDB,
for the paths of the example below: `bio` sets the field `bio`, `refreshTokens.0.token` sets
the field `token` of the first element of `refreshTokens`. Entries with other paths are not
part of the example and are skipped. -/
def exampleSetEntry (u : User) (entry : JsString × Json) : User :=
  match entry.2 with
  | .str value =>
    if entry.1 = str "bio" then { u with bio := value }
    else if entry.1 = str "refreshTokens.0.token" then
      match u.refreshTokens with
      | [] => { u with refreshTokens := [{ token := some value, expiresAt := none }] }
      | t :: ts => { u with refreshTokens := { t with token := some value } :: ts }
    else u
  | _ => u

/-- An instance of `User.findByIdAndUpdate(id, { $set: updates }, { new: true })` for the
example: the entries are applied in order to the user with that id. -/
def exampleFindByIdAndUpdate (users : List User) (id : ObjectId) (updates : JsonObject) :
    Except Err (List User × Option User) :=
  match findUser users (some id) with
  | none => .ok (users, none)
  | some u => .ok (putUser (updates.foldl exampleSetEntry u) users,
                   some (updates.foldl exampleSetEntry u))

/-! ## String order -/

theorem strLt_asymm : ∀ a b : JsString, strLt a b = true → strLt b a = false
  | [], [], h => by simp [strLt] at h
  | [], _ :: _, _ => by simp [strLt]
  | _ :: _, [], h => by simp [strLt] at h
  | a :: as, b :: bs, h => by
    simp only [strLt] at h ⊢
    by_cases h1 : a < b
    · have h2 : ¬ b < a := Nat.lt_asymm h1
      simp [h1, h2]
    · by_cases h2 : b < a
      · simp [h1, h2] at h
      · simp only [h1, h2, if_false] at h ⊢
        exact strLt_asymm as bs h

theorem strLt_total : ∀ a b : JsString, strLt a b = false → strLt b a = false → a = b
  | [], [], _, _ => rfl
  | [], _ :: _, h, _ => by simp [strLt] at h
  | _ :: _, [], _, h => by simp [strLt] at h
  | a :: as, b :: bs, h, h' => by
    simp only [strLt] at h h'
    by_cases h1 : a < b
    · simp [h1] at h
    · by_cases h2 : b < a
      · simp [h2] at h'
      · simp only [h1, h2, if_false] at h h'
        have hab : a = b := Nat.le_antisymm (Nat.le_of_not_lt h2) (Nat.le_of_not_lt h1)
        rw [hab, strLt_total as bs h h']

theorem conversationKey_eq (s r : ObjectId) :
    conversationKey s r =
      (if strLt r s then r else s) ++ underscore ++ (if strLt r s then s else r) := by
  unfold conversationKey jsSort
  cases h : strLt r s <;> simp [stableSort, insertSorted, strLe, join, h]

theorem conversationKey_comm (a b : ObjectId) : conversationKey a b = conversationKey b a := by
  rw [conversationKey_eq, conversationKey_eq]
  cases h : strLt b a <;> cases h' : strLt a b
  · rw [strLt_total a b h' h]
  · simp
  · simp
  · rw [strLt_asymm b a h] at h'
    cases h'

/-! ## The conversation key -/

/-- C1: for every pair of user ids `a`, `b` the pre-save hook, run on a document with sender
`a`, receiver `b` and no conversation, and on one with sender `b`, receiver `a` and no
conversation, sets the same conversation key `k` in both. -/
theorem preSave_key_order_independent (d : Message) (a b : ObjectId) :
    ∃ k : JsString,
      preSave { d with sender := some a, receiver := some b, conversation := none } =
        .ok { d with sender := some a, receiver := some b, conversation := some k } ∧
      preSave { d with sender := some b, receiver := some a, conversation := none } =
        .ok { d with sender := some b, receiver := some a, conversation := some k } :=
  ⟨conversationKey a b, by simp [preSave, truthy], by
    simp [preSave, truthy, conversationKey_comm a b]⟩

/-- The key the hook sets: for every sender id `s` and receiver id `r`, the pre-save hook run
on a document without conversation sets `conversation` to the smaller of the two id strings,
the separator `_`, and the larger one, smaller and larger being taken in the code-unit order
of the sort; the key is one id, the separator, the other id, and nothing else. -/
theorem preSave_key_is_min_sep_max (d : Message) (s r : ObjectId) :
    ∃ lo hi : JsString,
      preSave { d with sender := some s, receiver := some r, conversation := none } =
        .ok { d with sender := some s, receiver := some r,
                     conversation := some (lo ++ str "_" ++ hi) } ∧
      ((lo = s ∧ hi = r) ∨ (lo = r ∧ hi = s)) ∧
      strLt hi lo = false ∧
      (lo ++ str "_" ++ hi).length = s.length + 1 + r.length := by
  refine ⟨if strLt r s then r else s, if strLt r s then s else r, ?_, ?_, ?_, ?_⟩
  · have hu : str "_" = underscore := by decide
    rw [hu, ← conversationKey_eq]
    simp [preSave, truthy]
  · cases h : strLt r s <;> simp
  · cases h : strLt r s
    · simpa using h
    · simpa using strLt_asymm r s h
  · cases h : strLt r s <;> simp [str] <;> omega

/-- C3, as stated, fails: a document with sender `alice`, receiver `bob` and the preset
conversation `stale` passes through the pre-save hook unchanged, so its conversation is not
the key of its participants. -/
theorem preSave_keeps_preset_conversation :
    staleDoc.sender = some aliceId ∧ staleDoc.receiver = some bobId ∧
    preSave staleDoc = .ok staleDoc ∧
    staleDoc.conversation = some (str "stale") ∧
    conversationKey aliceId bobId = bobId ++ str "_" ++ aliceId ∧
    staleDoc.conversation ≠ some (conversationKey aliceId bobId) := by
  decide

/-- C3, amended: for every message document with a sender `s` and a receiver `r`, the
pre-save hook leaves a non-empty conversation value as it is, and sets a missing or empty
one to the key of `s` and `r`; no other field changes. -/
theorem preSave_sets_key_unless_preset (d : Message) (s r : ObjectId) :
    preSave { d with sender := some s, receiver := some r } =
      .ok (if truthy d.conversation then { d with sender := some s, receiver := some r }
           else { d with sender := some s, receiver := some r,
                         conversation := some (conversationKey s r) }) := by
  cases h : truthy d.conversation <;> simp [preSave, h]

/-! ## Sending -/

theorem trim_eq_nil (c : JsString) (h : ∀ x ∈ c, isWhiteSpace x = true) : trim c = [] := by
  have h1 : c.dropWhile isWhiteSpace = [] := List.dropWhile_eq_nil_iff.2 h
  simp [trim, h1]

theorem save_newMessage (store : List Message) (now : Nat) (id : ObjectId)
    (sender receiver : Option ObjectId) (content : Option JsString) :
    ∃ paths, save store now true (newMessage id sender receiver content) =
      .error (.validation paths) ∧ "conversation" ∈ paths := by
  refine ⟨missingPaths (newMessage id sender receiver content), ?_, ?_⟩
  · have hne : missingPaths (newMessage id sender receiver content) ≠ [] := by
      simp [missingPaths, newMessage, truthy]
    simp [save, validate, hne]
  · simp [missingPaths, newMessage, truthy]

/-- C2, on the save of a message with no conversation preset: for every sender id `s` and
receiver id `r`, the pre-save hook run by itself would set `conversation` to the key of `s`
and `r`, but `save` validates the document before it runs the hook and rejects it with a
validation error on the required path `conversation`, whether the document is new or not; so
no message saved without a preset conversation gets the key. This holds in particular for
the document that `new Message({ sender, receiver, content })` builds for `alice`, `bob` and
`hello`. -/
theorem save_rejects_message_without_key (store : List Message) (now : Nat) (isNew : Bool)
    (d : Message) (s r : ObjectId) :
    preSave { d with sender := some s, receiver := some r, conversation := none } =
      .ok { d with sender := some s, receiver := some r,
                   conversation := some (conversationKey s r) } ∧
    (∃ paths,
      save store now isNew { d with sender := some s, receiver := some r, conversation := none } =
        .error (.validation paths) ∧ "conversation" ∈ paths) ∧
    (newMessage (str "65a000000000000000000004") (some aliceId) (some bobId)
      (some (str "hello"))).conversation = none ∧
    save exampleStore 9 true (newMessage (str "65a000000000000000000004") (some aliceId)
      (some bobId) (some (str "hello"))) = .error (.validation ["conversation"]) := by
  refine ⟨by simp [preSave, truthy], ?_, by decide, by decide⟩
  have hmem : "conversation" ∈
      missingPaths { d with sender := some s, receiver := some r, conversation := none } := by
    simp [missingPaths, truthy]
  have hne :
      missingPaths { d with sender := some s, receiver := some r, conversation := none } ≠ [] :=
    fun h => by rw [h] at hmem; cases hmem
  exact ⟨_, by simp [save, validate, hne], hmem⟩

/-- C4, evaluated at a valid request: `alice`, authenticated, sends `hello` to `bob`. The
document built from sender, receiver and content has no conversation, validation runs before
the pre-save hook and rejects it, and the handler ends with `next(error)`: nothing is stored,
nothing is emitted, no 201 is sent. -/
theorem sendMessage_valid_request_fails_validation :
    truthy (some bobId) = true ∧ trim (str "hello") = str "hello" ∧
    validate (newMessage (str "65a000000000000000000004") (some aliceId) (some bobId)
      (some (str "hello"))) = .error (.validation ["conversation"]) ∧
    sendMessage exampleWorld 9 (str "65a000000000000000000004") aliceId (some bobId)
      (some (str "hello")) = (exampleWorld, .next (.validation ["conversation"])) := by
  decide

/-- C5: for every send request whose content is empty or made of whitespace only, the REST
handler answers 400 and the socket handler returns, and both leave the state (the collection
and the emitted events) as it was. -/
theorem blank_content_not_persisted (w : World) (now : Nat) (newId userId : ObjectId)
    (sender receiver : Option JsString) (content : JsString)
    (hblank : ∀ c ∈ content, isWhiteSpace c = true) :
    sendMessage w now newId userId receiver (some content) =
      (w, .json 400 (.msg "Receiver and content are required")) ∧
    onSendMessage w now newId sender receiver (some content) = w := by
  have ht : trim content = [] := trim_eq_nil content hblank
  constructor
  · unfold sendMessage sendMessageWith
    cases truthy receiver <;> simp [ht, truthy]
  · unfold onSendMessage onSendMessageWith
    cases truthy receiver <;> simp [ht, truthy]

theorem blank_content_not_persisted_witness :
    sendMessage exampleWorld 9 (str "65a000000000000000000004") aliceId (some bobId)
        (some (str " \t\n ")) =
      (exampleWorld, .json 400 (.msg "Receiver and content are required")) ∧
    onSendMessage exampleWorld 9 (str "65a000000000000000000004") (some aliceId) (some bobId)
        (some (str " \t\n ")) = exampleWorld :=
  blank_content_not_persisted exampleWorld 9 (str "65a000000000000000000004") aliceId
    (some aliceId) (some bobId) (str " \t\n ") (by decide)

/-! ## The stable sort -/

section StableSort

variable {α : Type} (le : α → α → Bool)

theorem insertSorted_perm (x : α) (l : List α) : (insertSorted le x l).Perm (x :: l) := by
  induction l with
  | nil => exact List.Perm.refl _
  | cons y ys ih =>
    unfold insertSorted
    split
    · exact List.Perm.refl _
    · exact (ih.cons y).trans (List.Perm.swap x y ys)

theorem stableSort_perm (l : List α) : (stableSort le l).Perm l := by
  induction l with
  | nil => exact List.Perm.refl _
  | cons x xs ih => exact (insertSorted_perm le x _).trans (ih.cons x)

theorem insertSorted_pairwise (htot : ∀ a b, le a b = false → le b a = true)
    (htrans : ∀ a b c, le a b = true → le b c = true → le a c = true) (x : α) (l : List α)
    (hl : l.Pairwise (fun a b => le a b = true)) :
    (insertSorted le x l).Pairwise (fun a b => le a b = true) := by
  induction l with
  | nil => simp [insertSorted]
  | cons y ys ih =>
    obtain ⟨hy, hys⟩ := List.pairwise_cons.1 hl
    unfold insertSorted
    cases hxy : le x y
    · rw [if_neg (by simp)]
      refine List.pairwise_cons.2 ⟨fun z hz => ?_, ih hys⟩
      rcases List.mem_cons.1 ((insertSorted_perm le x ys).mem_iff.1 hz) with rfl | hz'
      · exact htot _ _ hxy
      · exact hy z hz'
    · rw [if_pos rfl]
      refine List.pairwise_cons.2 ⟨fun z hz => ?_, hl⟩
      rcases List.mem_cons.1 hz with rfl | hz'
      · exact hxy
      · exact htrans _ _ _ hxy (hy z hz')

theorem stableSort_pairwise (htot : ∀ a b, le a b = false → le b a = true)
    (htrans : ∀ a b c, le a b = true → le b c = true → le a c = true) (l : List α) :
    (stableSort le l).Pairwise (fun a b => le a b = true) := by
  induction l with
  | nil => exact List.Pairwise.nil
  | cons x xs ih => exact insertSorted_pairwise le htot htrans x _ ih

end StableSort

theorem createdAtLe_total (a b : Message) : createdAtLe a b = false → createdAtLe b a = true := by
  unfold createdAtLe
  cases a.createdAt <;> cases b.createdAt <;> simp [dateLe]
  omega

theorem createdAtLe_trans (a b c : Message) :
    createdAtLe a b = true → createdAtLe b c = true → createdAtLe a c = true := by
  unfold createdAtLe
  cases a.createdAt <;> cases b.createdAt <;> cases c.createdAt <;> simp [dateLe]
  omega

theorem betweenUsers_iff (a b : ObjectId) (m : Message) :
    betweenUsers a b m = true ↔
      (m.sender = some a ∧ m.receiver = some b) ∨ (m.sender = some b ∧ m.receiver = some a) := by
  simp [betweenUsers]

theorem mem_conversationOf (store : List Message) (a b : ObjectId) (m : Message) :
    m ∈ conversationOf store a b ↔
      m ∈ store ∧
        ((m.sender = some a ∧ m.receiver = some b) ∨
         (m.sender = some b ∧ m.receiver = some a)) := by
  unfold conversationOf
  rw [(stableSort_perm createdAtLe _).mem_iff, List.mem_filter, betweenUsers_iff]

theorem conversationOf_comm (store : List Message) (a b : ObjectId) :
    conversationOf store a b = conversationOf store b a := by
  have h : betweenUsers a b = betweenUsers b a := by
    funext m
    simp only [betweenUsers]
    exact Bool.or_comm _ _
  simp [conversationOf, h]

/-! ## Reading a conversation -/

theorem dateLe_antisymm (x y : Option Nat) (h : dateLe x y = true) (h' : dateLe y x = true) :
    x = y := by
  cases x <;> cases y <;> simp [dateLe] at h h' ⊢
  omega

theorem betweenUsers_comm (a b : ObjectId) : betweenUsers a b = betweenUsers b a := by
  funext m
  simp only [betweenUsers]
  exact Bool.or_comm _ _

theorem conversationOf_isResult (store : List Message) (a b : ObjectId) :
    IsConversationResult store a b (conversationOf store a b) :=
  ⟨stableSort_perm createdAtLe _,
   stableSort_pairwise createdAtLe createdAtLe_total createdAtLe_trans _⟩

theorem isConversationResult_comm {store : List Message} {a b : ObjectId} {l : List Message}
    (h : IsConversationResult store a b l) : IsConversationResult store b a l := by
  unfold IsConversationResult at h ⊢
  rw [betweenUsers_comm b a]
  exact h

theorem mem_of_isConversationResult {store : List Message} {a b : ObjectId} {l : List Message}
    (h : IsConversationResult store a b l) (m : Message) :
    m ∈ l ↔ m ∈ store ∧
      ((m.sender = some a ∧ m.receiver = some b) ∨
       (m.sender = some b ∧ m.receiver = some a)) := by
  rw [h.1.mem_iff, List.mem_filter, betweenUsers_iff]

theorem isConversationResult_unique {store : List Message} {a b : ObjectId}
    {l₁ l₂ : List Message} (h₁ : IsConversationResult store a b l₁)
    (h₂ : IsConversationResult store a b l₂)
    (hd : (store.filter (betweenUsers a b)).Pairwise (fun m n => m.createdAt ≠ n.createdAt)) :
    l₁ = l₂ := by
  have hsymm : ∀ {x y : Message}, x.createdAt ≠ y.createdAt → y.createdAt ≠ x.createdAt :=
    fun h => Ne.symm h
  have hd₁ := (h₁.1.pairwise_iff hsymm).2 hd
  have hd₂ := (h₂.1.pairwise_iff hsymm).2 hd
  haveI : IsAntisymm Message
      (fun m n => createdAtLe m n = true ∧ m.createdAt ≠ n.createdAt) :=
    ⟨fun m n hmn hnm => absurd (dateLe_antisymm _ _ hmn.1 hnm.1) hmn.2⟩
  exact List.eq_of_perm_of_sorted (h₁.1.trans h₂.1.symm) (h₁.2.and hd₁) (h₂.2.and hd₂)

theorem getMessages_isResponse (cast : JsString → Option ObjectId) (w : World)
    (userId withUser : JsString) (a b : ObjectId) (ha : cast userId = some a)
    (hb : cast withUser = some b) :
    GetMessagesResponse cast w userId withUser (getMessages w a b).2 := by
  unfold GetMessagesResponse
  rw [ha, hb]
  exact ⟨_, conversationOf_isResult w.store a b, rfl⟩

/-- C6, as stated, fails: the collection holds a message from `alice` to `bob` and one from
`bob` to `alice` with the same `createdAt`. The sequence with the first message in front is a
result of the query `getMessages` issues when `alice` asks with `withUser = bob`, the
sequence with the second message in front is a result of the query it issues when `bob` asks
with `withUser = alice`, and the two sequences differ: the two answers need not be the same
sequence. -/
theorem getMessages_tie_order_differs :
    GetMessagesResponse castObjectId ⟨tiedStore, []⟩ aliceId bobId
      (.json 200 (.messages tiedStore)) ∧
    GetMessagesResponse castObjectId ⟨tiedStore, []⟩ bobId aliceId
      (.json 200 (.messages tiedStore.reverse)) ∧
    tiedStore.map (fun m => m.createdAt) = [some 5, some 5] ∧
    tiedStore ≠ tiedStore.reverse := by
  refine ⟨?_, ?_, by decide, by decide⟩
  · unfold GetMessagesResponse
    rw [show castObjectId aliceId = some aliceId from by decide,
      show castObjectId bobId = some bobId from by decide]
    exact ⟨tiedStore, ⟨by decide, by decide⟩, rfl⟩
  · unfold GetMessagesResponse
    rw [show castObjectId aliceId = some aliceId from by decide,
      show castObjectId bobId = some bobId from by decide]
    exact ⟨tiedStore.reverse, ⟨by decide, by decide⟩, rfl⟩

/-- C6, amended: for every collection and every two request ids that cast to the user ids
`a` and `b`, every answer of `getMessages` asked by `a` with `withUser = b` and every answer
asked by `b` with `withUser = a` is a 200 with a list; the two lists hold the same messages,
each as often, both in non-decreasing `createdAt` order, among them every stored message
sent from `a` to `b` and every one sent from `b` to `a`; and the two lists are the same
sequence when no two of the stored messages between `a` and `b` have the same `createdAt`.
Such answers exist: the one computed by `getMessages` is one. -/
theorem getMessages_same_messages (cast : JsString → Option ObjectId) (w : World)
    (userA userB : JsString) (a b : ObjectId) (resp₁ resp₂ : Response)
    (ha : cast userA = some a) (hb : cast userB = some b)
    (h₁ : GetMessagesResponse cast w userA userB resp₁)
    (h₂ : GetMessagesResponse cast w userB userA resp₂) :
    GetMessagesResponse cast w userA userB (getMessages w a b).2 ∧
    GetMessagesResponse cast w userB userA (getMessages w b a).2 ∧
    ∃ l₁ l₂ : List Message,
      resp₁ = .json 200 (.messages l₁) ∧ resp₂ = .json 200 (.messages l₂) ∧
      l₁.Perm l₂ ∧
      l₁.Pairwise (fun m n => dateLe m.createdAt n.createdAt = true) ∧
      l₂.Pairwise (fun m n => dateLe m.createdAt n.createdAt = true) ∧
      (∀ m ∈ w.store, m.sender = some a ∧ m.receiver = some b → m ∈ l₁ ∧ m ∈ l₂) ∧
      (∀ m ∈ w.store, m.sender = some b ∧ m.receiver = some a → m ∈ l₁ ∧ m ∈ l₂) ∧
      ((w.store.filter (betweenUsers a b)).Pairwise (fun m n => m.createdAt ≠ n.createdAt) →
        l₁ = l₂) := by
  refine ⟨getMessages_isResponse cast w userA userB a b ha hb,
    getMessages_isResponse cast w userB userA b a hb ha, ?_⟩
  unfold GetMessagesResponse at h₁ h₂
  rw [ha, hb] at h₁
  rw [hb, ha] at h₂
  obtain ⟨l₁, hl₁, rfl⟩ := h₁
  obtain ⟨l₂, hl₂, rfl⟩ := h₂
  have hl₂' := isConversationResult_comm hl₂
  refine ⟨l₁, l₂, rfl, rfl, hl₁.1.trans hl₂'.1.symm, hl₁.2, hl₂.2, ?_, ?_, ?_⟩
  · exact fun m hm h => ⟨(mem_of_isConversationResult hl₁ m).2 ⟨hm, Or.inl h⟩,
      (mem_of_isConversationResult hl₂' m).2 ⟨hm, Or.inl h⟩⟩
  · exact fun m hm h => ⟨(mem_of_isConversationResult hl₁ m).2 ⟨hm, Or.inr h⟩,
      (mem_of_isConversationResult hl₂' m).2 ⟨hm, Or.inr h⟩⟩
  · exact fun hd => isConversationResult_unique hl₁ hl₂' hd

theorem getMessages_same_messages_witness :
    castObjectId (str "507F1F77BCF86CD799439011") = some aliceId ∧
    castObjectId bobId = some bobId ∧
    (exampleStore.filter (betweenUsers aliceId bobId)).Pairwise
      (fun m n => m.createdAt ≠ n.createdAt) ∧
    GetMessagesResponse castObjectId exampleWorld (str "507F1F77BCF86CD799439011") bobId
      (getMessages exampleWorld aliceId bobId).2 ∧
    GetMessagesResponse castObjectId exampleWorld bobId (str "507F1F77BCF86CD799439011")
      (getMessages exampleWorld bobId aliceId).2 ∧
    ∃ l₁ l₂ : List Message,
      (getMessages exampleWorld aliceId bobId).2 = .json 200 (.messages l₁) ∧
      (getMessages exampleWorld bobId aliceId).2 = .json 200 (.messages l₂) ∧
      l₁.Perm l₂ ∧
      l₁.Pairwise (fun m n => dateLe m.createdAt n.createdAt = true) ∧
      l₂.Pairwise (fun m n => dateLe m.createdAt n.createdAt = true) ∧
      (∀ m ∈ exampleWorld.store, m.sender = some aliceId ∧ m.receiver = some bobId →
        m ∈ l₁ ∧ m ∈ l₂) ∧
      (∀ m ∈ exampleWorld.store, m.sender = some bobId ∧ m.receiver = some aliceId →
        m ∈ l₁ ∧ m ∈ l₂) ∧
      ((exampleWorld.store.filter (betweenUsers aliceId bobId)).Pairwise
        (fun m n => m.createdAt ≠ n.createdAt) → l₁ = l₂) :=
  ⟨by decide, by decide, by decide,
   getMessages_same_messages castObjectId exampleWorld (str "507F1F77BCF86CD799439011") bobId
     aliceId bobId (getMessages exampleWorld aliceId bobId).2
     (getMessages exampleWorld bobId aliceId).2 (by decide) (by decide)
     (getMessages_isResponse castObjectId exampleWorld _ _ aliceId bobId (by decide)
       (by decide))
     (getMessages_isResponse castObjectId exampleWorld _ _ bobId aliceId (by decide)
       (by decide))⟩

/-- C7: for every collection and users `a` and `b`, `getMessages` answers 200 with a list
that is in non-decreasing `createdAt` order, whose members are exactly the stored messages
with (sender, receiver) equal to (`a`, `b`) or (`b`, `a`), each as often as it is stored:
exactly once when the stored documents are distinct. -/
theorem getMessages_sorted_complete (w : World) (a b : ObjectId) :
    ∃ l : List Message,
      getMessages w a b = (w, .json 200 (.messages l)) ∧
      l.Pairwise (fun m n => dateLe m.createdAt n.createdAt = true) ∧
      (∀ m, m ∈ l ↔ m ∈ w.store ∧
        ((m.sender = some a ∧ m.receiver = some b) ∨
         (m.sender = some b ∧ m.receiver = some a))) ∧
      (∀ m ∈ l, l.count m = w.store.count m) ∧
      (w.store.Nodup → l.Nodup) := by
  have hperm := stableSort_perm createdAtLe (w.store.filter (betweenUsers a b))
  refine ⟨conversationOf w.store a b, rfl, ?_, mem_conversationOf w.store a b, ?_, ?_⟩
  · exact stableSort_pairwise createdAtLe createdAtLe_total createdAtLe_trans _
  · intro m hm
    have hb : betweenUsers a b m = true :=
      (betweenUsers_iff a b m).2 ((mem_conversationOf _ _ _ _).1 hm).2
    unfold conversationOf
    rw [hperm.count_eq, List.count_filter hb]
  · intro hnd
    exact hperm.nodup_iff.2 (hnd.filter _)

theorem getMessages_sorted_complete_witness :
    exampleWorld.store.Nodup ∧
    ∃ l : List Message,
      getMessages exampleWorld aliceId bobId = (exampleWorld, .json 200 (.messages l)) ∧
      l.Pairwise (fun m n => dateLe m.createdAt n.createdAt = true) ∧
      (∀ m, m ∈ l ↔ m ∈ exampleWorld.store ∧
        ((m.sender = some aliceId ∧ m.receiver = some bobId) ∨
         (m.sender = some bobId ∧ m.receiver = some aliceId))) ∧
      (∀ m ∈ l, l.count m = exampleWorld.store.count m) ∧
      (exampleWorld.store.Nodup → l.Nodup) :=
  ⟨by decide, getMessages_sorted_complete exampleWorld aliceId bobId⟩

/-! ## Lookup and update by id -/

theorem findById_some {store : List Message} {id : ObjectId} {m : Message}
    (h : findById store id = some m) : m ∈ store ∧ m._id = id := by
  unfold findById at h
  exact ⟨List.mem_of_find?_eq_some h, by simpa using List.find?_some h⟩

theorem findById_append_of_some {store : List Message} {id : ObjectId} {m : Message}
    (h : findById store id = some m) (extra : List Message) :
    findById (store ++ extra) id = some m := by
  unfold findById at h ⊢
  simp [List.find?_append, h]

theorem findById_updateById (id' id : ObjectId) (f : Message → Message)
    (hf : ∀ m, m._id = id' → (f m)._id = id') (store : List Message) :
    findById (updateById id' f store) id =
      if id' = id then (findById store id).map f else findById store id := by
  induction store with
  | nil => simp [findById, updateById]
  | cons m ms ih =>
    unfold findById at ih ⊢
    by_cases h1 : m._id = id'
    · by_cases h2 : id' = id
      · have h3 : m._id = id := h1.trans h2
        have h4 : (f m)._id = id := (hf m h1).trans h2
        simp [updateById, h1, h2, List.find?_cons, h3, h4]
      · have h3 : ¬ m._id = id := fun h => h2 (h1.symm.trans h)
        have h4 : ¬ (f m)._id = id := fun h => h2 ((hf m h1).symm.trans h)
        simp [updateById, h1, h2, List.find?_cons, h3, h4]
    · by_cases h3 : m._id = id
      · have h2 : ¬ id' = id := fun h => h1 (h3.trans h.symm)
        have h5 : ¬ id = id' := fun h => h2 h.symm
        simp [updateById, h2, h5, List.find?_cons, h3]
      · have hb : (m._id == id) = false := by simpa using h3
        have hb' : (m._id == id') = false := by simpa using h1
        simp only [updateById, hb', Bool.false_eq_true, if_false, List.find?_cons, hb]
        exact ih

theorem map_id_updateById (id' : ObjectId) (f : Message → Message)
    (hf : ∀ m, m._id = id' → (f m)._id = id') (store : List Message) :
    (updateById id' f store).map (fun m => m._id) = store.map (fun m => m._id) := by
  induction store with
  | nil => rfl
  | cons m ms ih =>
    by_cases h1 : m._id = id'
    · simp [updateById, h1, hf m h1]
    · simp [updateById, h1, ih]

theorem validate_ok {m : Message} (h : validate m = .ok ()) :
    m.sender.isSome = true ∧ m.receiver.isSome = true ∧ truthy m.conversation = true ∧
      truthy m.content = true := by
  unfold validate at h
  split at h
  · rename_i hmp
    unfold missingPaths at hmp
    simp only [List.append_eq_nil, ite_eq_left_iff, List.cons_ne_nil, imp_false,
      Bool.not_eq_true, not_not, Bool.not_eq_false] at hmp
    obtain ⟨⟨⟨h1, h2⟩, h3⟩, h4⟩ := hmp
    exact ⟨h1, h2, h3, h4⟩
  · cases h

theorem save_existing {store : List Message} {now : Nat} {doc : Message}
    (h : validate doc = .ok ()) :
    save store now false doc =
      .ok (updateById doc._id (fun _ => stamp now false doc) store, stamp now false doc) := by
  have hc := (validate_ok h).2.2.1
  have hid : (stamp now false doc)._id = doc._id := rfl
  simp [save, h, preSave, hc, hid]

theorem save_existing_inv {store store' : List Message} {now : Nat} {doc saved : Message}
    (h : save store now false doc = .ok (store', saved)) :
    validate doc = .ok () ∧
      store' = updateById doc._id (fun _ => stamp now false doc) store := by
  cases hv : validate doc with
  | error e => simp [save, hv] at h
  | ok u =>
    rw [save_existing hv] at h
    simp only [Except.ok.injEq, Prod.mk.injEq] at h
    exact ⟨rfl, h.1.symm⟩

theorem save_new_inv {store store' : List Message} {now : Nat} {doc saved : Message}
    (h : save store now true doc = .ok (store', saved)) : store' = store ++ [saved] := by
  unfold save at h
  split at h
  · cases h
  · split at h
    · cases h
    · simp only [if_true, Except.ok.injEq, Prod.mk.injEq] at h
      rw [← h.1, ← h.2]

/-! ## Soft delete -/

/-- C8: for every stored message `m`, with sender `s` and receiver `r`, and every requesting
user `u` different from both, `deleteMessage` answers 403 and leaves the whole state as it
was; in particular the stored message, with its `isDeleted`, `deletedAt` and `deletedBy`, is
the same as before. -/
theorem deleteMessage_forbidden_for_outsider (w : World) (now : Nat) (id u s r : ObjectId)
    (m : Message) (hfind : findById w.store id = some m) (hs : m.sender = some s)
    (hr : m.receiver = some r) (hsu : s ≠ u) (hru : r ≠ u) :
    deleteMessage w now id u =
      (w, .json 403 (.msg "Not authorized to delete this message")) ∧
    findById (deleteMessage w now id u).1.store id = some m := by
  have h : deleteMessage w now id u =
      (w, .json 403 (.msg "Not authorized to delete this message")) := by
    have hsu' : (s != u) = true := by simpa using hsu
    have hru' : (r != u) = true := by simpa using hru
    simp [deleteMessage, hfind, notParticipant, hs, hr, hsu', hru']
  rw [h]
  exact ⟨rfl, hfind⟩

theorem deleteMessage_forbidden_for_outsider_witness :
    deleteMessage exampleWorld 9 (str "65a000000000000000000001") carolId =
      (exampleWorld, .json 403 (.msg "Not authorized to delete this message")) ∧
    findById (deleteMessage exampleWorld 9 (str "65a000000000000000000001") carolId).1.store
        (str "65a000000000000000000001") =
      some (storedMessage (str "65a000000000000000000001") aliceId bobId (str "hello") 3) :=
  deleteMessage_forbidden_for_outsider exampleWorld 9 (str "65a000000000000000000001") carolId
    aliceId bobId (storedMessage (str "65a000000000000000000001") aliceId bobId (str "hello") 3)
    (by decide) (by decide) (by decide) (by decide) (by decide)

theorem notParticipant_of_participant {m : Message} {u : ObjectId}
    (hsome : m.sender.isSome = true) (hpart : m.sender = some u ∨ m.receiver = some u) :
    notParticipant m u = .ok false := by
  unfold notParticipant
  rcases hpart with h | h
  · simp [h]
  · cases hsd : m.sender with
    | none => simp [hsd] at hsome
    | some s => by_cases hsu : s = u <;> simp [h, hsu]

/-- C9: for every stored message `m` that satisfies the schema and every requesting user `u`
equal to its sender or to its receiver, `deleteMessage` called at time `now` answers 200, and
afterwards the message found under the same id is `m` with `isDeleted = true`,
`deletedBy = u` and `deletedAt = now` (and the `updatedAt` timestamp of the save). -/
theorem deleteMessage_by_participant (w : World) (now : Nat) (id u : ObjectId) (m : Message)
    (hfind : findById w.store id = some m) (hvalid : validate m = .ok ())
    (hpart : m.sender = some u ∨ m.receiver = some u) :
    ∃ w' : World,
      deleteMessage w now id u = (w', .json 200 (.msg "Message deleted successfully")) ∧
      findById w'.store id =
        some { m with isDeleted := true, deletedAt := some now, deletedBy := some u,
                      updatedAt := some now } ∧
      w'.emitted = w.emitted := by
  obtain ⟨hsend, _, _, _⟩ := validate_ok hvalid
  have hid : m._id = id := (findById_some hfind).2
  have hv : validate (setDeleted now u m) = .ok () := by
    have : missingPaths (setDeleted now u m) = missingPaths m := rfl
    unfold validate at hvalid ⊢
    rw [this]
    exact hvalid
  refine ⟨⟨updateById id (fun _ => stamp now false (setDeleted now u m)) w.store,
    w.emitted⟩, ?_, ?_, rfl⟩
  · have hsid : (setDeleted now u m)._id = id := hid
    simp [deleteMessage, hfind, notParticipant_of_participant hsend hpart, save_existing hv,
      hsid]
  · have hsid : ∀ x : Message, x._id = id →
        ((fun _ => stamp now false (setDeleted now u m)) x : Message)._id = id :=
      fun _ _ => hid
    show findById (updateById id _ w.store) id = _
    rw [findById_updateById id id _ hsid, if_pos rfl, hfind]
    rfl

theorem deleteMessage_by_participant_witness :
    ∃ w' : World,
      deleteMessage exampleWorld 9 (str "65a000000000000000000001") bobId =
        (w', .json 200 (.msg "Message deleted successfully")) ∧
      findById w'.store (str "65a000000000000000000001") =
        some { storedMessage (str "65a000000000000000000001") aliceId bobId (str "hello") 3 with
               isDeleted := true, deletedAt := some 9, deletedBy := some bobId,
               updatedAt := some 9 } ∧
      w'.emitted = exampleWorld.emitted :=
  deleteMessage_by_participant exampleWorld 9 (str "65a000000000000000000001") bobId
    (storedMessage (str "65a000000000000000000001") aliceId bobId (str "hello") 3)
    (by decide) (by decide) (by decide)

/-! ## Nothing is removed -/

theorem sendMessage_store (w : World) (now : Nat) (newId userId : ObjectId)
    (receiver content : Option JsString) :
    (sendMessage w now newId userId receiver content).1.store = w.store ∨
      ∃ m, (sendMessage w now newId userId receiver content).1.store = w.store ++ [m] := by
  unfold sendMessage sendMessageWith
  split
  · exact Or.inl rfl
  · split
    · exact Or.inl rfl
    · split
      · exact Or.inl rfl
      · split
        · exact Or.inl rfl
        · rename_i store message hsave
          exact Or.inr ⟨message, save_new_inv hsave⟩

theorem markAsRead_store (w : World) (now : Nat) (id : ObjectId) :
    (markAsRead w now id).1.store = w.store ∨
      (markAsRead w now id).1.store = updateById id (setRead now) w.store := by
  unfold markAsRead
  split
  · exact Or.inl rfl
  · exact Or.inr rfl

theorem deleteMessage_store (w : World) (now : Nat) (id u : ObjectId) :
    (deleteMessage w now id u).1.store = w.store ∨
      ∃ m, findById w.store id = some m ∧ validate m = .ok () ∧
        (deleteMessage w now id u).1.store =
          updateById id (fun _ => stamp now false (setDeleted now u m)) w.store := by
  unfold deleteMessage
  split
  · exact Or.inl rfl
  · rename_i m hfind
    split
    · exact Or.inl rfl
    · exact Or.inl rfl
    · split
      · exact Or.inl rfl
      · rename_i store saved hsave
        obtain ⟨hv, hstore⟩ := save_existing_inv hsave
        have hid : (setDeleted now u m)._id = id := (findById_some hfind).2
        rw [hid] at hstore
        exact Or.inr ⟨m, hfind, hv, hstore⟩

theorem step_keeps_ids (w : World) (c : Call) :
    w.store.map (fun m => m._id) <+: (step w c).store.map (fun m => m._id) := by
  cases c with
  | send now newId userId receiver content =>
    rcases sendMessage_store w now newId userId receiver content with h | ⟨m, h⟩
    · simp only [step, h]
      exact List.prefix_refl _
    · simp only [step, h, List.map_append]
      exact List.prefix_append _ _
  | read now id =>
    rcases markAsRead_store w now id with h | h
    · simp only [step, h]
      exact List.prefix_refl _
    · simp only [step, h]
      rw [map_id_updateById id (setRead now) (fun _ hm => hm)]
  | delete now id u =>
    rcases deleteMessage_store w now id u with h | ⟨m, hfind, _, h⟩
    · simp only [step, h]
      exact List.prefix_refl _
    · simp only [step, h]
      rw [map_id_updateById id (fun _ => stamp now false (setDeleted now u m))
        (fun _ _ => (findById_some hfind).2)]

theorem run_keeps_ids (calls : List Call) (w : World) :
    w.store.map (fun m => m._id) <+: (run w calls).store.map (fun m => m._id) := by
  induction calls generalizing w with
  | nil => exact List.prefix_refl _
  | cons c cs ih => exact (step_keeps_ids w c).trans (ih (step w c))

theorem step_keeps_deleted {id s r : ObjectId} (w : World) (c : Call)
    (h : DeletedBetween id s r w.store) : DeletedBetween id s r (step w c).store := by
  obtain ⟨m, hfind, hdel, hs, hr⟩ := h
  cases c with
  | send now newId userId receiver content =>
    rcases sendMessage_store w now newId userId receiver content with h | ⟨x, h⟩
    · simp only [step, h]
      exact ⟨m, hfind, hdel, hs, hr⟩
    · simp only [step, h]
      exact ⟨m, findById_append_of_some hfind _, hdel, hs, hr⟩
  | read now id' =>
    rcases markAsRead_store w now id' with h | h
    · simp only [step, h]
      exact ⟨m, hfind, hdel, hs, hr⟩
    · simp only [step, h]
      by_cases hid : id' = id
      · refine ⟨setRead now m, ?_, hdel, hs, hr⟩
        rw [findById_updateById id' id (setRead now) (fun _ hm => hm), if_pos hid, hfind]
        rfl
      · refine ⟨m, ?_, hdel, hs, hr⟩
        rw [findById_updateById id' id (setRead now) (fun _ hm => hm), if_neg hid, hfind]
  | delete now id' u =>
    rcases deleteMessage_store w now id' u with h | ⟨m', hfind', _, h⟩
    · simp only [step, h]
      exact ⟨m, hfind, hdel, hs, hr⟩
    · simp only [step, h]
      have hpres : ∀ x : Message, x._id = id' →
          ((fun _ => stamp now false (setDeleted now u m')) x : Message)._id = id' :=
        fun _ _ => (findById_some hfind').2
      by_cases hid : id' = id
      · have hmm : m' = m := by
          rw [hid, hfind] at hfind'
          exact (Option.some.inj hfind').symm
        refine ⟨stamp now false (setDeleted now u m), ?_, rfl, hs, hr⟩
        rw [findById_updateById id' id _ hpres, if_pos hid, hfind, hmm]
        rfl
      · refine ⟨m, ?_, hdel, hs, hr⟩
        rw [findById_updateById id' id _ hpres, if_neg hid, hfind]

theorem run_keeps_deleted {id s r : ObjectId} (calls : List Call) (w : World)
    (h : DeletedBetween id s r w.store) : DeletedBetween id s r (run w calls).store := by
  induction calls generalizing w with
  | nil => exact h
  | cons c cs ih => exact ih (step w c) (step_keeps_deleted w c h)

theorem deleteMessage_ok_inv {w₀ w : World} {now : Nat} {id u : ObjectId} {body : Body}
    (h : deleteMessage w₀ now id u = (w, .json 200 body)) :
    ∃ m, findById w₀.store id = some m ∧ validate m = .ok () ∧
      w.store = updateById id (fun _ => stamp now false (setDeleted now u m)) w₀.store := by
  unfold deleteMessage at h
  split at h
  · simp at h
  · rename_i m hfind
    split at h
    · simp at h
    · simp at h
    · split at h
      · simp at h
      · rename_i store saved hsave
        obtain ⟨hv, hst⟩ := save_existing_inv hsave
        have hid : (setDeleted now u m)._id = id := (findById_some hfind).2
        rw [hid] at hst
        simp only [Prod.mk.injEq] at h
        refine ⟨m, hfind, hv, ?_⟩
        rw [← h.1]
        exact hst

/-- C10: no call of the message controller removes a message. After any sequence of
`sendMessage`, `markAsRead` and `deleteMessage` calls the ids of the messages stored before
still head the collection, in the same order, so every message stored before is still stored
under its id; and once `deleteMessage` has answered 200 for a message, after any such
sequence the message under that id is still flagged deleted and is in the list `getMessages`
returns for its sender and receiver. -/
theorem messages_never_removed (w : World) (calls : List Call) :
    w.store.map (fun m => m._id) <+: (run w calls).store.map (fun m => m._id) ∧
    (∀ m ∈ w.store, ∃ m' ∈ (run w calls).store, m'._id = m._id) ∧
    (∀ (w₀ : World) (now : Nat) (id u : ObjectId),
      deleteMessage w₀ now id u = (w, .json 200 (.msg "Message deleted successfully")) →
      ∃ (m₀ m : Message) (s r : ObjectId) (l : List Message),
        findById w₀.store id = some m₀ ∧ m₀.sender = some s ∧ m₀.receiver = some r ∧
        findById (run w calls).store id = some m ∧ m.isDeleted = true ∧
        m.sender = some s ∧ m.receiver = some r ∧
        getMessages (run w calls) s r = (run w calls, .json 200 (.messages l)) ∧ m ∈ l) := by
  refine ⟨run_keeps_ids calls w, ?_, ?_⟩
  · intro m hm
    have hmem : m._id ∈ (run w calls).store.map (fun m => m._id) :=
      (run_keeps_ids calls w).subset (List.mem_map_of_mem _ hm)
    obtain ⟨m', hm', hid⟩ := List.mem_map.1 hmem
    exact ⟨m', hm', hid⟩
  · intro w₀ now id u hdel
    obtain ⟨m₀, hfind₀, hv, hupd⟩ := deleteMessage_ok_inv hdel
    obtain ⟨hsend, hrecv, _, _⟩ := validate_ok hv
    obtain ⟨s, hs⟩ := Option.isSome_iff_exists.1 hsend
    obtain ⟨r, hr⟩ := Option.isSome_iff_exists.1 hrecv
    have hnow : DeletedBetween id s r w.store := by
      refine ⟨stamp now false (setDeleted now u m₀), ?_, rfl, hs, hr⟩
      rw [hupd, findById_updateById id id (fun _ => stamp now false (setDeleted now u m₀))
        (fun _ _ => (findById_some hfind₀).2), if_pos rfl, hfind₀]
      rfl
    obtain ⟨m, hfind, hdeleted, hms, hmr⟩ := run_keeps_deleted calls w hnow
    exact ⟨m₀, m, s, r, conversationOf (run w calls).store s r, hfind₀, hs, hr, hfind, hdeleted,
      hms, hmr, rfl,
      (mem_conversationOf _ _ _ _).2 ⟨(findById_some hfind).1, Or.inl ⟨hms, hmr⟩⟩⟩

theorem messages_never_removed_witness :
    ∃ (m₀ m : Message) (s r : ObjectId) (l : List Message),
      findById exampleWorld.store (str "65a000000000000000000001") = some m₀ ∧
      m₀.sender = some s ∧ m₀.receiver = some r ∧
      findById (run (deleteMessage exampleWorld 9 (str "65a000000000000000000001") bobId).1
        [.read 10 (str "65a000000000000000000001"),
         .delete 11 (str "65a000000000000000000002") aliceId]).store
        (str "65a000000000000000000001") = some m ∧
      m.isDeleted = true ∧ m.sender = some s ∧ m.receiver = some r ∧
      getMessages (run (deleteMessage exampleWorld 9 (str "65a000000000000000000001") bobId).1
        [.read 10 (str "65a000000000000000000001"),
         .delete 11 (str "65a000000000000000000002") aliceId]) s r =
        (run (deleteMessage exampleWorld 9 (str "65a000000000000000000001") bobId).1
          [.read 10 (str "65a000000000000000000001"),
           .delete 11 (str "65a000000000000000000002") aliceId], .json 200 (.messages l)) ∧
      m ∈ l :=
  (messages_never_removed
    (deleteMessage exampleWorld 9 (str "65a000000000000000000001") bobId).1
    [.read 10 (str "65a000000000000000000001"),
     .delete 11 (str "65a000000000000000000002") aliceId]).2.2
    exampleWorld 9 (str "65a000000000000000000001") bobId (by decide)

/-! ## Marking as read -/

theorem markAsRead_found {w : World} {id : ObjectId} {m : Message} (now : Nat)
    (hfind : findById w.store id = some m) :
    markAsRead w now id =
        ({ w with store := updateById id (setRead now) w.store },
         .json 200 (.msg "Message marked as read")) ∧
      findById (markAsRead w now id).1.store id = some (setRead now m) := by
  have h : markAsRead w now id =
      ({ w with store := updateById id (setRead now) w.store },
       .json 200 (.msg "Message marked as read")) := by
    simp [markAsRead, hfind]
  refine ⟨h, ?_⟩
  rw [h]
  show findById (updateById id (setRead now) w.store) id = _
  rw [findById_updateById id id (setRead now) (fun _ hm => hm), if_pos rfl, hfind]
  rfl

theorem markAsReadAt_found (id : ObjectId) (times : List Nat) :
    ∀ (w : World) (m : Message), findById w.store id = some m →
      (markAsReadAt w id times).2 =
          times.map (fun _ => Response.json 200 (.msg "Message marked as read")) ∧
        ∃ m', findById (markAsReadAt w id times).1.store id = some m' ∧
          (times ≠ [] → m'.isRead = true) := by
  induction times with
  | nil => exact fun w m h => ⟨rfl, m, h, fun hne => absurd rfl hne⟩
  | cons t ts ih =>
    intro w m hfind
    obtain ⟨hstep, hfound⟩ := markAsRead_found t hfind
    obtain ⟨hresp, m', hm', hread⟩ := ih (markAsRead w t id).1 (setRead t m) hfound
    refine ⟨?_, m', hm', fun _ => ?_⟩
    · simp only [markAsReadAt, List.map_cons, hresp]
      rw [hstep]
    · cases ts with
      | nil =>
        simp only [markAsReadAt] at hm'
        rw [hfound] at hm'
        rw [← Option.some.inj hm']
        rfl
      | cons t' ts' => exact hread (List.cons_ne_nil _ _)

/-- C11: for every stored message, one `markAsRead` call answers 200 and leaves its `isRead`
flag true, and for any number of further calls, at any times, every call answers 200 and the
flag of the stored message is still true at the end. -/
theorem markAsRead_flag_stable (w : World) (id : ObjectId) (m : Message) (t : Nat)
    (later : List Nat) (hfind : findById w.store id = some m) :
    (∃ m₁, (markAsRead w t id).2 = .json 200 (.msg "Message marked as read") ∧
      findById (markAsRead w t id).1.store id = some m₁ ∧ m₁.isRead = true) ∧
    (∀ r ∈ (markAsReadAt w id (t :: later)).2, r = .json 200 (.msg "Message marked as read")) ∧
    (markAsReadAt w id (t :: later)).2.length = later.length + 1 ∧
    (∃ m', findById (markAsReadAt w id (t :: later)).1.store id = some m' ∧
      m'.isRead = true) := by
  obtain ⟨hstep, hfound⟩ := markAsRead_found t hfind
  obtain ⟨hresp, m', hm', hread⟩ := markAsReadAt_found id (t :: later) w m hfind
  refine ⟨⟨setRead t m, by rw [hstep], hfound, rfl⟩, ?_, ?_, m', hm',
    hread (List.cons_ne_nil _ _)⟩
  · intro r hr
    rw [hresp] at hr
    obtain ⟨_, _, rfl⟩ := List.mem_map.1 hr
    rfl
  · rw [hresp]
    simp

theorem markAsRead_flag_stable_witness :
    (∃ m₁, (markAsRead exampleWorld 4 (str "65a000000000000000000001")).2 =
        .json 200 (.msg "Message marked as read") ∧
      findById (markAsRead exampleWorld 4 (str "65a000000000000000000001")).1.store
        (str "65a000000000000000000001") = some m₁ ∧ m₁.isRead = true) ∧
    (∀ r ∈ (markAsReadAt exampleWorld (str "65a000000000000000000001") (4 :: [6, 5])).2,
      r = .json 200 (.msg "Message marked as read")) ∧
    (markAsReadAt exampleWorld (str "65a000000000000000000001") (4 :: [6, 5])).2.length =
      [6, 5].length + 1 ∧
    (∃ m', findById (markAsReadAt exampleWorld (str "65a000000000000000000001")
        (4 :: [6, 5])).1.store (str "65a000000000000000000001") = some m' ∧
      m'.isRead = true) :=
  markAsRead_flag_stable exampleWorld (str "65a000000000000000000001")
    (storedMessage (str "65a000000000000000000001") aliceId bobId (str "hello") 3) 4 [6, 5]
    (by decide)

/-- C12: for every stored message that is already read, with `readAt = t1`, a `markAsRead`
call at time `t2` is not rejected: it answers 200, and the stored message is then the same
message with `readAt = t2` (and `updatedAt = t2`), still read; its `readAt` has changed
whenever `t2` differs from `t1`. -/
theorem markAsRead_again_resets_readAt (w : World) (id : ObjectId) (m : Message) (t1 t2 : Nat)
    (hfind : findById w.store id = some m) (hread : m.isRead = true)
    (hat : m.readAt = some t1) :
    markAsRead w t2 id =
      ({ w with store := updateById id (setRead t2) w.store },
       .json 200 (.msg "Message marked as read")) ∧
    ∃ m', findById (markAsRead w t2 id).1.store id = some m' ∧
      m' = { m with readAt := some t2, updatedAt := some t2 } ∧
      m'.isRead = true ∧ m'.readAt = some t2 ∧ (t1 ≠ t2 → m'.readAt ≠ m.readAt) := by
  obtain ⟨hstep, hfound⟩ := markAsRead_found t2 hfind
  refine ⟨hstep, setRead t2 m, hfound, ?_, rfl, rfl, fun hne h => ?_⟩
  · simp only [setRead, ← hread]
  · rw [hat] at h
    exact hne (Option.some.inj h).symm

theorem markAsRead_again_resets_readAt_witness :
    markAsRead (markAsRead exampleWorld 4 (str "65a000000000000000000001")).1 8
        (str "65a000000000000000000001") =
      ({ (markAsRead exampleWorld 4 (str "65a000000000000000000001")).1 with
         store := updateById (str "65a000000000000000000001") (setRead 8)
           (markAsRead exampleWorld 4 (str "65a000000000000000000001")).1.store },
       .json 200 (.msg "Message marked as read")) ∧
    ∃ m', findById (markAsRead (markAsRead exampleWorld 4 (str "65a000000000000000000001")).1 8
        (str "65a000000000000000000001")).1.store (str "65a000000000000000000001") = some m' ∧
      m' = { setRead 4 (storedMessage (str "65a000000000000000000001") aliceId bobId
               (str "hello") 3) with readAt := some 8, updatedAt := some 8 } ∧
      m'.isRead = true ∧ m'.readAt = some 8 ∧
      (4 ≠ 8 → m'.readAt ≠ (setRead 4 (storedMessage (str "65a000000000000000000001") aliceId
        bobId (str "hello") 3)).readAt) :=
  markAsRead_again_resets_readAt (markAsRead exampleWorld 4 (str "65a000000000000000000001")).1
    (str "65a000000000000000000001")
    (setRead 4 (storedMessage (str "65a000000000000000000001") aliceId bobId (str "hello") 3))
    4 8 (by decide) (by decide) (by decide)

/-- For every `ObjectId` under which nothing is stored, `markAsRead` and `deleteMessage`
each answer 404 with the message `Message not found` and leave the state as it was. -/
theorem unknown_id_not_found (w : World) (now : Nat) (id u : ObjectId)
    (hnone : findById w.store id = none) :
    markAsRead w now id = (w, .json 404 (.msg "Message not found")) ∧
    deleteMessage w now id u = (w, .json 404 (.msg "Message not found")) := by
  simp [markAsRead, deleteMessage, hnone]

/-- C13, as stated, fails: the request id `abc` is the id of no stored message, and it is
not the rendering of an `ObjectId`. The cast in `findByIdAndUpdate` and in `findById` throws
a `CastError`, and `markAsRead` and `deleteMessage` end with `next(error)`, not with 404. -/
theorem malformed_id_is_cast_error :
    (∀ m ∈ exampleStore, m._id ≠ str "abc") ∧
    castObjectId (str "abc") = none ∧
    markAsReadRequest castObjectId exampleWorld 4 (str "abc") =
      (exampleWorld, .next (.castError (str "abc"))) ∧
    deleteMessageRequest castObjectId exampleWorld 4 (str "abc") aliceId =
      (exampleWorld, .next (.castError (str "abc"))) := by
  decide

/-- C13, amended: for every request id that is the id of no stored message, whatever the
cast, `markAsRead` and `deleteMessage` leave the state as it was; when the request id casts
to an `ObjectId` each answers 404 with the message `Message not found`, and when the cast
fails each ends with `next` of the `CastError`. -/
theorem missing_message_not_found (cast : JsString → Option ObjectId) (w : World) (now : Nat)
    (messageId : JsString) (userId : ObjectId)
    (hmissing : ∀ m ∈ w.store, cast messageId ≠ some m._id) :
    ((cast messageId).isSome = true →
      markAsReadRequest cast w now messageId = (w, .json 404 (.msg "Message not found")) ∧
      deleteMessageRequest cast w now messageId userId =
        (w, .json 404 (.msg "Message not found"))) ∧
    (cast messageId = none →
      markAsReadRequest cast w now messageId = (w, .next (.castError messageId)) ∧
      deleteMessageRequest cast w now messageId userId =
        (w, .next (.castError messageId))) := by
  constructor
  · intro hsome
    obtain ⟨id, hid⟩ := Option.isSome_iff_exists.1 hsome
    have hnone : findById w.store id = none := by
      cases hf : findById w.store id with
      | none => rfl
      | some m =>
        obtain ⟨hm, hmid⟩ := findById_some hf
        exact absurd (hmid ▸ hid) (hmissing m hm)
    simp [markAsReadRequest, deleteMessageRequest, hid, markAsRead, deleteMessage, hnone]
  · intro hnone
    simp [markAsReadRequest, deleteMessageRequest, hnone]

theorem missing_message_not_found_witness :
    (∀ m ∈ exampleWorld.store,
      castObjectId (str "65A0000000000000000000FF") ≠ some m._id) ∧
    ((castObjectId (str "65A0000000000000000000FF")).isSome = true →
      markAsReadRequest castObjectId exampleWorld 4 (str "65A0000000000000000000FF") =
        (exampleWorld, .json 404 (.msg "Message not found")) ∧
      deleteMessageRequest castObjectId exampleWorld 4 (str "65A0000000000000000000FF")
        aliceId = (exampleWorld, .json 404 (.msg "Message not found"))) ∧
    (castObjectId (str "65A0000000000000000000FF") = none →
      markAsReadRequest castObjectId exampleWorld 4 (str "65A0000000000000000000FF") =
        (exampleWorld, .next (.castError (str "65A0000000000000000000FF"))) ∧
      deleteMessageRequest castObjectId exampleWorld 4 (str "65A0000000000000000000FF")
        aliceId = (exampleWorld, .next (.castError (str "65A0000000000000000000FF")))) :=
  ⟨by decide,
   missing_message_not_found castObjectId exampleWorld 4 (str "65A0000000000000000000FF")
     aliceId (by decide)⟩

/-! ## The outcomes of a send -/

theorem save_new_fields {store store' : List Message} {now : Nat} {doc saved : Message}
    (h : save store now true doc = .ok (store', saved)) :
    saved._id = doc._id ∧ saved.sender = doc.sender ∧ saved.receiver = doc.receiver ∧
      saved.content = doc.content := by
  unfold save at h
  split at h
  · cases h
  · split at h
    · cases h
    · rename_i hooked hhook
      simp only [if_true, Except.ok.injEq, Prod.mk.injEq] at h
      have hk : hooked._id = doc._id ∧ hooked.sender = doc.sender ∧
          hooked.receiver = doc.receiver ∧ hooked.content = doc.content := by
        unfold preSave at hhook
        split at hhook
        · cases hhook
          exact ⟨rfl, rfl, rfl, rfl⟩
        · split at hhook
          · cases hhook
            exact ⟨rfl, rfl, rfl, rfl⟩
          · cases hhook
      rw [← h.2]
      exact hk

theorem truthy_some {s : JsString} : truthy (some s) = true ↔ s ≠ [] := by
  cases s <;> simp [truthy]

theorem sendMessage_cases (w : World) (now : Nat) (newId userId : ObjectId)
    (receiver content : Option JsString) :
    (sendMessage w now newId userId receiver content =
        (w, .json 400 (.msg "Receiver and content are required")) ∧
      (truthy receiver = false ∨ ∃ c, content = some c ∧ trim c = [])) ∨
    (∃ e, sendMessage w now newId userId receiver content = (w, .next e)) ∨
    (∃ r c m, receiver = some r ∧ content = some c ∧
      save w.store now true (newMessage newId (some userId) (some r) (some c)) =
        .ok (w.store ++ [m], m) ∧
      sendMessage w now newId userId receiver content =
        (⟨w.store ++ [m], w.emitted ++ [⟨r, "new_message", m⟩]⟩,
         .json 201 (.msgData "Message sent successfully" m))) := by
  unfold sendMessage sendMessageWith
  cases hr : truthy receiver
  · exact Or.inl ⟨by simp, Or.inl rfl⟩
  · obtain ⟨r, rfl⟩ : ∃ r, receiver = some r := by
      cases receiver with
      | none => simp [truthy] at hr
      | some r => exact ⟨r, rfl⟩
    cases content with
    | none => exact Or.inr (Or.inl ⟨.typeError, by simp⟩)
    | some c =>
      cases hc : truthy (some (trim c))
      · refine Or.inl ⟨by simp [hc], Or.inr ⟨c, rfl, ?_⟩⟩
        cases htc : trim c with
        | nil => rfl
        | cons x xs => simp [truthy, htc] at hc
      · refine Or.inr ?_
        cases hs : save w.store now true (newMessage newId (some userId) (some r) (some c)) with
        | error e => exact Or.inl ⟨e, by simp [hc, hs]⟩
        | ok p =>
          obtain ⟨store, m⟩ := p
          have hst := save_new_inv hs
          subst hst
          exact Or.inr ⟨r, c, m, rfl, rfl, hs, by simp [hc, hs]⟩

theorem onSendMessage_cases (w : World) (now : Nat) (newId : ObjectId)
    (sender receiver content : Option JsString) :
    (onSendMessage w now newId sender receiver content = w ∧
      (truthy receiver = false ∨ content = none ∨ (∃ c, content = some c ∧ trim c = []) ∨
        ∃ e, save w.store now true (newMessage newId sender receiver content) = .error e)) ∨
    (∃ m, save w.store now true (newMessage newId sender receiver content) =
        .ok (w.store ++ [m], m) ∧
      onSendMessage w now newId sender receiver content =
        ⟨w.store ++ [m], w.emitted ++ [⟨receiver.getD [], "new_message", m⟩,
                                        ⟨sender.getD [], "message_sent", m⟩]⟩) := by
  unfold onSendMessage onSendMessageWith
  cases hr : truthy receiver
  · exact Or.inl ⟨by simp, Or.inl rfl⟩
  · cases content with
    | none => exact Or.inl ⟨by simp, Or.inr (Or.inl rfl)⟩
    | some c =>
      cases hc : truthy (some (trim c))
      · refine Or.inl ⟨by simp [hc], Or.inr (Or.inr (Or.inl ⟨c, rfl, ?_⟩))⟩
        cases htc : trim c with
        | nil => rfl
        | cons x xs => simp [truthy, htc] at hc
      · cases hs : save w.store now true (newMessage newId sender receiver (some c)) with
        | error e =>
          exact Or.inl ⟨by simp [hc, hs], Or.inr (Or.inr (Or.inr ⟨e, rfl⟩))⟩
        | ok p =>
          obtain ⟨store, m⟩ := p
          have hst := save_new_inv hs
          subst hst
          exact Or.inr ⟨m, rfl, by simp [hc, hs]⟩

theorem conversationOf_append_own (store : List Message) (a r : ObjectId) (m : Message)
    (hs : m.sender = some a) (hr : m.receiver = some r) :
    (conversationOf (store ++ [m]) a r).length = (conversationOf store a r).length + 1 ∧
      m ∈ conversationOf (store ++ [m]) a r := by
  have hb : betweenUsers a r m = true := (betweenUsers_iff a r m).2 (Or.inl ⟨hs, hr⟩)
  refine ⟨?_, (mem_conversationOf _ _ _ _).2 ⟨by simp, Or.inl ⟨hs, hr⟩⟩⟩
  unfold conversationOf
  rw [(stableSort_perm createdAtLe _).length_eq, (stableSort_perm createdAtLe _).length_eq,
    List.filter_append]
  simp [List.filter, hb]

theorem conversationKey_length (a r : ObjectId) :
    (conversationKey a r).length = a.length + 1 + r.length := by
  rw [conversationKey_eq]
  cases h : strLt r a <;> simp [underscore] <;> omega

theorem mem_recipients (conns : List Connection) (e : Emit) (c : Connection) :
    c ∈ recipients conns e ↔ c ∈ conns ∧ e.room ∈ c.rooms := by
  simp [recipients]

theorem save_writesDocument : WritesDocument save :=
  fun _ _ _ _ _ h => ⟨save_new_inv h, save_new_fields h⟩

theorem saveHookFirst_writesDocument : WritesDocument saveHookFirst := by
  intro store now doc store' m h
  unfold saveHookFirst at h
  split at h
  · cases h
  · rename_i hooked hhook
    split at h
    · cases h
    · simp only [if_true, Except.ok.injEq, Prod.mk.injEq] at h
      have hk : hooked._id = doc._id ∧ hooked.sender = doc.sender ∧
          hooked.receiver = doc.receiver ∧ hooked.content = doc.content := by
        unfold preSave at hhook
        split at hhook
        · cases hhook
          exact ⟨rfl, rfl, rfl, rfl⟩
        · split at hhook
          · cases hhook
            exact ⟨rfl, rfl, rfl, rfl⟩
          · cases hhook
      refine ⟨?_, ?_⟩
      · rw [← h.1, ← h.2]
      · rw [← h.2]
        exact hk

theorem sendMessageWith_error (saveDoc : SaveFn) (w : World) (now : Nat)
    (newId userId r : ObjectId) (c : JsString) (e : Err) (hr : r ≠ []) (hc : trim c ≠ [])
    (hs : saveDoc w.store now true (newMessage newId (some userId) (some r) (some c)) =
      .error e) :
    sendMessageWith saveDoc w now newId userId (some r) (some c) = (w, .next e) := by
  have hr' : truthy (some r) = true := truthy_some.2 hr
  have hc' : truthy (some (trim c)) = true := truthy_some.2 hc
  simp [sendMessageWith, hr', hc', hs]

theorem sendMessageWith_ok (saveDoc : SaveFn) (w : World) (now : Nat)
    (newId userId r : ObjectId) (c : JsString) (store : List Message) (m : Message)
    (hr : r ≠ []) (hc : trim c ≠ [])
    (hs : saveDoc w.store now true (newMessage newId (some userId) (some r) (some c)) =
      .ok (store, m)) :
    sendMessageWith saveDoc w now newId userId (some r) (some c) =
      (⟨store, w.emitted ++ [⟨r, "new_message", m⟩]⟩,
       .json 201 (.msgData "Message sent successfully" m)) := by
  have hr' : truthy (some r) = true := truthy_some.2 hr
  have hc' : truthy (some (trim c)) = true := truthy_some.2 hc
  simp [sendMessageWith, hr', hc', hs]

theorem onSendMessageWith_error (saveDoc : SaveFn) (w : World) (now : Nat) (newId : ObjectId)
    (sender : Option ObjectId) (r : ObjectId) (c : JsString) (e : Err) (hr : r ≠ [])
    (hc : trim c ≠ [])
    (hs : saveDoc w.store now true (newMessage newId sender (some r) (some c)) = .error e) :
    onSendMessageWith saveDoc w now newId sender (some r) (some c) = w := by
  have hr' : truthy (some r) = true := truthy_some.2 hr
  have hc' : truthy (some (trim c)) = true := truthy_some.2 hc
  simp [onSendMessageWith, hr', hc', hs]

theorem onSendMessageWith_ok (saveDoc : SaveFn) (w : World) (now : Nat) (newId : ObjectId)
    (sender : Option ObjectId) (r : ObjectId) (c : JsString) (store : List Message)
    (m : Message) (hr : r ≠ []) (hc : trim c ≠ [])
    (hs : saveDoc w.store now true (newMessage newId sender (some r) (some c)) =
      .ok (store, m)) :
    onSendMessageWith saveDoc w now newId sender (some r) (some c) =
      ⟨store, w.emitted ++ [⟨r, "new_message", m⟩, ⟨sender.getD [], "message_sent", m⟩]⟩ := by
  have hr' : truthy (some r) = true := truthy_some.2 hr
  have hc' : truthy (some (trim c)) = true := truthy_some.2 hc
  simp [onSendMessageWith, hr', hc', hs]

theorem isConversationResult_append_own {store : List Message} {a r : ObjectId} {m : Message}
    {l l' : List Message} (hs : m.sender = some a) (hr : m.receiver = some r)
    (hl : IsConversationResult store a r l) (hl' : IsConversationResult (store ++ [m]) a r l') :
    l'.length = l.length + 1 ∧ m ∈ l' := by
  have hb : betweenUsers a r m = true := (betweenUsers_iff a r m).2 (Or.inl ⟨hs, hr⟩)
  refine ⟨?_, (mem_of_isConversationResult hl' m).2 ⟨by simp, Or.inl ⟨hs, hr⟩⟩⟩
  rw [hl'.1.length_eq, hl.1.length_eq, List.filter_append]
  simp [List.filter, hb]

/-- C14, as stated, fails: `alice` sends `hello` to `bob` while no live connection is in the
room of `bob`. The handler ends with `next` of the validation error of the save: nothing is
persisted and no outcome is reported. And were the message saved, by a save that derives the
key before it validates, the answer would be 201 `Message sent successfully` with the
message: the same answer as when a connection of `bob` is in the room and receives the event,
with no `Undelivered` status in it. -/
theorem offline_send_reports_no_outcome :
    recipients [] ⟨bobId, "new_message", helloMessage⟩ = [] ∧
    recipients [bobOnline] ⟨bobId, "new_message", helloMessage⟩ = [bobOnline] ∧
    sendMessage exampleWorld 9 (str "65a000000000000000000004") aliceId (some bobId)
      (some (str "hello")) = (exampleWorld, .next (.validation ["conversation"])) ∧
    sendMessageWith saveHookFirst exampleWorld 9 (str "65a000000000000000000004") aliceId
      (some bobId) (some (str "hello")) =
      (⟨exampleStore ++ [helloMessage], [⟨bobId, "new_message", helloMessage⟩]⟩,
       .json 201 (.msgData "Message sent successfully" helloMessage)) := by
  decide

/-- C14, amended: `sendMessage` reports no delivery outcome and never consults the live
connections; its answer is fixed by the outcome of the save alone, for every behaviour of
`save()` that writes the document it is given. When the save fails, the handler ends with
`next` of the error and leaves the state as it was. When the save succeeds, the handler
stores the message, which has the authenticated sender, the receiver and the trimmed
content, emits `new_message` with it to the room named by the receiver id and to no other
room, and answers 201 `Message sent successfully` with the message, an answer that carries no
delivery status; every result of a later `getMessages` between the two users, asked by
either, contains the message. -/
theorem sendMessage_reports_no_delivery_status (saveDoc : SaveFn) (w : World) (now : Nat)
    (newId userId r : ObjectId) (c : JsString) (hw : WritesDocument saveDoc) (hr : r ≠ [])
    (hc : trim c ≠ []) :
    (∀ e, saveDoc w.store now true (newMessage newId (some userId) (some r) (some c)) =
        .error e →
      sendMessageWith saveDoc w now newId userId (some r) (some c) = (w, .next e)) ∧
    (∀ store m, saveDoc w.store now true (newMessage newId (some userId) (some r) (some c)) =
        .ok (store, m) →
      sendMessageWith saveDoc w now newId userId (some r) (some c) =
        (⟨w.store ++ [m], w.emitted ++ [⟨r, "new_message", m⟩]⟩,
         .json 201 (.msgData "Message sent successfully" m)) ∧
      m.sender = some userId ∧ m.receiver = some r ∧ m.content = some (trim c) ∧
      (∀ l, IsConversationResult (w.store ++ [m]) userId r l → m ∈ l) ∧
      (∀ l, IsConversationResult (w.store ++ [m]) r userId l → m ∈ l)) := by
  refine ⟨fun e he => sendMessageWith_error saveDoc w now newId userId r c e hr hc he,
    fun store m hs => ?_⟩
  obtain ⟨hstore, _, hsender, hreceiver, hcontent⟩ := hw _ _ _ _ _ hs
  have hsend := sendMessageWith_ok saveDoc w now newId userId r c store m hr hc hs
  rw [hstore] at hsend
  refine ⟨hsend, hsender, hreceiver, hcontent, fun l hl => ?_, fun l hl => ?_⟩
  · exact (mem_of_isConversationResult hl m).2 ⟨by simp, Or.inl ⟨hsender, hreceiver⟩⟩
  · exact (mem_of_isConversationResult hl m).2 ⟨by simp, Or.inr ⟨hsender, hreceiver⟩⟩

theorem sendMessage_reports_no_delivery_status_witness :
    WritesDocument saveHookFirst ∧ bobId ≠ [] ∧ trim (str " hello ") ≠ [] ∧
    saveHookFirst exampleWorld.store 9 true
      (newMessage (str "65a000000000000000000004") (some aliceId) (some bobId)
        (some (str " hello "))) = .ok (exampleStore ++ [helloMessage], helloMessage) ∧
    (∀ e, saveHookFirst exampleWorld.store 9 true
        (newMessage (str "65a000000000000000000004") (some aliceId) (some bobId)
          (some (str " hello "))) = .error e →
      sendMessageWith saveHookFirst exampleWorld 9 (str "65a000000000000000000004") aliceId
        (some bobId) (some (str " hello ")) = (exampleWorld, .next e)) ∧
    (∀ store m, saveHookFirst exampleWorld.store 9 true
        (newMessage (str "65a000000000000000000004") (some aliceId) (some bobId)
          (some (str " hello "))) = .ok (store, m) →
      sendMessageWith saveHookFirst exampleWorld 9 (str "65a000000000000000000004") aliceId
          (some bobId) (some (str " hello ")) =
        (⟨exampleWorld.store ++ [m], exampleWorld.emitted ++ [⟨bobId, "new_message", m⟩]⟩,
         .json 201 (.msgData "Message sent successfully" m)) ∧
      m.sender = some aliceId ∧ m.receiver = some bobId ∧
      m.content = some (trim (str " hello ")) ∧
      (∀ l, IsConversationResult (exampleWorld.store ++ [m]) aliceId bobId l → m ∈ l) ∧
      (∀ l, IsConversationResult (exampleWorld.store ++ [m]) bobId aliceId l → m ∈ l)) :=
  ⟨saveHookFirst_writesDocument, by decide, by decide, by decide,
   sendMessage_reports_no_delivery_status saveHookFirst exampleWorld 9
     (str "65a000000000000000000004") aliceId bobId (str " hello ")
     saveHookFirst_writesDocument (by decide) (by decide)⟩

/-- C15: for every send that reaches the save and whose save fails with an error, the REST
handler ends with `next` of that error, so not with 201, and leaves the state unchanged, and
the socket handler leaves the state unchanged: nothing is stored and no `new_message` or
`message_sent` event is emitted. Conversely, for every request, each event emitted by either
handler was emitted before the call or carries a message that is in the collection. -/
theorem failed_save_never_reported (w : World) (now : Nat) (newId userId : ObjectId)
    (sender : Option ObjectId) (r c : JsString) (e e' : Err) (hr : r ≠ [])
    (hc : trim c ≠ [])
    (hrest : save w.store now true (newMessage newId (some userId) (some r) (some c)) =
      .error e)
    (hsock : save w.store now true (newMessage newId sender (some r) (some c)) = .error e') :
    sendMessage w now newId userId (some r) (some c) = (w, .next e) ∧
    onSendMessage w now newId sender (some r) (some c) = w ∧
    (∀ receiver content x,
      x ∈ (sendMessage w now newId userId receiver content).1.emitted →
        x ∈ w.emitted ∨ x.payload ∈ (sendMessage w now newId userId receiver content).1.store) ∧
    (∀ receiver content x,
      x ∈ (onSendMessage w now newId sender receiver content).emitted →
        x ∈ w.emitted ∨ x.payload ∈ (onSendMessage w now newId sender receiver content).store) := by
  have hr' : truthy (some r) = true := truthy_some.2 hr
  have hc' : truthy (some (trim c)) = true := truthy_some.2 hc
  refine ⟨by simp [sendMessage, sendMessageWith, hr', hc', hrest],
    by simp [onSendMessage, onSendMessageWith, hr', hc', hsock],
    ?_, ?_⟩
  · intro receiver content x hx
    rcases sendMessage_cases w now newId userId receiver content with
      ⟨h, _⟩ | ⟨e, h⟩ | ⟨r, c, m, _, _, _, h⟩
    · rw [h] at hx
      exact Or.inl hx
    · rw [h] at hx
      exact Or.inl hx
    · rw [h] at hx ⊢
      rcases List.mem_append.1 hx with hx | hx
      · exact Or.inl hx
      · rw [List.mem_singleton.1 hx]
        exact Or.inr (by simp)
  · intro receiver content x hx
    rcases onSendMessage_cases w now newId sender receiver content with ⟨h, _⟩ | ⟨m, _, h⟩
    · rw [h] at hx
      exact Or.inl hx
    · rw [h] at hx ⊢
      rcases List.mem_append.1 hx with hx | hx
      · exact Or.inl hx
      · refine Or.inr ?_
        rcases List.mem_cons.1 hx with hx | hx
        · rw [hx]
          simp
        · rw [List.mem_singleton.1 hx]
          simp

theorem failed_save_never_reported_witness :
    sendMessage exampleWorld 9 (str "65a000000000000000000004") aliceId (some bobId)
      (some (str "hello")) = (exampleWorld, .next (.validation ["conversation"])) ∧
    onSendMessage exampleWorld 9 (str "65a000000000000000000004") none (some bobId)
      (some (str "hello")) = exampleWorld ∧
    (∀ receiver content x,
      x ∈ (sendMessage exampleWorld 9 (str "65a000000000000000000004") aliceId receiver
        content).1.emitted →
        x ∈ exampleWorld.emitted ∨
        x.payload ∈ (sendMessage exampleWorld 9 (str "65a000000000000000000004") aliceId
          receiver content).1.store) ∧
    (∀ receiver content x,
      x ∈ (onSendMessage exampleWorld 9 (str "65a000000000000000000004") none receiver
        content).emitted →
        x ∈ exampleWorld.emitted ∨
        x.payload ∈ (onSendMessage exampleWorld 9 (str "65a000000000000000000004") none
          receiver content).store) :=
  failed_save_never_reported exampleWorld 9 (str "65a000000000000000000004") aliceId none
    bobId (str "hello") (.validation ["conversation"])
    (.validation ["sender", "conversation"]) (by decide) (by decide) (by decide) (by decide)

/-- C16, as stated, fails: on a `send_message` event from `alice` to `bob` with content
`hello` the save is rejected, and on one with blank content the handler returns early; in
both cases the handler ends having emitted nothing, so the sender gets neither
`message_sent` nor any failure signal. -/
theorem send_message_failure_not_signalled :
    save exampleWorld.store 9 true
      (newMessage (str "65a000000000000000000004") (some aliceId) (some bobId)
        (some (str "hello"))) = .error (.validation ["conversation"]) ∧
    onSendMessage exampleWorld 9 (str "65a000000000000000000004") (some aliceId) (some bobId)
      (some (str "hello")) = exampleWorld ∧
    onSendMessage exampleWorld 9 (str "65a000000000000000000004") (some aliceId) (some bobId)
      (some (str "  ")) = exampleWorld ∧
    exampleWorld.emitted = [] := by
  decide

/-- C16, amended: for every `send_message` event the handler either emits nothing and leaves
the state as it was, which is the case when the receiver is missing, the content is missing
or blank, or the save fails (the error is only logged), or the save has succeeded and it
emits `new_message` to the room of the receiver id and then `message_sent` to the room of
the sender id, both carrying the saved message. -/
theorem onSendMessage_notifies_only_after_save (w : World) (now : Nat) (newId : ObjectId)
    (sender receiver content : Option JsString) :
    (onSendMessage w now newId sender receiver content = w ∧
      (onSendMessage w now newId sender receiver content).emitted = w.emitted ∧
      (truthy receiver = false ∨ content = none ∨ (∃ c, content = some c ∧ trim c = []) ∨
        ∃ e, save w.store now true (newMessage newId sender receiver content) = .error e)) ∨
    (∃ m, save w.store now true (newMessage newId sender receiver content) =
        .ok (w.store ++ [m], m) ∧
      (onSendMessage w now newId sender receiver content).store = w.store ++ [m] ∧
      (onSendMessage w now newId sender receiver content).emitted =
        w.emitted ++ [⟨receiver.getD [], "new_message", m⟩,
                      ⟨sender.getD [], "message_sent", m⟩]) := by
  rcases onSendMessage_cases w now newId sender receiver content with ⟨h, hwhy⟩ | ⟨m, hs, h⟩
  · exact Or.inl ⟨h, by rw [h], hwhy⟩
  · exact Or.inr ⟨m, hs, by rw [h], by rw [h]⟩

/-- C17, as stated, fails: `bob` has one live connection, which has joined the room named by
the conversation key of `alice` and `bob`, and `alice` sends `hello` to `bob`, over REST or
over the socket. Both handlers end having stored and emitted nothing, so the connection
receives no event. And were the message saved, by a save that derives the key before it
validates, the handlers would store it and emit `new_message` to the room named by the id of
`bob`, of which that connection is not a member: it would still receive nothing. -/
theorem conversation_room_gets_no_push :
    bobInConversationRoom.rooms = [str "sock-bob-1", conversationKey aliceId bobId] ∧
    sendMessage exampleWorld 9 (str "65a000000000000000000004") aliceId (some bobId)
      (some (str "hello")) = (exampleWorld, .next (.validation ["conversation"])) ∧
    onSendMessage exampleWorld 9 (str "65a000000000000000000004") (some aliceId) (some bobId)
      (some (str "hello")) = exampleWorld ∧
    exampleWorld.emitted = [] ∧
    (sendMessageWith saveHookFirst exampleWorld 9 (str "65a000000000000000000004") aliceId
      (some bobId) (some (str "hello"))).1 =
      ⟨exampleStore ++ [helloMessage], [⟨bobId, "new_message", helloMessage⟩]⟩ ∧
    onSendMessageWith saveHookFirst exampleWorld 9 (str "65a000000000000000000004")
      (some aliceId) (some bobId) (some (str "hello")) =
      ⟨exampleStore ++ [helloMessage],
       [⟨bobId, "new_message", helloMessage⟩, ⟨aliceId, "message_sent", helloMessage⟩]⟩ ∧
    recipients [bobInConversationRoom] ⟨bobId, "new_message", helloMessage⟩ = [] ∧
    recipients [bobInConversationRoom] ⟨aliceId, "message_sent", helloMessage⟩ = [] := by
  decide

/-- C17, amended: for every send from `a` to `r`, over REST or over the socket, and every
behaviour of `save()` that writes the document it is given: when the save fails, nothing is
stored and nothing is emitted; when it succeeds, one message is stored, with the trimmed
content, and `new_message` is emitted with it to the room named by the receiver id `r` and
to no other room (the socket handler also emits `message_sent` to the room named by the
sender id). The room `r` is never the one named by the conversation key of `a` and `r`, so
the event reaches only connections that are in the room `r`, and a connection that has
joined only the conversation-key room by `join_chat` does not receive it. Every result of
`getMessages` between `a` and `r` then holds exactly one more message than every result
before, among them that message. -/
theorem push_goes_to_receiver_room (saveDoc : SaveFn) (w : World) (now : Nat)
    (newId a r : ObjectId) (content : JsString) (hw : WritesDocument saveDoc) (hr : r ≠ [])
    (hc : trim content ≠ []) :
    conversationKey a r ≠ r ∧
    (∀ e, saveDoc w.store now true (newMessage newId (some a) (some r) (some content)) =
        .error e →
      (sendMessageWith saveDoc w now newId a (some r) (some content)).1 = w ∧
      onSendMessageWith saveDoc w now newId (some a) (some r) (some content) = w) ∧
    (∀ store m, saveDoc w.store now true (newMessage newId (some a) (some r) (some content)) =
        .ok (store, m) →
      (sendMessageWith saveDoc w now newId a (some r) (some content)).1 =
        ⟨w.store ++ [m], w.emitted ++ [⟨r, "new_message", m⟩]⟩ ∧
      onSendMessageWith saveDoc w now newId (some a) (some r) (some content) =
        ⟨w.store ++ [m], w.emitted ++ [⟨r, "new_message", m⟩, ⟨a, "message_sent", m⟩]⟩ ∧
      m.content = some (trim content) ∧
      (∀ (conns : List Connection) (conn : Connection),
        conn ∈ recipients conns ⟨r, "new_message", m⟩ → r ∈ conn.rooms) ∧
      (∀ (conns : List Connection) (socketId : JsString), socketId ≠ r →
        onJoinChat (connect socketId) (conversationKey a r) ∉
          recipients conns ⟨r, "new_message", m⟩) ∧
      (∀ l l', IsConversationResult w.store a r l →
        IsConversationResult (w.store ++ [m]) a r l' → l'.length = l.length + 1 ∧ m ∈ l')) := by
  have hkey : conversationKey a r ≠ r := fun h => by
    have hl := conversationKey_length a r
    rw [h] at hl
    omega
  refine ⟨hkey, fun e he => ?_, fun store m hs => ?_⟩
  · exact ⟨by rw [sendMessageWith_error saveDoc w now newId a r content e hr hc he],
      onSendMessageWith_error saveDoc w now newId (some a) r content e hr hc he⟩
  · obtain ⟨hstore, _, hsender, hreceiver, hcontent⟩ := hw _ _ _ _ _ hs
    have hsend := sendMessageWith_ok saveDoc w now newId a r content store m hr hc hs
    have hsock := onSendMessageWith_ok saveDoc w now newId (some a) r content store m hr hc hs
    rw [hstore] at hsend hsock
    refine ⟨by rw [hsend], hsock, hcontent, ?_, ?_, ?_⟩
    · exact fun conns conn hconn => ((mem_recipients conns _ conn).1 hconn).2
    · intro conns socketId hne hmem
      have hroom : r ∈ (onJoinChat (connect socketId) (conversationKey a r)).rooms :=
        ((mem_recipients conns _ _).1 hmem).2
      have hrooms : ∀ x ∈ (onJoinChat (connect socketId) (conversationKey a r)).rooms,
          x = socketId ∨ x = conversationKey a r := by
        intro x hx
        unfold onJoinChat connect at hx
        split at hx
        · simp only [List.mem_singleton] at hx
          exact Or.inl hx
        · simpa using hx
      rcases hrooms r hroom with h | h
      · exact hne h.symm
      · exact hkey h.symm
    · exact fun l l' hl hl' => isConversationResult_append_own hsender hreceiver hl hl'

theorem push_goes_to_receiver_room_witness :
    WritesDocument saveHookFirst ∧ bobId ≠ [] ∧ trim (str "hello") ≠ [] ∧
    saveHookFirst exampleWorld.store 9 true
      (newMessage (str "65a000000000000000000004") (some aliceId) (some bobId)
        (some (str "hello"))) = .ok (exampleStore ++ [helloMessage], helloMessage) ∧
    conversationKey aliceId bobId ≠ bobId ∧
    (∀ e, saveHookFirst exampleWorld.store 9 true
        (newMessage (str "65a000000000000000000004") (some aliceId) (some bobId)
          (some (str "hello"))) = .error e →
      (sendMessageWith saveHookFirst exampleWorld 9 (str "65a000000000000000000004") aliceId
        (some bobId) (some (str "hello"))).1 = exampleWorld ∧
      onSendMessageWith saveHookFirst exampleWorld 9 (str "65a000000000000000000004")
        (some aliceId) (some bobId) (some (str "hello")) = exampleWorld) ∧
    (∀ store m, saveHookFirst exampleWorld.store 9 true
        (newMessage (str "65a000000000000000000004") (some aliceId) (some bobId)
          (some (str "hello"))) = .ok (store, m) →
      (sendMessageWith saveHookFirst exampleWorld 9 (str "65a000000000000000000004") aliceId
        (some bobId) (some (str "hello"))).1 =
        ⟨exampleWorld.store ++ [m], exampleWorld.emitted ++ [⟨bobId, "new_message", m⟩]⟩ ∧
      onSendMessageWith saveHookFirst exampleWorld 9 (str "65a000000000000000000004")
        (some aliceId) (some bobId) (some (str "hello")) =
        ⟨exampleWorld.store ++ [m],
         exampleWorld.emitted ++ [⟨bobId, "new_message", m⟩, ⟨aliceId, "message_sent", m⟩]⟩ ∧
      m.content = some (trim (str "hello")) ∧
      (∀ (conns : List Connection) (conn : Connection),
        conn ∈ recipients conns ⟨bobId, "new_message", m⟩ → bobId ∈ conn.rooms) ∧
      (∀ (conns : List Connection) (socketId : JsString), socketId ≠ bobId →
        onJoinChat (connect socketId) (conversationKey aliceId bobId) ∉
          recipients conns ⟨bobId, "new_message", m⟩) ∧
      (∀ l l', IsConversationResult exampleWorld.store aliceId bobId l →
        IsConversationResult (exampleWorld.store ++ [m]) aliceId bobId l' →
        l'.length = l.length + 1 ∧ m ∈ l')) :=
  ⟨saveHookFirst_writesDocument, by decide, by decide, by decide,
   push_goes_to_receiver_room saveHookFirst exampleWorld 9 (str "65a000000000000000000004")
     aliceId bobId (str "hello") saveHookFirst_writesDocument (by decide) (by decide)⟩

/-! ## Authentication -/

theorem startsWith_bearer_nonempty {h : JsString}
    (hs : startsWith h (str "Bearer ") = true) : h.isEmpty = false := by
  cases h with
  | nil => revert hs; decide
  | cons c cs => rfl

/-- C18: `authenticate` calls `next()`, with the decoded payload as `req.user`, if and only
if the Authorization header starts with `Bearer `, its token verifies, the decoded user
exists and is not banned; it answers 403 if and only if the header starts with `Bearer `,
the token verifies and the user exists but is banned; every other answer has status 401. -/
theorem authenticate_outcomes (verify : JsString → Option Decoded) (users : List User)
    (authHeader : Option JsString) :
    (∀ d, authenticate verify users authHeader = .next d ↔
      ∃ h t u, authHeader = some h ∧ startsWith h (str "Bearer ") = true ∧
        bearerToken h = some t ∧ verify t = some d ∧ findUser users d.userId = some u ∧
        u.isBanned = false) ∧
    ((∃ msg, authenticate verify users authHeader = .json 403 msg) ↔
      ∃ h t d u, authHeader = some h ∧ startsWith h (str "Bearer ") = true ∧
        bearerToken h = some t ∧ verify t = some d ∧ findUser users d.userId = some u ∧
        u.isBanned = true) ∧
    (∀ status msg, authenticate verify users authHeader = .json status msg →
      status = 401 ∨ status = 403) := by
  cases authHeader with
  | none => simp [authenticate]
  | some h =>
    cases hs : startsWith h (str "Bearer ")
    · simp [authenticate, hs]
    · have hne := startsWith_bearer_nonempty hs
      cases ht : bearerToken h with
      | none => simp [authenticate, hs, hne, ht]
      | some t =>
        cases hv : verify t with
        | none => simp [authenticate, hs, hne, ht, hv]
        | some d =>
          cases hu : findUser users d.userId with
          | none =>
            have hval : authenticate verify users (some h) =
                .json 401 "User no longer exists" := by
              simp [authenticate, hs, hne, ht, hv, hu]
            rw [hval]
            refine ⟨fun d' => ⟨fun hd => (by cases hd), ?_⟩, ⟨?_, ?_⟩, ?_⟩
            · rintro ⟨h', t', u', e1, _, e3, e4, e5, _⟩
              cases e1
              rw [ht] at e3
              cases e3
              rw [hv] at e4
              cases e4
              rw [hu] at e5
              cases e5
            · rintro ⟨msg, hm⟩
              cases hm
            · rintro ⟨h', t', d', u', e1, _, e3, e4, e5, _⟩
              cases e1
              rw [ht] at e3
              cases e3
              rw [hv] at e4
              cases e4
              rw [hu] at e5
              cases e5
            · intro status msg hsm
              cases hsm
              exact Or.inl rfl
          | some u =>
            cases hb : u.isBanned
            · have hval : authenticate verify users (some h) = .next d := by
                simp [authenticate, hs, hne, ht, hv, hu, hb]
              rw [hval]
              refine ⟨fun d' => ⟨fun hd => ?_, ?_⟩, ⟨?_, ?_⟩, ?_⟩
              · cases hd
                exact ⟨h, t, u, rfl, hs, ht, hv, hu, hb⟩
              · rintro ⟨h', t', u', e1, _, e3, e4, _, _⟩
                cases e1
                rw [ht] at e3
                cases e3
                rw [hv] at e4
                cases e4
                rfl
              · rintro ⟨msg, hm⟩
                cases hm
              · rintro ⟨h', t', d', u', e1, _, e3, e4, e5, e6⟩
                cases e1
                rw [ht] at e3
                cases e3
                rw [hv] at e4
                cases e4
                rw [hu] at e5
                cases e5
                rw [hb] at e6
                cases e6
              · intro status msg hsm
                cases hsm
            · have hval : authenticate verify users (some h) =
                  .json 403 "Your account has been suspended" := by
                simp [authenticate, hs, hne, ht, hv, hu, hb]
              rw [hval]
              refine ⟨fun d' => ⟨fun hd => (by cases hd), ?_⟩, ⟨?_, ?_⟩, ?_⟩
              · rintro ⟨h', t', u', e1, _, e3, e4, e5, e6⟩
                cases e1
                rw [ht] at e3
                cases e3
                rw [hv] at e4
                cases e4
                rw [hu] at e5
                cases e5
                rw [hb] at e6
                cases e6
              · exact fun _ => ⟨h, t, d, u, rfl, hs, ht, hv, hu, hb⟩
              · exact fun _ => ⟨_, rfl⟩
              · intro status msg hsm
                cases hsm
                exact Or.inr rfl

theorem authenticate_outcomes_witness :
    (∀ d, authenticate exampleVerify [bobUser, carolUser] (some (str "Bearer tok-bob")) =
        .next d ↔
      ∃ h t u, some (str "Bearer tok-bob") = some h ∧ startsWith h (str "Bearer ") = true ∧
        bearerToken h = some t ∧ exampleVerify t = some d ∧
        findUser [bobUser, carolUser] d.userId = some u ∧ u.isBanned = false) ∧
    ((∃ msg, authenticate exampleVerify [bobUser, carolUser] (some (str "Bearer tok-bob")) =
        .json 403 msg) ↔
      ∃ h t d u, some (str "Bearer tok-bob") = some h ∧ startsWith h (str "Bearer ") = true ∧
        bearerToken h = some t ∧ exampleVerify t = some d ∧
        findUser [bobUser, carolUser] d.userId = some u ∧ u.isBanned = true) ∧
    (∀ status msg,
      authenticate exampleVerify [bobUser, carolUser] (some (str "Bearer tok-bob")) =
        .json status msg → status = 401 ∨ status = 403) :=
  authenticate_outcomes exampleVerify [bobUser, carolUser] (some (str "Bearer tok-bob"))

/-- C19, evaluated at handshakes the claim wants rejected: a token that does not verify and
the token of the banned user `carol`. The REST middleware `authenticate` answers 401 and 403
for them, the Socket.IO middleware admits both, since it only tests that a token is present;
only a missing token is rejected. -/
theorem socketAuth_admits_unverified_token :
    exampleVerify (str "not-a-token") = none ∧
    authenticate exampleVerify [bobUser, carolUser] (some (str "Bearer not-a-token")) =
      .json 401 "Invalid or expired token" ∧
    socketAuth (some (str "not-a-token")) = .admitted ∧
    authenticate exampleVerify [bobUser, carolUser] (some (str "Bearer tok-carol")) =
      .json 403 "Your account has been suspended" ∧
    socketAuth (some (str "tok-carol")) = .admitted ∧
    socketAuth none = .rejected "Authentication error" ∧
    socketAuth (some []) = .rejected "Authentication error" := by
  decide

/-! ## Creating a question -/

/-- The save of the program rejects every question `createQuestion` builds: the document
has the default `closedReason`, `null`, which fails the `enum` validator of the path. When
the uploads succeed the handler ends with `next` of a validation error that names
`closedReason`, and nothing is stored. -/
theorem createQuestion_rejected (svc : Services) (s : QaState) (now : Nat)
    (newId userId : ObjectId) (body : QuestionBody) (files : Option (List File))
    (attachments : List QuestionAttachment)
    (hup : uploadAll svc.uploadToS3 now (files.getD []) = .ok attachments) :
    ∃ paths, "closedReason" ∈ paths ∧
      createQuestion svc s now newId userId body files = (s, .next (.validation paths)) := by
  have hclosed : (attachTo files attachments (newQuestion newId userId body)).closedReason =
      none := by
    unfold attachTo
    split <;> rfl
  have hmem : "closedReason" ∈
      questionInvalidPaths (attachTo files attachments (newQuestion newId userId body)) := by
    simp [questionInvalidPaths, hclosed, enumValid]
  have hne :
      questionInvalidPaths (attachTo files attachments (newQuestion newId userId body)) ≠ [] :=
    fun h => by rw [h] at hmem; cases hmem
  exact ⟨_, hmem, by simp [createQuestion, createQuestionWith, hup, saveQuestion, hne]⟩

/-- C20: for every `createQuestion` request whose uploads succeed and in which the question
is persisted, whatever the behaviour of `save()` that persists it, the handler answers 201
`Question created successfully` with the saved question, and leaves the saved collection and
the incremented question counter in place, whether the notification is delivered or not: the
answer is the same for every notification service, in particular for one that reports
`Undelivered`. -/
theorem createQuestion_after_persist (saveDoc : QuestionSaveFn) (svc : Services) (s : QaState)
    (now : Nat) (newId userId : ObjectId) (body : QuestionBody) (files : Option (List File))
    (attachments : List QuestionAttachment) (questions : List Question) (saved : Question)
    (hup : uploadAll svc.uploadToS3 now (files.getD []) = .ok attachments)
    (hsave : saveDoc s.questions now (attachTo files attachments (newQuestion newId userId body))
      = .ok (questions, saved)) :
    createQuestionWith saveDoc svc s now newId userId body files =
      ({ questions := questions, users := incQuestionsCount now userId s.users },
       .json 201 "Question created successfully" saved) ∧
    ∀ notify : SendNotification,
      createQuestionWith saveDoc { svc with sendNotification := notify } s now newId userId
          body files =
        ({ questions := questions, users := incQuestionsCount now userId s.users },
         .json 201 "Question created successfully" saved) := by
  constructor
  · unfold createQuestionWith
    simp only [hup, hsave]
    cases svc.sendNotification "new_question" (newQuestionPayload saved userId) <;> rfl
  · intro notify
    unfold createQuestionWith
    simp only [hup, hsave]
    cases notify "new_question" (newQuestionPayload saved userId) <;> rfl

theorem createQuestion_after_persist_witness :
    notifierDown.sendNotification "new_question"
      (newQuestionPayload (newQuestion (str "65b000000000000000000001") bobId exampleBody)
        bobId) = .undelivered ∧
    uploadAll notifierDown.uploadToS3 7 [] = .ok [] ∧
    (createQuestionWith saveQuestionNullReason notifierDown exampleQa 7
        (str "65b000000000000000000001") bobId exampleBody none =
      ({ questions :=
           [{ newQuestion (str "65b000000000000000000001") bobId exampleBody with
              createdAt := some 7, updatedAt := some 7 }],
         users := incQuestionsCount 7 bobId exampleQa.users },
       .json 201 "Question created successfully"
         { newQuestion (str "65b000000000000000000001") bobId exampleBody with
           createdAt := some 7, updatedAt := some 7 }) ∧
    ∀ notify : SendNotification,
      createQuestionWith saveQuestionNullReason { notifierDown with sendNotification := notify }
          exampleQa 7 (str "65b000000000000000000001") bobId exampleBody none =
        ({ questions :=
             [{ newQuestion (str "65b000000000000000000001") bobId exampleBody with
                createdAt := some 7, updatedAt := some 7 }],
           users := incQuestionsCount 7 bobId exampleQa.users },
         .json 201 "Question created successfully"
           { newQuestion (str "65b000000000000000000001") bobId exampleBody with
             createdAt := some 7, updatedAt := some 7 })) :=
  ⟨by decide, by decide,
   createQuestion_after_persist saveQuestionNullReason notifierDown exampleQa 7
     (str "65b000000000000000000001") bobId exampleBody none []
     [{ newQuestion (str "65b000000000000000000001") bobId exampleBody with
        createdAt := some 7, updatedAt := some 7 }]
     { newQuestion (str "65b000000000000000000001") bobId exampleBody with
       createdAt := some 7, updatedAt := some 7 }
     (by decide) (by decide)⟩

/-! ## Missing fields and the sender of a message -/

/-- C22, evaluated at a body with a receiver and no `content` field: `content.trim()` throws
a `TypeError`, which the handler forwards with `next(error)`; it does not answer 400. Nothing
is persisted. A body without receiver does get the 400 answer. -/
theorem sendMessage_absent_content_throws :
    sendMessage exampleWorld 9 (str "65a000000000000000000004") aliceId (some bobId) none =
      (exampleWorld, .next .typeError) ∧
    sendMessage exampleWorld 9 (str "65a000000000000000000004") aliceId none none =
      (exampleWorld, .json 400 (.msg "Receiver and content are required")) ∧
    sendMessage exampleWorld 9 (str "65a000000000000000000004") aliceId none
        (some (str "hello")) =
      (exampleWorld, .json 400 (.msg "Receiver and content are required")) := by
  decide

/-- C29: for every `sendMessage` request and every behaviour of `save()` that writes the
document it is given, two bodies that agree on `receiver` and `content`, whatever their
`sender` fields, lead to the same state and the same response for the same authenticated
user. The document handed to `save()` is the one built from the authenticated user id, the
receiver and the content of the body: when its save succeeds the handler appends the saved
message, whose sender is the authenticated user id, and answers 201 with it; and in every
case the request either leaves the collection as it was or appends one message whose sender
is the authenticated user id. -/
theorem sender_is_authenticated_user (saveDoc : SaveFn) (w : World) (now : Nat)
    (newId userId : ObjectId) (body body' : SendBody) (hw : WritesDocument saveDoc)
    (hr : body.receiver = body'.receiver) (hc : body.content = body'.content) :
    sendMessageRequestWith saveDoc w now newId userId body =
      sendMessageRequestWith saveDoc w now newId userId body' ∧
    (∀ r c store m, body.receiver = some r → r ≠ [] → body.content = some c → trim c ≠ [] →
      saveDoc w.store now true (newMessage newId (some userId) (some r) (some c)) =
        .ok (store, m) →
      sendMessageRequestWith saveDoc w now newId userId body =
        (⟨w.store ++ [m], w.emitted ++ [⟨r, "new_message", m⟩]⟩,
         .json 201 (.msgData "Message sent successfully" m)) ∧
      m.sender = some userId) ∧
    ((sendMessageRequestWith saveDoc w now newId userId body).1.store = w.store ∨
      ∃ m, (sendMessageRequestWith saveDoc w now newId userId body).1.store = w.store ++ [m] ∧
        m.sender = some userId) := by
  refine ⟨by simp [sendMessageRequestWith, hr, hc], ?_, ?_⟩
  · intro r c store m hbr hrne hbc hcne hs
    obtain ⟨hstore, _, hsender, _, _⟩ := hw _ _ _ _ _ hs
    have hsend := sendMessageWith_ok saveDoc w now newId userId r c store m hrne hcne hs
    rw [hstore] at hsend
    exact ⟨by rw [sendMessageRequestWith, hbr, hbc, hsend], hsender⟩
  · unfold sendMessageRequestWith sendMessageWith
    cases hr' : truthy body.receiver
    · exact Or.inl (by simp)
    · cases hbc : body.content with
      | none => exact Or.inl (by simp)
      | some c =>
        cases hc' : truthy (some (trim c))
        · exact Or.inl (by simp [hc'])
        · cases hs : saveDoc w.store now true
              (newMessage newId (some userId) body.receiver (some c)) with
          | error e => exact Or.inl (by simp [hc', hs])
          | ok p =>
            obtain ⟨store, m⟩ := p
            obtain ⟨hstore, _, hsender, _, _⟩ := hw _ _ _ _ _ hs
            exact Or.inr ⟨m, by simp [hc', hs, hstore], hsender⟩

theorem sender_is_authenticated_user_witness :
    WritesDocument saveHookFirst ∧
    saveHookFirst exampleWorld.store 9 true
      (newMessage (str "65a000000000000000000004") (some aliceId) (some bobId)
        (some (str "hello"))) = .ok (exampleStore ++ [helloMessage], helloMessage) ∧
    helloMessage.sender = some aliceId ∧
    (sendMessageRequestWith saveHookFirst exampleWorld 9 (str "65a000000000000000000004")
        aliceId { sender := some carolId, receiver := some bobId,
                  content := some (str "hello") } =
      sendMessageRequestWith saveHookFirst exampleWorld 9 (str "65a000000000000000000004")
        aliceId { sender := none, receiver := some bobId, content := some (str "hello") } ∧
    (∀ r c store m,
      (⟨some carolId, some bobId, some (str "hello")⟩ : SendBody).receiver = some r → r ≠ [] →
      (⟨some carolId, some bobId, some (str "hello")⟩ : SendBody).content = some c →
      trim c ≠ [] →
      saveHookFirst exampleWorld.store 9 true
        (newMessage (str "65a000000000000000000004") (some aliceId) (some r) (some c)) =
        .ok (store, m) →
      sendMessageRequestWith saveHookFirst exampleWorld 9 (str "65a000000000000000000004")
          aliceId { sender := some carolId, receiver := some bobId,
                    content := some (str "hello") } =
        (⟨exampleWorld.store ++ [m], exampleWorld.emitted ++ [⟨r, "new_message", m⟩]⟩,
         .json 201 (.msgData "Message sent successfully" m)) ∧
      m.sender = some aliceId) ∧
    ((sendMessageRequestWith saveHookFirst exampleWorld 9 (str "65a000000000000000000004")
        aliceId { sender := some carolId, receiver := some bobId,
                  content := some (str "hello") }).1.store = exampleWorld.store ∨
      ∃ m, (sendMessageRequestWith saveHookFirst exampleWorld 9
          (str "65a000000000000000000004") aliceId
          { sender := some carolId, receiver := some bobId,
            content := some (str "hello") }).1.store = exampleWorld.store ++ [m] ∧
        m.sender = some aliceId)) :=
  ⟨saveHookFirst_writesDocument, by decide, by decide,
   sender_is_authenticated_user saveHookFirst exampleWorld 9 (str "65a000000000000000000004")
     aliceId { sender := some carolId, receiver := some bobId, content := some (str "hello") }
     { sender := none, receiver := some bobId, content := some (str "hello") }
     saveHookFirst_writesDocument rfl rfl⟩

/-! ## What a read and a delete leave alone -/

theorem forall₂_updateById {R : Message → Message → Prop} (id : ObjectId)
    (f : Message → Message) (hrefl : ∀ m, R m m) (hf : ∀ m, m._id = id → R m (f m))
    (store : List Message) : List.Forall₂ R store (updateById id f store) := by
  induction store with
  | nil => exact List.Forall₂.nil
  | cons m ms ih =>
    by_cases h : m._id = id
    · simp only [updateById, h, beq_self_eq_true, if_true]
      exact List.Forall₂.cons (hf m h) (List.forall₂_same.2 fun x _ => hrefl x)
    · have hb : (m._id == id) = false := by simpa using h
      simp only [updateById, hb, Bool.false_eq_true, if_false]
      exact List.Forall₂.cons (hrefl m) ih

theorem updateById_found (id : ObjectId) (g : Message → Message) :
    ∀ (store : List Message) (m₀ : Message), findById store id = some m₀ →
      updateById id (fun _ => g m₀) store = updateById id g store := by
  intro store
  induction store with
  | nil => intro m₀ h; simp [findById] at h
  | cons m ms ih =>
    intro m₀ h
    by_cases hm : m._id = id
    · have hb : (m._id == id) = true := by simpa using hm
      simp only [findById, List.find?_cons, hb] at h
      simp only [updateById, hb, if_true]
      rw [Option.some.inj h]
    · have hb : (m._id == id) = false := by simpa using hm
      simp only [findById, List.find?_cons, hb] at h
      simp only [updateById, hb, Bool.false_eq_true, if_false]
      rw [ih m₀ h]

/-- C30, as stated, fails: a `markAsRead` call and a `deleteMessage` call on the first
message of the example, stored with `updatedAt = 3`, at time 4 both leave it with
`updatedAt = 4`, a field outside the ones the claim names; `timestamps: true` refreshes it on
every update and save. -/
theorem read_and_delete_touch_updatedAt :
    (findById exampleWorld.store (str "65a000000000000000000001")).map (fun m => m.updatedAt) =
      some (some 3) ∧
    (findById (markAsRead exampleWorld 4 (str "65a000000000000000000001")).1.store
      (str "65a000000000000000000001")).map (fun m => m.updatedAt) = some (some 4) ∧
    (findById (deleteMessage exampleWorld 4 (str "65a000000000000000000001") bobId).1.store
      (str "65a000000000000000000001")).map (fun m => m.updatedAt) = some (some 4) := by
  decide

/-- C30, amended: for every `markAsRead` call and every `deleteMessage` call, whatever its
outcome, the collection afterwards holds the same messages in the same places; a message with
another id than the addressed one is identical before and after, and every message keeps its
id, sender, receiver, conversation, content, attachments and `createdAt`. A read moreover
keeps the three delete fields and a delete keeps `isRead` and `readAt`, so that a read
changes at most `isRead`, `readAt` and the `updatedAt` timestamp, and a delete at most
`isDeleted`, `deletedAt`, `deletedBy` and the `updatedAt` timestamp. -/
theorem read_and_delete_frame (w : World) (now : Nat) (id u : ObjectId) :
    List.Forall₂ (fun m m' => KeptByRead m m' ∧ (m._id ≠ id → m' = m))
      w.store (markAsRead w now id).1.store ∧
    List.Forall₂ (fun m m' => KeptByDelete m m' ∧ (m._id ≠ id → m' = m))
      w.store (deleteMessage w now id u).1.store ∧
    (markAsRead w now id).1.emitted = w.emitted ∧
    (deleteMessage w now id u).1.emitted = w.emitted := by
  have hreadRefl : ∀ m : Message, KeptByRead m m ∧ (m._id ≠ id → m = m) :=
    fun m => ⟨⟨rfl, rfl, rfl, rfl, rfl, rfl, rfl, rfl, rfl, rfl⟩, fun _ => rfl⟩
  have hdelRefl : ∀ m : Message, KeptByDelete m m ∧ (m._id ≠ id → m = m) :=
    fun m => ⟨⟨rfl, rfl, rfl, rfl, rfl, rfl, rfl, rfl, rfl⟩, fun _ => rfl⟩
  refine ⟨?_, ?_, ?_, ?_⟩
  · rcases markAsRead_store w now id with h | h
    · rw [h]
      exact List.forall₂_same.2 fun m _ => hreadRefl m
    · rw [h]
      exact forall₂_updateById id (setRead now) hreadRefl
        (fun m hm => ⟨⟨rfl, rfl, rfl, rfl, rfl, rfl, rfl, rfl, rfl, rfl⟩,
          fun hne => absurd hm hne⟩) w.store
  · rcases deleteMessage_store w now id u with h | ⟨m₀, hfind, _, h⟩
    · rw [h]
      exact List.forall₂_same.2 fun m _ => hdelRefl m
    · rw [h, updateById_found id (fun m => stamp now false (setDeleted now u m)) w.store m₀
        hfind]
      exact forall₂_updateById id _ hdelRefl
        (fun m hm => ⟨⟨rfl, rfl, rfl, rfl, rfl, rfl, rfl, rfl, rfl⟩,
          fun hne => absurd hm hne⟩) w.store
  · unfold markAsRead
    split <;> rfl
  · unfold deleteMessage
    split
    · rfl
    · split
      · rfl
      · rfl
      · split <;> rfl

theorem read_and_delete_frame_witness :
    List.Forall₂ (fun m m' => KeptByRead m m' ∧ (m._id ≠ str "65a000000000000000000001" →
        m' = m))
      exampleWorld.store (markAsRead exampleWorld 4 (str "65a000000000000000000001")).1.store ∧
    List.Forall₂ (fun m m' => KeptByDelete m m' ∧ (m._id ≠ str "65a000000000000000000001" →
        m' = m))
      exampleWorld.store
      (deleteMessage exampleWorld 4 (str "65a000000000000000000001") bobId).1.store ∧
    (markAsRead exampleWorld 4 (str "65a000000000000000000001")).1.emitted =
      exampleWorld.emitted ∧
    (deleteMessage exampleWorld 4 (str "65a000000000000000000001") bobId).1.emitted =
      exampleWorld.emitted :=
  read_and_delete_frame exampleWorld 4 (str "65a000000000000000000001") bobId

/-! ## Private questions in listings -/

theorem questionFilter_own {user : Option Decoded} (freshId : ObjectId) {query : QuestionQuery}
    (h : isOwnListing user query.author = true) :
    (questionFilter user freshId query).author = some (toObjectId freshId query.author) ∧
      (questionFilter user freshId query).isPrivate = none := by
  simp [questionFilter, h]

theorem questionFilter_public {user : Option Decoded} (freshId : ObjectId)
    {query : QuestionQuery} (h : isOwnListing user query.author = false) :
    (questionFilter user freshId query).isPrivate = some false := by
  unfold questionFilter
  simp only [h]
  cases truthy query.author <;> rfl

/-- C24: for every `getQuestions` request, of an unauthenticated requester or of one whose
decoded token carries a user id, the filter either has `isPrivate = false`, or the requester
is authenticated with a `userId` equal to the `author` query parameter and the filter
restricts `author` to that id; so every private question matching the filter has the
requester as its author. -/
theorem private_listed_for_author_only (textMatch : JsString → Question → Bool)
    (user : Option Decoded) (freshId : ObjectId) (query : QuestionQuery)
    (hid : ∀ d, user = some d → d.userId ≠ none) :
    ((questionFilter user freshId query).isPrivate = some false ∨
      ∃ d a, user = some d ∧ d.userId = some a ∧ query.author = some a ∧
        (questionFilter user freshId query).author = some a) ∧
    (∀ q, matchesFilter textMatch (questionFilter user freshId query) q = true →
      q.isPrivate = true → ∃ d a, user = some d ∧ d.userId = some a ∧ q.author = some a) := by
  cases hown : isOwnListing user query.author
  · have hpub := questionFilter_public freshId hown
    refine ⟨Or.inl hpub, fun q hq hpriv => ?_⟩
    simp [matchesFilter, hpub, hpriv] at hq
  · obtain ⟨hauthor, _⟩ := questionFilter_own freshId hown
    obtain ⟨d, hd, hdq⟩ : ∃ d, user = some d ∧ d.userId = query.author := by
      cases user with
      | none => simp [isOwnListing] at hown
      | some d => exact ⟨d, rfl, by simpa [isOwnListing] using hown⟩
    obtain ⟨a, ha⟩ : ∃ a, d.userId = some a := by
      cases hu : d.userId with
      | none => exact absurd hu (hid d hd)
      | some a => exact ⟨a, rfl⟩
    have hqa : query.author = some a := by rw [← hdq, ha]
    have hfa : (questionFilter user freshId query).author = some a := by
      rw [hauthor, hqa]
      rfl
    refine ⟨Or.inr ⟨d, a, hd, ha, hqa, hfa⟩, fun q hq _ => ⟨d, a, hd, ha, ?_⟩⟩
    simp only [matchesFilter, hfa, Bool.and_eq_true, beq_iff_eq] at hq
    exact hq.1.1.1.1.1

theorem private_listed_for_author_only_witness :
    ((questionFilter (some { userId := some bobId, role := none }) carolId
        { subject := none, difficulty := none, tag := none, search := none,
          author := some bobId }).isPrivate = some false ∨
      ∃ d a, some ({ userId := some bobId, role := none } : Decoded) = some d ∧
        d.userId = some a ∧
        ({ subject := none, difficulty := none, tag := none, search := none,
           author := some bobId } : QuestionQuery).author = some a ∧
        (questionFilter (some { userId := some bobId, role := none }) carolId
          { subject := none, difficulty := none, tag := none, search := none,
            author := some bobId }).author = some a) ∧
    (∀ q, matchesFilter (fun _ _ => true)
        (questionFilter (some { userId := some bobId, role := none }) carolId
          { subject := none, difficulty := none, tag := none, search := none,
            author := some bobId }) q = true →
      q.isPrivate = true → ∃ d a, some ({ userId := some bobId, role := none } : Decoded) =
        some d ∧ d.userId = some a ∧ q.author = some a) :=
  private_listed_for_author_only (fun _ _ => true) (some { userId := some bobId, role := none })
    carolId { subject := none, difficulty := none, tag := none, search := none,
              author := some bobId }
    (fun d hd => by cases hd; exact fun h => by cases h)

/-! ## Votes -/

theorem hasVoted_ok (u : ObjectId) (votes : List Vote) (h : ∀ v ∈ votes, v.user.isSome = true) :
    hasVoted u votes = .ok (decide (votesBy u votes ≠ 0)) := by
  induction votes with
  | nil => simp [hasVoted, votesBy]
  | cons v vs ih =>
    have hv := h v (List.mem_cons_self v vs)
    have ih' := ih (fun x hx => h x (List.mem_cons_of_mem v hx))
    cases hvu : v.user with
    | none => simp [hvu] at hv
    | some x =>
      by_cases hx : x = u
      · simp [hasVoted, hvu, hx, votesBy, List.filter_cons]
      · simp only [hasVoted, hvu, beq_iff_eq, hx, if_false, ih']
        simp [votesBy, List.filter_cons, hvu, hx]

theorem withoutVotesOf_ok (u : ObjectId) (votes : List Vote)
    (h : ∀ v ∈ votes, v.user.isSome = true) :
    withoutVotesOf u votes = .ok (votesOfOthers u votes) := by
  induction votes with
  | nil => rfl
  | cons v vs ih =>
    have hv := h v (List.mem_cons_self v vs)
    have ih' := ih (fun x hx => h x (List.mem_cons_of_mem v hx))
    cases hvu : v.user with
    | none => simp [hvu] at hv
    | some x =>
      by_cases hx : x = u
      · simp [withoutVotesOf, hvu, hx, ih', votesOfOthers, List.filter_cons]
      · simp [withoutVotesOf, hvu, hx, ih', votesOfOthers, List.filter_cons]

theorem votesBy_others (u : ObjectId) (votes : List Vote) :
    votesBy u (votesOfOthers u votes) = 0 := by
  induction votes with
  | nil => rfl
  | cons v vs _ =>
    by_cases hv : v.user = some u
    · simp [votesOfOthers, votesBy, List.filter_cons, hv]
    · simp [votesOfOthers, votesBy, List.filter_cons, hv]

theorem votesOfOthers_idem (u : ObjectId) (votes : List Vote) :
    votesOfOthers u (votesOfOthers u votes) = votesOfOthers u votes := by
  simp [votesOfOthers, List.filter_filter]

theorem votesOfOthers_of_none (u : ObjectId) (votes : List Vote) (h : votesBy u votes = 0) :
    votesOfOthers u votes = votes := by
  induction votes with
  | nil => rfl
  | cons v vs ih =>
    by_cases hv : v.user = some u
    · simp [votesBy, List.filter_cons, hv] at h
    · have h' : votesBy u vs = 0 := by simpa [votesBy, List.filter_cons, hv] using h
      simp only [votesOfOthers, List.filter_cons, bne_iff_ne, ne_eq, hv, not_false_eq_true,
        decide_True, if_true]
      exact congrArg _ (ih h')

theorem votesBy_push (now : Nat) (u : ObjectId) (votes : List Vote) :
    votesBy u (votes ++ [newVote now u]) = votesBy u votes + 1 := by
  simp [votesBy, newVote, List.filter_append, List.filter_cons]

theorem votesOfOthers_push (now : Nat) (u : ObjectId) (votes : List Vote) :
    votesOfOthers u (votes ++ [newVote now u]) = votesOfOthers u votes := by
  simp [votesOfOthers, newVote, List.filter_append, List.filter_cons]

theorem votesBy_append (u : ObjectId) (ups downs : List Vote) :
    votesBy u (ups ++ downs) = votesBy u ups + votesBy u downs := by
  simp [votesBy, List.filter_append]

theorem users_of_others (u : ObjectId) (votes : List Vote)
    (h : ∀ v ∈ votes, v.user.isSome = true) :
    ∀ v ∈ votesOfOthers u votes, v.user.isSome = true :=
  fun v hv => h v (List.mem_filter.1 hv).1

theorem users_of_push (now : Nat) (u : ObjectId) (votes : List Vote)
    (h : ∀ v ∈ votes, v.user.isSome = true) :
    ∀ v ∈ votes ++ [newVote now u], v.user.isSome = true := by
  intro v hv
  rcases List.mem_append.1 hv with hv | hv
  · exact h v hv
  · rw [List.mem_singleton.1 hv]
    rfl

theorem castVote_ok (now : Nat) (u : ObjectId) (voteType : Option JsString)
    (ups downs : List Vote) (hu : ∀ v ∈ ups, v.user.isSome = true)
    (hd : ∀ v ∈ downs, v.user.isSome = true)
    (hone : votesBy u ups + votesBy u downs ≤ 1) :
    ∃ ups' downs',
      castVote now u voteType (decide (votesBy u ups ≠ 0)) (decide (votesBy u downs ≠ 0)) ups
        downs = .ok (ups', downs') ∧
      votesBy u ups' + votesBy u downs' ≤ 1 ∧
      votesOfOthers u ups' = votesOfOthers u ups ∧
      votesOfOthers u downs' = votesOfOthers u downs ∧
      (∀ v ∈ ups', v.user.isSome = true) ∧ (∀ v ∈ downs', v.user.isSome = true) := by
  unfold castVote
  by_cases hup : voteType = some (str "up")
  · simp only [hup, beq_self_eq_true, if_true]
    by_cases h1 : votesBy u ups = 0
    · by_cases h2 : votesBy u downs = 0
      · refine ⟨ups ++ [newVote now u], downs, by simp [h1, h2], ?_, votesOfOthers_push now u ups,
          rfl, users_of_push now u ups hu, hd⟩
        rw [votesBy_push]
        omega
      · refine ⟨ups ++ [newVote now u], votesOfOthers u downs,
          by simp [h1, h2, withoutVotesOf_ok u downs hd], ?_, votesOfOthers_push now u ups,
          votesOfOthers_idem u downs, users_of_push now u ups hu, users_of_others u downs hd⟩
        rw [votesBy_push, votesBy_others]
        omega
    · refine ⟨votesOfOthers u ups, downs, by simp [h1, withoutVotesOf_ok u ups hu], ?_,
        votesOfOthers_idem u ups, rfl, users_of_others u ups hu, hd⟩
      rw [votesBy_others]
      omega
  · have hup' : (voteType == some (str "up")) = false := by simpa using hup
    simp only [hup', Bool.false_eq_true, if_false]
    by_cases hdown : voteType = some (str "down")
    · simp only [hdown, beq_self_eq_true, if_true]
      by_cases h2 : votesBy u downs = 0
      · by_cases h1 : votesBy u ups = 0
        · refine ⟨ups, downs ++ [newVote now u], by simp [h1, h2], ?_, rfl,
            votesOfOthers_push now u downs, hu, users_of_push now u downs hd⟩
          rw [votesBy_push]
          omega
        · refine ⟨votesOfOthers u ups, downs ++ [newVote now u],
            by simp [h1, h2, withoutVotesOf_ok u ups hu], ?_, votesOfOthers_idem u ups,
            votesOfOthers_push now u downs, users_of_others u ups hu,
            users_of_push now u downs hd⟩
          rw [votesBy_push, votesBy_others]
          omega
      · refine ⟨ups, votesOfOthers u downs, by simp [h2, withoutVotesOf_ok u downs hd], ?_,
          rfl, votesOfOthers_idem u downs, hu, users_of_others u downs hd⟩
        rw [votesBy_others]
        omega
    · have hdown' : (voteType == some (str "down")) = false := by simpa using hdown
      simp only [hdown', Bool.false_eq_true, if_false]
      exact ⟨ups, downs, rfl, hone, rfl, rfl, hu, hd⟩

theorem findQuestion_some {questions : List Question} {id : ObjectId} {q : Question}
    (h : findQuestion questions id = some q) : q._id = id := by
  unfold findQuestion at h
  simpa using List.find?_some h

theorem findQuestion_putQuestion (q q' : Question) (hid : q'._id = q._id) :
    ∀ questions : List Question, findQuestion questions q._id = some q →
      findQuestion (putQuestion q' questions) q._id = some q' := by
  intro questions
  induction questions with
  | nil => intro h; simp [findQuestion] at h
  | cons x xs ih =>
    intro h
    by_cases hx : x._id = q._id
    · simp [findQuestion, putQuestion, hx, hid, List.find?_cons]
    · have hb : (x._id == q._id) = false := by simpa using hx
      have hb' : (x._id == q'._id) = false := by rw [hid]; exact hb
      simp only [findQuestion, List.find?_cons, hb] at h
      simp only [findQuestion, putQuestion, hb', Bool.false_eq_true, if_false, List.find?_cons,
        hb]
      exact ih h

theorem voteQuestion_valid {s : QaState} {id u a : ObjectId} {q : Question}
    {ups downs : List Vote} (now : Nat) (voteType : Option JsString)
    (hfind : findQuestion s.questions id = some q) (hvalid : questionInvalidPaths q = [])
    (hu : ∀ v ∈ q.upvotes, v.user.isSome = true) (hd : ∀ v ∈ q.downvotes, v.user.isSome = true)
    (ha : q.author = some a)
    (hcast : castVote now u voteType (decide (votesBy u q.upvotes ≠ 0))
      (decide (votesBy u q.downvotes ≠ 0)) q.upvotes q.downvotes = .ok (ups, downs)) :
    voteQuestion s now id u voteType =
      ({ questions := putQuestion { q with upvotes := ups, downvotes := downs,
                                           updatedAt := some now } s.questions,
         users := match reputationChange voteType (decide (votesBy u q.upvotes ≠ 0))
             (decide (votesBy u q.downvotes ≠ 0)) with
           | none => s.users
           | some amount => if a != u then incReputation now amount a s.users else s.users },
       .json 200 "Vote registered successfully"
         (some ((ups.length : Int) - (downs.length : Int)))) := by
  have hv : questionInvalidPaths { q with upvotes := ups, downvotes := downs } = [] := hvalid
  unfold voteQuestion
  simp only [hfind, hasVoted_ok u q.upvotes hu, hasVoted_ok u q.downvotes hd, hcast]
  have hv' := hv
  simp only [ha] at hv'
  cases hrc : reputationChange voteType (decide (votesBy u q.upvotes ≠ 0))
      (decide (votesBy u q.downvotes ≠ 0)) <;>
    simp [rewardAuthor, ha, hv']

theorem findAnswer_some {answers : List Answer} {id : ObjectId} {a : Answer}
    (h : findAnswer answers id = some a) : a._id = id := by
  unfold findAnswer at h
  simpa using List.find?_some h

theorem findAnswer_putAnswer (a a' : Answer) (hid : a'._id = a._id) :
    ∀ answers : List Answer, findAnswer answers a._id = some a →
      findAnswer (putAnswer a' answers) a._id = some a' := by
  intro answers
  induction answers with
  | nil => intro h; simp [findAnswer] at h
  | cons x xs ih =>
    intro h
    by_cases hx : x._id = a._id
    · simp [findAnswer, putAnswer, hx, hid, List.find?_cons]
    · have hb : (x._id == a._id) = false := by simpa using hx
      have hb' : (x._id == a'._id) = false := by rw [hid]; exact hb
      simp only [findAnswer, List.find?_cons, hb] at h
      simp only [findAnswer, putAnswer, hb', Bool.false_eq_true, if_false, List.find?_cons, hb]
      exact ih h

theorem voteAnswer_valid {answers : List Answer} {id u : ObjectId} {a : Answer}
    {ups downs : List Vote} (now : Nat) (voteType : Option JsString)
    (hfind : findAnswer answers id = some a) (hvalid : answerInvalidPaths a = [])
    (hu : ∀ v ∈ a.upvotes, v.user.isSome = true) (hd : ∀ v ∈ a.downvotes, v.user.isSome = true)
    (hcast : castVote now u voteType (decide (votesBy u a.upvotes ≠ 0))
      (decide (votesBy u a.downvotes ≠ 0)) a.upvotes a.downvotes = .ok (ups, downs)) :
    voteAnswer answers now id u voteType =
      (putAnswer { a with upvotes := ups, downvotes := downs, updatedAt := some now } answers,
       .json 200 "Vote registered successfully"
         (some ((ups.length : Int) - (downs.length : Int)))) := by
  have hv : answerInvalidPaths { a with upvotes := ups, downvotes := downs } = [] := hvalid
  unfold voteAnswer
  simp only [hfind, hasVoted_ok u a.upvotes hu, hasVoted_ok u a.downvotes hd, hcast]
  simp [hv]

theorem question_valid_author {q : Question} (h : questionInvalidPaths q = []) :
    q.author.isSome = true := by
  unfold questionInvalidPaths at h
  simp only [List.append_eq_nil] at h
  have h3 := h.1.1.1.2
  by_contra hc
  simp [hc] at h3

theorem voteQuestion_invalid {s : QaState} {id u : ObjectId} {q : Question} (now : Nat)
    (voteType : Option JsString) (hfind : findQuestion s.questions id = some q)
    (hinv : questionInvalidPaths q ≠ []) :
    (voteQuestion s now id u voteType).1.questions = s.questions ∧
      ∃ e, (voteQuestion s now id u voteType).2 = .next e := by
  unfold voteQuestion
  simp only [hfind]
  split
  · exact ⟨rfl, _, rfl⟩
  · split
    · exact ⟨rfl, _, rfl⟩
    · split
      · exact ⟨rfl, _, rfl⟩
      · rename_i ups downs _
        split
        · exact ⟨rfl, _, rfl⟩
        · have hinv' : questionInvalidPaths { q with upvotes := ups, downvotes := downs } ≠ [] :=
            hinv
          rw [if_neg hinv']
          exact ⟨rfl, _, rfl⟩

theorem voteAnswer_invalid {answers : List Answer} {id u : ObjectId} {a : Answer} (now : Nat)
    (voteType : Option JsString) (hfind : findAnswer answers id = some a)
    (hinv : answerInvalidPaths a ≠ []) :
    (voteAnswer answers now id u voteType).1 = answers ∧
      ∃ e, (voteAnswer answers now id u voteType).2 = .next e := by
  unfold voteAnswer
  simp only [hfind]
  split
  · exact ⟨rfl, _, rfl⟩
  · split
    · exact ⟨rfl, _, rfl⟩
    · split
      · exact ⟨rfl, _, rfl⟩
      · rename_i ups downs _
        have hinv' : answerInvalidPaths { a with upvotes := ups, downvotes := downs } ≠ [] :=
          hinv
        rw [if_neg hinv']
        exact ⟨rfl, _, rfl⟩

/-- C27: for every stored question and every stored answer whose votes all name a user and
in which the voting user has at most one entry in upvotes and downvotes taken together,
after `voteQuestion` and `voteAnswer` by that user, with `voteType` `up` or `down` (or any
other value), the stored document is one in which the user again has at most one entry in
both lists together and the entries of all other users are as before, in the same order; and
whenever a `voteCount` is returned it is the number of upvotes minus the number of downvotes
of the stored document. When the document satisfies its schema the call answers 200 with
that count; when it does not (as a question whose `closedReason` is `null`), `save()`
rejects, the call ends with `next(error)` and the stored document is the one from before. -/
theorem vote_keeps_one_entry_per_user (s : QaState) (answers : List Answer) (now : Nat)
    (qid aid u : ObjectId) (voteType : Option JsString) (q : Question) (a : Answer)
    (hq : findQuestion s.questions qid = some q)
    (hqu : ∀ v ∈ q.upvotes ++ q.downvotes, v.user.isSome = true)
    (hq1 : votesBy u (q.upvotes ++ q.downvotes) ≤ 1)
    (ha : findAnswer answers aid = some a)
    (hau : ∀ v ∈ a.upvotes ++ a.downvotes, v.user.isSome = true)
    (ha1 : votesBy u (a.upvotes ++ a.downvotes) ≤ 1) :
    (∃ q', findQuestion (voteQuestion s now qid u voteType).1.questions qid = some q' ∧
      votesBy u (q'.upvotes ++ q'.downvotes) ≤ 1 ∧
      votesOfOthers u q'.upvotes = votesOfOthers u q.upvotes ∧
      votesOfOthers u q'.downvotes = votesOfOthers u q.downvotes ∧
      (∀ status message n,
        (voteQuestion s now qid u voteType).2 = .json status message (some n) →
          n = (q'.upvotes.length : Int) - (q'.downvotes.length : Int)) ∧
      (questionInvalidPaths q = [] →
        ∃ n, (voteQuestion s now qid u voteType).2 =
          .json 200 "Vote registered successfully" (some n)) ∧
      (questionInvalidPaths q ≠ [] →
        q' = q ∧ ∃ e, (voteQuestion s now qid u voteType).2 = .next e)) ∧
    (∃ a', findAnswer (voteAnswer answers now aid u voteType).1 aid = some a' ∧
      votesBy u (a'.upvotes ++ a'.downvotes) ≤ 1 ∧
      votesOfOthers u a'.upvotes = votesOfOthers u a.upvotes ∧
      votesOfOthers u a'.downvotes = votesOfOthers u a.downvotes ∧
      (∀ status message n,
        (voteAnswer answers now aid u voteType).2 = .json status message (some n) →
          n = (a'.upvotes.length : Int) - (a'.downvotes.length : Int)) ∧
      (answerInvalidPaths a = [] →
        ∃ n, (voteAnswer answers now aid u voteType).2 =
          .json 200 "Vote registered successfully" (some n)) ∧
      (answerInvalidPaths a ≠ [] →
        a' = a ∧ ∃ e, (voteAnswer answers now aid u voteType).2 = .next e)) := by
  constructor
  · by_cases hqv : questionInvalidPaths q = []
    · have hu : ∀ v ∈ q.upvotes, v.user.isSome = true :=
        fun v hv => hqu v (List.mem_append_left _ hv)
      have hd : ∀ v ∈ q.downvotes, v.user.isSome = true :=
        fun v hv => hqu v (List.mem_append_right _ hv)
      have hq1' := hq1
      rw [votesBy_append] at hq1'
      obtain ⟨ups, downs, hcast, hone, hou, hod, _, _⟩ :=
        castVote_ok now u voteType q.upvotes q.downvotes hu hd hq1'
      obtain ⟨author, hauthor⟩ := Option.isSome_iff_exists.1 (question_valid_author hqv)
      have hval := voteQuestion_valid now voteType hq hqv hu hd hauthor hcast
      have hid : q._id = qid := findQuestion_some hq
      refine ⟨{ q with upvotes := ups, downvotes := downs, updatedAt := some now }, ?_, ?_,
        hou, hod, ?_, fun _ => ⟨_, by rw [hval]⟩, fun hne => absurd hqv hne⟩
      · rw [hval]
        subst hid
        exact findQuestion_putQuestion q
          { q with upvotes := ups, downvotes := downs, updatedAt := some now } rfl s.questions
          hq
      · rw [votesBy_append]
        exact hone
      · intro status message n hn
        rw [hval] at hn
        cases hn
        rfl
    · obtain ⟨hsame, e, he⟩ := voteQuestion_invalid (u := u) now voteType hq hqv
      refine ⟨q, by rw [hsame]; exact hq, hq1, rfl, rfl, ?_, fun h => absurd h hqv,
        fun _ => ⟨rfl, e, he⟩⟩
      intro status message n hn
      rw [he] at hn
      cases hn
  · by_cases hav : answerInvalidPaths a = []
    · have hu : ∀ v ∈ a.upvotes, v.user.isSome = true :=
        fun v hv => hau v (List.mem_append_left _ hv)
      have hd : ∀ v ∈ a.downvotes, v.user.isSome = true :=
        fun v hv => hau v (List.mem_append_right _ hv)
      have ha1' := ha1
      rw [votesBy_append] at ha1'
      obtain ⟨ups, downs, hcast, hone, hou, hod, _, _⟩ :=
        castVote_ok now u voteType a.upvotes a.downvotes hu hd ha1'
      have hval := voteAnswer_valid now voteType ha hav hu hd hcast
      have hid : a._id = aid := findAnswer_some ha
      refine ⟨{ a with upvotes := ups, downvotes := downs, updatedAt := some now }, ?_, ?_,
        hou, hod, ?_, fun _ => ⟨_, by rw [hval]⟩, fun hne => absurd hav hne⟩
      · rw [hval]
        subst hid
        exact findAnswer_putAnswer a
          { a with upvotes := ups, downvotes := downs, updatedAt := some now } rfl answers ha
      · rw [votesBy_append]
        exact hone
      · intro status message n hn
        rw [hval] at hn
        cases hn
        rfl
    · obtain ⟨hsame, e, he⟩ := voteAnswer_invalid (u := u) now voteType ha hav
      refine ⟨a, by rw [hsame]; exact ha, ha1, rfl, rfl, ?_, fun h => absurd h hav,
        fun _ => ⟨rfl, e, he⟩⟩
      intro status message n hn
      rw [he] at hn
      cases hn

theorem vote_keeps_one_entry_per_user_witness :
    questionInvalidPaths closedQuestion = [] ∧ answerInvalidPaths exampleAnswer = [] ∧
    (voteQuestion closedQa 9 (str "65b000000000000000000002") aliceId
      (some (str "down"))).2 = .json 200 "Vote registered successfully" (some (-1)) ∧
    (∃ q', findQuestion (voteQuestion closedQa 9 (str "65b000000000000000000002") aliceId
        (some (str "down"))).1.questions (str "65b000000000000000000002") = some q' ∧
      votesBy aliceId (q'.upvotes ++ q'.downvotes) ≤ 1 ∧
      votesOfOthers aliceId q'.upvotes = votesOfOthers aliceId closedQuestion.upvotes ∧
      votesOfOthers aliceId q'.downvotes = votesOfOthers aliceId closedQuestion.downvotes ∧
      (∀ status message n,
        (voteQuestion closedQa 9 (str "65b000000000000000000002") aliceId
          (some (str "down"))).2 = .json status message (some n) →
          n = (q'.upvotes.length : Int) - (q'.downvotes.length : Int)) ∧
      (questionInvalidPaths closedQuestion = [] →
        ∃ n, (voteQuestion closedQa 9 (str "65b000000000000000000002") aliceId
          (some (str "down"))).2 = .json 200 "Vote registered successfully" (some n)) ∧
      (questionInvalidPaths closedQuestion ≠ [] →
        q' = closedQuestion ∧
        ∃ e, (voteQuestion closedQa 9 (str "65b000000000000000000002") aliceId
          (some (str "down"))).2 = .next e)) ∧
    (∃ a', findAnswer (voteAnswer [exampleAnswer] 9 (str "65c000000000000000000001") aliceId
        (some (str "down"))).1 (str "65c000000000000000000001") = some a' ∧
      votesBy aliceId (a'.upvotes ++ a'.downvotes) ≤ 1 ∧
      votesOfOthers aliceId a'.upvotes = votesOfOthers aliceId exampleAnswer.upvotes ∧
      votesOfOthers aliceId a'.downvotes = votesOfOthers aliceId exampleAnswer.downvotes ∧
      (∀ status message n,
        (voteAnswer [exampleAnswer] 9 (str "65c000000000000000000001") aliceId
          (some (str "down"))).2 = .json status message (some n) →
          n = (a'.upvotes.length : Int) - (a'.downvotes.length : Int)) ∧
      (answerInvalidPaths exampleAnswer = [] →
        ∃ n, (voteAnswer [exampleAnswer] 9 (str "65c000000000000000000001") aliceId
          (some (str "down"))).2 = .json 200 "Vote registered successfully" (some n)) ∧
      (answerInvalidPaths exampleAnswer ≠ [] →
        a' = exampleAnswer ∧
        ∃ e, (voteAnswer [exampleAnswer] 9 (str "65c000000000000000000001") aliceId
          (some (str "down"))).2 = .next e)) :=
  ⟨by decide, by decide, by decide,
   vote_keeps_one_entry_per_user closedQa [exampleAnswer] 9 (str "65b000000000000000000002")
     (str "65c000000000000000000001") aliceId (some (str "down")) closedQuestion exampleAnswer
     (by decide) (by decide) (by decide) (by decide) (by decide) (by decide)⟩

theorem findUser_incReputation (now : Nat) (amount : Int) (a : ObjectId) :
    ∀ (users : List User) (au : User), findUser users (some a) = some au →
      findUser (incReputation now amount a users) (some a) =
        some { au with reputation := au.reputation + amount, updatedAt := some now } := by
  intro users
  induction users with
  | nil => intro au h; simp [findUser] at h
  | cons x xs ih =>
    intro au h
    by_cases hx : x._id = a
    · have hb : (x._id == a) = true := by simpa using hx
      simp only [findUser, List.find?_cons, hb] at h
      simp only [incReputation, hb, if_true, findUser, List.find?_cons]
      rw [Option.some.inj h]
    · have hb : (x._id == a) = false := by simpa using hx
      simp only [findUser, List.find?_cons, hb] at h
      simp only [incReputation, hb, Bool.false_eq_true, if_false, findUser, List.find?_cons]
      exact ih au h

theorem voteTwice_new_vote {s : QaState} {id u a : ObjectId} {q : Question} {au : User}
    (now₁ now₂ : Nat) (voteType : Option JsString) (amount : Int)
    (hq : findQuestion s.questions id = some q) (hqv : questionInvalidPaths q = [])
    (hqu : ∀ v ∈ q.upvotes ++ q.downvotes, v.user.isSome = true)
    (hnot : votesBy u (q.upvotes ++ q.downvotes) = 0) (hauthor : q.author = some a)
    (hne : a ≠ u) (hau : findUser s.users (some a) = some au)
    (hvt : (voteType = some (str "up") ∧ amount = 5) ∨
      (voteType = some (str "down") ∧ amount = -2)) :
    (∃ n, (voteQuestion s now₁ id u voteType).2 =
        .json 200 "Vote registered successfully" (some n)) ∧
    (voteQuestion (voteQuestion s now₁ id u voteType).1 now₂ id u voteType).2 =
      .json 200 "Vote registered successfully"
        (some ((q.upvotes.length : Int) - (q.downvotes.length : Int))) ∧
    ∃ q₂ au₂, findQuestion (voteTwice s now₁ now₂ id u voteType).questions id = some q₂ ∧
      q₂.upvotes = q.upvotes ∧ q₂.downvotes = q.downvotes ∧
      findUser (voteTwice s now₁ now₂ id u voteType).users (some a) = some au₂ ∧
      au₂.reputation = au.reputation + amount := by
  have hu : ∀ v ∈ q.upvotes, v.user.isSome = true :=
    fun v hv => hqu v (List.mem_append_left _ hv)
  have hd : ∀ v ∈ q.downvotes, v.user.isSome = true :=
    fun v hv => hqu v (List.mem_append_right _ hv)
  rw [votesBy_append] at hnot
  have h1 : votesBy u q.upvotes = 0 := by omega
  have h2 : votesBy u q.downvotes = 0 := by omega
  have hid : q._id = id := findQuestion_some hq
  have hau' : (a != u) = true := by simpa using hne
  subst hid
  rcases hvt with ⟨hvt, hamt⟩ | ⟨hvt, hamt⟩
  · subst hvt hamt
    -- first call: a new upvote
    have hcast₁ : castVote now₁ u (some (str "up")) (decide (votesBy u q.upvotes ≠ 0))
        (decide (votesBy u q.downvotes ≠ 0)) q.upvotes q.downvotes =
        .ok (q.upvotes ++ [newVote now₁ u], q.downvotes) := by
      simp [castVote, h1, h2]
    have hval₁ := voteQuestion_valid now₁ (some (str "up")) hq hqv hu hd hauthor hcast₁
    have hrc₁ : reputationChange (some (str "up")) (decide (votesBy u q.upvotes ≠ 0))
        (decide (votesBy u q.downvotes ≠ 0)) = some 5 := by
      simp [reputationChange, h1]
    simp only [hrc₁, hau', if_true] at hval₁
    -- second call: the upvote is withdrawn
    have hq₁ := findQuestion_putQuestion q
      { q with upvotes := q.upvotes ++ [newVote now₁ u], downvotes := q.downvotes,
               updatedAt := some now₁ } rfl s.questions hq
    have hup₁ : votesBy u (q.upvotes ++ [newVote now₁ u]) ≠ 0 := by
      rw [votesBy_push]
      omega
    have hcast₂ : castVote now₂ u (some (str "up"))
        (decide (votesBy u (q.upvotes ++ [newVote now₁ u]) ≠ 0))
        (decide (votesBy u q.downvotes ≠ 0)) (q.upvotes ++ [newVote now₁ u]) q.downvotes =
        .ok (q.upvotes, q.downvotes) := by
      simp [castVote, hup₁, withoutVotesOf_ok u _ (users_of_push now₁ u q.upvotes hu),
        votesOfOthers_push, votesOfOthers_of_none u q.upvotes h1]
    have hval₂ := voteQuestion_valid (s := (voteQuestion s now₁ q._id u (some (str "up"))).1)
      (q := { q with upvotes := q.upvotes ++ [newVote now₁ u], downvotes := q.downvotes,
                     updatedAt := some now₁ })
      now₂ (some (str "up")) (by rw [hval₁]; exact hq₁) hqv
      (users_of_push now₁ u q.upvotes hu) hd hauthor hcast₂
    have hrc₂ : reputationChange (some (str "up"))
        (decide (votesBy u (q.upvotes ++ [newVote now₁ u]) ≠ 0))
        (decide (votesBy u q.downvotes ≠ 0)) = none := by
      simp [reputationChange, hup₁]
    simp only [hrc₂] at hval₂
    refine ⟨⟨_, by rw [hval₁]⟩, by rw [hval₂], ?_⟩
    unfold voteTwice
    rw [hval₂]
    refine ⟨{ q with updatedAt := some now₂ },
      { au with reputation := au.reputation + 5, updatedAt := some now₁ }, ?_, rfl, rfl, ?_,
      rfl⟩
    · rw [hval₁]
      exact findQuestion_putQuestion
        { q with upvotes := q.upvotes ++ [newVote now₁ u], downvotes := q.downvotes,
                 updatedAt := some now₁ }
        { q with updatedAt := some now₂ } rfl _ hq₁
    · rw [hval₁]
      exact findUser_incReputation now₁ 5 a s.users au hau
  · subst hvt hamt
    have hcast₁ : castVote now₁ u (some (str "down")) (decide (votesBy u q.upvotes ≠ 0))
        (decide (votesBy u q.downvotes ≠ 0)) q.upvotes q.downvotes =
        .ok (q.upvotes, q.downvotes ++ [newVote now₁ u]) := by
      have hne' : (some (str "down") == some (str "up")) = false := by decide
      simp [castVote, hne', h1, h2]
    have hval₁ := voteQuestion_valid now₁ (some (str "down")) hq hqv hu hd hauthor hcast₁
    have hrc₁ : reputationChange (some (str "down")) (decide (votesBy u q.upvotes ≠ 0))
        (decide (votesBy u q.downvotes ≠ 0)) = some (-2) := by
      have hne' : (some (str "down") == some (str "up")) = false := by decide
      simp [reputationChange, hne', h2]
    simp only [hrc₁, hau', if_true] at hval₁
    have hq₁ := findQuestion_putQuestion q
      { q with upvotes := q.upvotes, downvotes := q.downvotes ++ [newVote now₁ u],
               updatedAt := some now₁ } rfl s.questions hq
    have hdown₁ : votesBy u (q.downvotes ++ [newVote now₁ u]) ≠ 0 := by
      rw [votesBy_push]
      omega
    have hcast₂ : castVote now₂ u (some (str "down")) (decide (votesBy u q.upvotes ≠ 0))
        (decide (votesBy u (q.downvotes ++ [newVote now₁ u]) ≠ 0)) q.upvotes
        (q.downvotes ++ [newVote now₁ u]) = .ok (q.upvotes, q.downvotes) := by
      have hne' : (some (str "down") == some (str "up")) = false := by decide
      simp [castVote, hne', hdown₁, withoutVotesOf_ok u _ (users_of_push now₁ u q.downvotes hd),
        votesOfOthers_push, votesOfOthers_of_none u q.downvotes h2]
    have hval₂ := voteQuestion_valid (s := (voteQuestion s now₁ q._id u (some (str "down"))).1)
      (q := { q with upvotes := q.upvotes, downvotes := q.downvotes ++ [newVote now₁ u],
                     updatedAt := some now₁ })
      now₂ (some (str "down")) (by rw [hval₁]; exact hq₁) hqv hu
      (users_of_push now₁ u q.downvotes hd) hauthor hcast₂
    have hrc₂ : reputationChange (some (str "down")) (decide (votesBy u q.upvotes ≠ 0))
        (decide (votesBy u (q.downvotes ++ [newVote now₁ u]) ≠ 0)) = none := by
      have hne' : (some (str "down") == some (str "up")) = false := by decide
      simp [reputationChange, hne', hdown₁]
    simp only [hrc₂] at hval₂
    refine ⟨⟨_, by rw [hval₁]⟩, by rw [hval₂], ?_⟩
    unfold voteTwice
    rw [hval₂]
    refine ⟨{ q with updatedAt := some now₂ },
      { au with reputation := au.reputation + -2, updatedAt := some now₁ }, ?_, rfl, rfl, ?_,
      rfl⟩
    · rw [hval₁]
      exact findQuestion_putQuestion
        { q with upvotes := q.upvotes, downvotes := q.downvotes ++ [newVote now₁ u],
                 updatedAt := some now₁ }
        { q with updatedAt := some now₂ } rfl _ hq₁
    · rw [hval₁]
      exact findUser_incReputation now₁ (-2) a s.users au hau

/-- On a question that satisfies its schema, so one that is closed with a listed reason, two
votes of the same kind cancel: for every such stored question whose votes all name a user,
and every voter who is not its author and has no entry in its votes, two consecutive
`voteQuestion` calls with `voteType` `up` both answer 200 and leave the `upvotes` and
`downvotes` of the question as they were before the first call, while the reputation of the
author, a stored user, ends 5 higher; two consecutive calls with `down` likewise leave both
lists as they were and the reputation 2 lower. -/
theorem double_vote_on_valid_question (s : QaState) (now₁ now₂ : Nat) (id u a : ObjectId)
    (q : Question) (au : User) (hq : findQuestion s.questions id = some q)
    (hqv : questionInvalidPaths q = [])
    (hqu : ∀ v ∈ q.upvotes ++ q.downvotes, v.user.isSome = true)
    (hnot : votesBy u (q.upvotes ++ q.downvotes) = 0) (hauthor : q.author = some a)
    (hne : a ≠ u) (hau : findUser s.users (some a) = some au) :
    ((∃ n, (voteQuestion s now₁ id u (some (str "up"))).2 =
        .json 200 "Vote registered successfully" (some n)) ∧
      (voteQuestion (voteQuestion s now₁ id u (some (str "up"))).1 now₂ id u
          (some (str "up"))).2 =
        .json 200 "Vote registered successfully"
          (some ((q.upvotes.length : Int) - (q.downvotes.length : Int))) ∧
      ∃ q₂ au₂,
        findQuestion (voteTwice s now₁ now₂ id u (some (str "up"))).questions id = some q₂ ∧
        q₂.upvotes = q.upvotes ∧ q₂.downvotes = q.downvotes ∧
        findUser (voteTwice s now₁ now₂ id u (some (str "up"))).users (some a) = some au₂ ∧
        au₂.reputation = au.reputation + 5) ∧
    ((∃ n, (voteQuestion s now₁ id u (some (str "down"))).2 =
        .json 200 "Vote registered successfully" (some n)) ∧
      (voteQuestion (voteQuestion s now₁ id u (some (str "down"))).1 now₂ id u
          (some (str "down"))).2 =
        .json 200 "Vote registered successfully"
          (some ((q.upvotes.length : Int) - (q.downvotes.length : Int))) ∧
      ∃ q₂ au₂,
        findQuestion (voteTwice s now₁ now₂ id u (some (str "down"))).questions id = some q₂ ∧
        q₂.upvotes = q.upvotes ∧ q₂.downvotes = q.downvotes ∧
        findUser (voteTwice s now₁ now₂ id u (some (str "down"))).users (some a) = some au₂ ∧
        au₂.reputation = au.reputation - 2) :=
  ⟨voteTwice_new_vote now₁ now₂ (some (str "up")) 5 hq hqv hqu hnot hauthor hne hau
      (Or.inl ⟨rfl, rfl⟩),
   voteTwice_new_vote now₁ now₂ (some (str "down")) (-2) hq hqv hqu hnot hauthor hne hau
      (Or.inr ⟨rfl, rfl⟩)⟩

theorem double_vote_restores_lists_closed :
    ((∃ n, (voteQuestion closedQa 5 (str "65b000000000000000000002") bobId
          (some (str "up"))).2 = .json 200 "Vote registered successfully" (some n)) ∧
      (voteQuestion (voteQuestion closedQa 5 (str "65b000000000000000000002") bobId
          (some (str "up"))).1 6 (str "65b000000000000000000002") bobId (some (str "up"))).2 =
        .json 200 "Vote registered successfully"
          (some ((closedQuestion.upvotes.length : Int) -
            (closedQuestion.downvotes.length : Int))) ∧
      ∃ q₂ au₂,
        findQuestion (voteTwice closedQa 5 6 (str "65b000000000000000000002") bobId
          (some (str "up"))).questions (str "65b000000000000000000002") = some q₂ ∧
        q₂.upvotes = closedQuestion.upvotes ∧ q₂.downvotes = closedQuestion.downvotes ∧
        findUser (voteTwice closedQa 5 6 (str "65b000000000000000000002") bobId
          (some (str "up"))).users (some carolId) = some au₂ ∧
        au₂.reputation = carolUser.reputation + 5) ∧
    ((∃ n, (voteQuestion closedQa 5 (str "65b000000000000000000002") bobId
          (some (str "down"))).2 = .json 200 "Vote registered successfully" (some n)) ∧
      (voteQuestion (voteQuestion closedQa 5 (str "65b000000000000000000002") bobId
          (some (str "down"))).1 6 (str "65b000000000000000000002") bobId
          (some (str "down"))).2 =
        .json 200 "Vote registered successfully"
          (some ((closedQuestion.upvotes.length : Int) -
            (closedQuestion.downvotes.length : Int))) ∧
      ∃ q₂ au₂,
        findQuestion (voteTwice closedQa 5 6 (str "65b000000000000000000002") bobId
          (some (str "down"))).questions (str "65b000000000000000000002") = some q₂ ∧
        q₂.upvotes = closedQuestion.upvotes ∧ q₂.downvotes = closedQuestion.downvotes ∧
        findUser (voteTwice closedQa 5 6 (str "65b000000000000000000002") bobId
          (some (str "down"))).users (some carolId) = some au₂ ∧
        au₂.reputation = carolUser.reputation - 2) :=
  double_vote_on_valid_question closedQa 5 6 (str "65b000000000000000000002") bobId carolId
    closedQuestion carolUser (by decide) (by decide) (by decide) (by decide) (by decide)
    (by decide) (by decide)

/-- C28, evaluated at an open question: `exampleQuestion` has the default `closedReason`,
`null`, its author is `carol` and `bob` has not voted on it. Each of two consecutive
`voteQuestion` calls of `bob` with `up` increments the reputation of `carol` by 5 and then
ends with `next` of the validation error of `save()`, which rejects `closedReason`: the
vote is never stored, so the second call is again a new vote. The lists are as before, but
the reputation of `carol` ends 10 higher, not 5; with `down` it ends 4 lower, not 2. -/
theorem double_vote_on_open_question_rewards_twice :
    exampleQuestion.closedReason = none ∧ exampleQuestion.author = some carolId ∧
    votesBy bobId (exampleQuestion.upvotes ++ exampleQuestion.downvotes) = 0 ∧
    findUser votingQa.users (some carolId) = some carolUser ∧
    (voteQuestion votingQa 5 (str "65b000000000000000000002") bobId (some (str "up"))).2 =
      .next (.validation ["closedReason"]) ∧
    (voteQuestion (voteQuestion votingQa 5 (str "65b000000000000000000002") bobId
      (some (str "up"))).1 6 (str "65b000000000000000000002") bobId (some (str "up"))).2 =
      .next (.validation ["closedReason"]) ∧
    (voteTwice votingQa 5 6 (str "65b000000000000000000002") bobId
      (some (str "up"))).questions = [exampleQuestion] ∧
    (findUser (voteTwice votingQa 5 6 (str "65b000000000000000000002") bobId
      (some (str "up"))).users (some carolId)).map (fun user => user.reputation) =
      some (carolUser.reputation + 10) ∧
    (voteTwice votingQa 5 6 (str "65b000000000000000000002") bobId
      (some (str "down"))).questions = [exampleQuestion] ∧
    (findUser (voteTwice votingQa 5 6 (str "65b000000000000000000002") bobId
      (some (str "down"))).users (some carolId)).map (fun user => user.reputation) =
      some (carolUser.reputation - 4) := by
  decide

/-! ## Password reset and refresh tokens -/

/-- C25: for every two `requestPasswordReset` runs, one with an email that belongs to a
stored user, for whom the mail is sent, and one with an email that belongs to no user, the
responses are identical: status 200 with the same message. -/
theorem reset_response_hides_registration (sendMail : JsString → JsString → Except Err Unit)
    (users : List User) (now₁ now₂ : Nat) (token₁ token₂ e₁ e₂ : JsString) (u : User)
    (h₁ : findByEmail users (some e₁) = some u) (hmail : sendMail u.email token₁ = .ok ())
    (h₂ : findByEmail users (some e₂) = none) :
    (requestPasswordReset sendMail users now₁ token₁ (some e₁)).2 =
      (requestPasswordReset sendMail users now₂ token₂ (some e₂)).2 ∧
    (requestPasswordReset sendMail users now₁ token₁ (some e₁)).2 =
      .json 200 "If your email is registered, you will receive a password reset link" none := by
  simp [requestPasswordReset, h₁, h₂, hmail]

theorem reset_response_hides_registration_witness :
    (requestPasswordReset (fun _ _ => .ok ()) [bobUser, carolUser] 7 (str "0f0f")
        (some (str "bob@example.com"))).2 =
      (requestPasswordReset (fun _ _ => .ok ()) [bobUser, carolUser] 8 (str "1e1e")
        (some (str "nobody@example.com"))).2 ∧
    (requestPasswordReset (fun _ _ => .ok ()) [bobUser, carolUser] 7 (str "0f0f")
        (some (str "bob@example.com"))).2 =
      .json 200 "If your email is registered, you will receive a password reset link" none :=
  reset_response_hides_registration (fun _ _ => .ok ()) [bobUser, carolUser] 7 8 (str "0f0f")
    (str "1e1e") (str "bob@example.com") (str "nobody@example.com") bobUser (by decide) rfl
    (by decide)

theorem findUser_putUser (u u' : User) (hid : u'._id = u._id) :
    ∀ users : List User, findUser users (some u._id) = some u →
      findUser (putUser u' users) (some u._id) = some u' := by
  intro users
  induction users with
  | nil => intro h; simp [findUser] at h
  | cons x xs ih =>
    intro h
    by_cases hx : x._id = u._id
    · simp [findUser, putUser, hx, hid, List.find?_cons]
    · have hb : (x._id == u._id) = false := by simpa using hx
      have hb' : (x._id == u'._id) = false := by rw [hid]; exact hb
      simp only [findUser, List.find?_cons, hb] at h
      simp only [findUser, putUser, hb', Bool.false_eq_true, if_false, List.find?_cons, hb]
      exact ih h

theorem mem_withoutToken {presented : Option JsString} {tokens : List RefreshToken}
    {x : RefreshToken} (h : x ∈ withoutToken presented tokens) : x.token ≠ presented := by
  simpa using (List.mem_filter.1 h).2

/-- C26: for every stored user `u` found by the presented refresh token `p`, with `t` the
entry of that token in the list of `u`: when `t` is not expired at the time `now` of the
call, `refreshToken` answers 200 with the new tokens, and in the saved user no entry has the
token `p` (unless the fresh token equals `p`), the fresh token is in the list with an expiry
30 days after `now`, and every entry of the list expires after `now`; when `t` is expired,
the call answers 401 and the saved user has no entry with the token `p` any more. -/
theorem refresh_rotates_token (sign : ObjectId → JsString → JsString) (users : List User)
    (now : Nat) (fresh p : JsString) (u : User) (t : RefreshToken) (hp : p ≠ [])
    (hfound : findByRefreshToken users (some p) = some u)
    (hstored : findUser users (some u._id) = some u)
    (hdoc : u.refreshTokens.find? (fun x => x.token == some p) = some t) :
    (expiresBefore t.expiresAt now = false →
      ∃ u', refreshToken sign users now fresh (some p) =
          (putUser u' users,
           .json 200 "Token refreshed successfully"
             (some { accessToken := sign u._id u.role, refreshToken := fresh,
                     expiresIn := 3600 })) ∧
        findUser (putUser u' users) (some u._id) = some u' ∧
        (p ≠ fresh → ∀ x ∈ u'.refreshTokens, x.token ≠ some p) ∧
        (⟨some fresh, some (now + refreshLifetime)⟩ : RefreshToken) ∈ u'.refreshTokens ∧
        (∀ x ∈ u'.refreshTokens, ∃ e, x.expiresAt = some e ∧ now < e)) ∧
    (expiresBefore t.expiresAt now = true →
      ∃ u', refreshToken sign users now fresh (some p) =
          (putUser u' users, .json 401 "Refresh token expired" none) ∧
        findUser (putUser u' users) (some u._id) = some u' ∧
        (∀ x ∈ u'.refreshTokens, x.token ≠ some p)) := by
  have htruthy : truthy (some p) = true := truthy_some.2 hp
  constructor
  · intro hlive
    refine ⟨(generateTokens sign now fresh
        { u with refreshTokens := withoutToken (some p) u.refreshTokens,
                 updatedAt := some now }).1, ?_, ?_, ?_, ?_, ?_⟩
    · simp [refreshToken, htruthy, hfound, hdoc, hlive, generateTokens]
    · refine findUser_putUser u _ ?_ users hstored
      rfl
    · intro hne x hx
      simp only [generateTokens] at hx
      rcases List.mem_append.1 (List.mem_filter.1 hx).1 with hx | hx
      · exact mem_withoutToken hx
      · rw [List.mem_singleton.1 hx]
        exact fun h => hne (Option.some.inj h).symm
    · simp only [generateTokens]
      refine List.mem_filter.2 ⟨List.mem_append_right _ (List.mem_singleton.2 rfl), ?_⟩
      simp [expiresAfter, refreshLifetime]
    · intro x hx
      simp only [generateTokens] at hx
      have hx2 := (List.mem_filter.1 hx).2
      cases he : x.expiresAt with
      | none => simp [expiresAfter, he] at hx2
      | some e => exact ⟨e, rfl, by simpa [expiresAfter, he] using hx2⟩
  · intro hdead
    refine ⟨{ u with refreshTokens := withoutToken (some p) u.refreshTokens,
                     updatedAt := some now }, ?_, ?_, ?_⟩
    · simp [refreshToken, htruthy, hfound, hdoc, hdead]
    · refine findUser_putUser u _ ?_ users hstored
      rfl
    · exact fun x hx => mem_withoutToken hx

theorem refresh_rotates_token_witness :
    (expiresBefore (⟨some (str "a1b2c3"), some 5000⟩ : RefreshToken).expiresAt 1000 = false →
      ∃ u', refreshToken (fun _ _ => str "jwt") [bobWithToken] 1000 (str "d4e5f6")
            (some (str "a1b2c3")) =
          (putUser u' [bobWithToken],
           .json 200 "Token refreshed successfully"
             (some { accessToken := (fun _ _ => str "jwt") bobWithToken._id bobWithToken.role,
                     refreshToken := str "d4e5f6", expiresIn := 3600 })) ∧
        findUser (putUser u' [bobWithToken]) (some bobWithToken._id) = some u' ∧
        (str "a1b2c3" ≠ str "d4e5f6" → ∀ x ∈ u'.refreshTokens, x.token ≠ some (str "a1b2c3")) ∧
        (⟨some (str "d4e5f6"), some (1000 + refreshLifetime)⟩ : RefreshToken) ∈
          u'.refreshTokens ∧
        (∀ x ∈ u'.refreshTokens, ∃ e, x.expiresAt = some e ∧ 1000 < e)) ∧
    (expiresBefore (⟨some (str "a1b2c3"), some 5000⟩ : RefreshToken).expiresAt 1000 = true →
      ∃ u', refreshToken (fun _ _ => str "jwt") [bobWithToken] 1000 (str "d4e5f6")
            (some (str "a1b2c3")) =
          (putUser u' [bobWithToken], .json 401 "Refresh token expired" none) ∧
        findUser (putUser u' [bobWithToken]) (some bobWithToken._id) = some u' ∧
        (∀ x ∈ u'.refreshTokens, x.token ≠ some (str "a1b2c3"))) :=
  refresh_rotates_token (fun _ _ => str "jwt") [bobWithToken] 1000 (str "d4e5f6")
    (str "a1b2c3") bobWithToken ⟨some (str "a1b2c3"), some 5000⟩ (by decide) (by decide)
    (by decide) (by decide)

/-! ## Updating a profile -/

theorem removeForbidden_eq (body : JsonObject) :
    removeForbidden body = body.filter (fun kv => !forbiddenUpdates.contains kv.1) := by
  unfold removeForbidden forbiddenUpdates
  simp only [List.foldl, deleteField, List.filter_filter]
  congr 1
  funext kv
  simp only [List.contains, List.elem, bne, Bool.and_eq_true]
  cases h1 : kv.1 == str "password" <;> cases h2 : kv.1 == str "role" <;>
    cases h3 : kv.1 == str "email" <;> cases h4 : kv.1 == str "isVerified" <;>
    cases h5 : kv.1 == str "isBanned" <;> cases h6 : kv.1 == str "refreshTokens" <;> rfl

theorem removeForbidden_keys (body : JsonObject) :
    (∀ kv ∈ removeForbidden body, kv.1 ∉ forbiddenUpdates) ∧
    (∀ kv ∈ body, kv.1 ∉ forbiddenUpdates → kv ∈ removeForbidden body) := by
  rw [removeForbidden_eq]
  constructor
  · intro kv hkv
    simpa using (List.mem_filter.1 hkv).2
  · intro kv hkv hn
    exact List.mem_filter.2 ⟨hkv, by simpa using hn⟩

/-- C23, evaluated at a body with the keys `refreshTokens`, `refreshTokens.0.token` and
`bio`: the loop deletes the key `refreshTokens` and keeps the two others unchanged, so the
`$set` document still holds a path into `refreshTokens`; applied with the dot notation of the
database it overwrites the token of the first stored refresh token, and the `refreshTokens`
of the stored user differ before and after the call. -/
theorem updateProfile_dotted_path_changes_refreshTokens :
    removeForbidden
        [(str "refreshTokens", .nested (str "[]")),
         (str "refreshTokens.0.token", .str (str "chosen")),
         (str "bio", .str (str "hi"))] =
      [(str "refreshTokens.0.token", .str (str "chosen")), (str "bio", .str (str "hi"))] ∧
    (updateProfile exampleFindByIdAndUpdate [bobWithToken, carolUser] bobId
        [(str "refreshTokens", .nested (str "[]")),
         (str "refreshTokens.0.token", .str (str "chosen")),
         (str "bio", .str (str "hi"))]).1 =
      [{ bobWithToken with
           bio := str "hi",
           refreshTokens := [{ token := some (str "chosen"), expiresAt := some 5000 }] },
       carolUser] ∧
    bobWithToken.refreshTokens = [{ token := some (str "a1b2c3"), expiresAt := some 5000 }] ∧
    (findUser (updateProfile exampleFindByIdAndUpdate [bobWithToken, carolUser] bobId
        [(str "refreshTokens", .nested (str "[]")),
         (str "refreshTokens.0.token", .str (str "chosen")),
         (str "bio", .str (str "hi"))]).1 (some bobId)).map (fun u => u.refreshTokens) ≠
      (findUser [bobWithToken, carolUser] (some bobId)).map (fun u => u.refreshTokens) := by
  decide

end SmartSolve
